import Mathlib

/-!
# RAVEN VSFS consistency checker: a shallow embedding and its properties

The definitions below follow `src/raven_vsfs.c` function by function.

* C arrays (`inode_bitmap`, `data_bitmap`, `inodes`, the three tracking arrays) are
  functions from the index to the stored value; only indices below the declared array
  length are ever read or written by the program.
* `uint8_t`, `uint16_t`, `uint32_t` and `int` values are natural numbers (the owner
  array, which holds `-1`, is integer valued); the one subtraction on `uint32_t`
  wraps modulo `2 ^ 32` as in C.
* The global variables of the program are the fields of `State`; every C function
  becomes a function on `State`, returning its `int` result next to the new state.
* `printf` of an `ERROR:` or `Fixed:` line appends a structured `Msg` to `State.out`;
  banner and summary lines carry no information beyond the counters and are left out.
  `write_block` appends the block number to `State.writes`.
* `for (int i = 0; i < n; i++)` is `for_loop n`.
* The functions named `*_checked` are the same functions once more with every array access
  checked against the declared length of the array; they return `none` on an access
  outside it.
-/

namespace RavenVsfs

/-! ## Layout constants -/

def BLOCK_SIZE : Nat := 4096
def TOTAL_BLOCKS : Nat := 64
def INODE_SIZE : Nat := 256
def INODES_PER_BLOCK : Nat := BLOCK_SIZE / INODE_SIZE
def INODE_TABLE_BLOCKS : Nat := 5
def INODE_COUNT : Nat := INODES_PER_BLOCK * INODE_TABLE_BLOCKS
def SUPERBLOCK_MAGIC : Nat := 0xd34d

def SUPERBLOCK_BLOCK : Nat := 0
def INODE_BITMAP_BLOCK : Nat := 1
def DATA_BITMAP_BLOCK : Nat := 2
def INODE_TABLE_START_BLOCK : Nat := 3
def DATA_BLOCK_START : Nat := 8
def DATA_BLOCK_COUNT : Nat := TOTAL_BLOCKS - DATA_BLOCK_START

/-! ## Data model -/

/-- The `Inode` record of the source: fourteen `uint32_t` fields and the reserved bytes. -/
structure Inode where
  mode : Nat
  uid : Nat
  gid : Nat
  size : Nat
  atime : Nat
  ctime : Nat
  mtime : Nat
  dtime : Nat
  links_count : Nat
  blocks_count : Nat
  direct_block : Nat
  single_indirect : Nat
  double_indirect : Nat
  triple_indirect : Nat
  reserved : List Nat
deriving DecidableEq, Repr

/-- The `Superblock` record of the source: a `uint16_t` magic, eight `uint32_t` fields
and the reserved bytes. -/
structure Superblock where
  magic : Nat
  block_size : Nat
  total_blocks : Nat
  inode_bitmap_block : Nat
  data_bitmap_block : Nat
  inode_table_block : Nat
  first_data_block : Nat
  inode_size : Nat
  inode_count : Nat
  reserved : List Nat
deriving DecidableEq, Repr

/-- The nine superblock fields that the checker compares, in source order. -/
inductive SbField where
  | magic
  | block_size
  | total_blocks
  | inode_bitmap_block
  | data_bitmap_block
  | inode_table_block
  | first_data_block
  | inode_size
  | inode_count
deriving DecidableEq, Repr

/-- The four block pointer fields of an inode, in source order. -/
inductive PtrField where
  | direct
  | single
  | double
  | triple
deriving DecidableEq, Repr

/-- One diagnostic line of the program, with the values its format string prints. -/
inductive Msg where
  /-- Line `ERROR: Invalid <field>: <actual> (should be <expected>)`. -/
  | sb_invalid (field : SbField) (actual expected : Nat)
  /-- Line `ERROR: Inode %d marked as used in bitmap but is not valid`. -/
  | inode_used_not_valid (i : Nat)
  /-- Line `ERROR: Inode %d is valid but marked as free in bitmap`. -/
  | inode_valid_marked_free (i : Nat)
  /-- Line `ERROR: Data block %d marked as used in bitmap but not referenced by any inode`. -/
  | data_used_not_referenced (block : Nat)
  /-- Line `ERROR: Data block %d is referenced by inode %d but marked as free in bitmap`. -/
  | data_referenced_marked_free (block : Nat) (owner : Int)
  /-- Line `ERROR: Data block %d is referenced by multiple inodes (%d and %d)`. -/
  | duplicate (block : Nat) (owner : Int) (claimant : Nat)
  /-- Line `ERROR: Inode %d has invalid <field> block pointer (%u)`. -/
  | bad_pointer (i : Nat) (field : PtrField) (value : Nat)
  /-- Line `Fixed: Set <field> to <value>`. -/
  | fixed_sb (field : SbField) (value : Nat)
  /-- Line `Fixed: Set inode %d bitmap bit to %d`. -/
  | fixed_inode_bit (i : Nat) (value : Bool)
  /-- Line `Fixed: Set data block %d bitmap bit to %d`. -/
  | fixed_data_bit (block : Nat) (value : Bool)
deriving DecidableEq, Repr

/-- The global variables of the program, with its standard output and the list of
blocks handed to `write_block`. -/
structure State where
  sb : Superblock
  inode_bitmap : Nat → Nat
  data_bitmap : Nat → Nat
  inodes : Nat → Inode
  inode_referenced : Nat → Bool
  data_block_referenced : Nat → Bool
  data_block_owner : Nat → Int
  errors_found : Nat
  errors_fixed : Nat
  out : List Msg
  writes : List Nat

/-- Effect of `printf` for a diagnostic line. -/
def State.emit (s : State) (m : Msg) : State :=
  { s with out := s.out ++ [m] }

/-- Effect of `write_block(block_num, ...)`: the block number is recorded. -/
def write_block (block_num : Nat) (s : State) : State :=
  { s with writes := s.writes ++ [block_num] }

/-- The loop `for (int i = 0; i < n; i++) body`. -/
def for_loop {σ : Type} (n : Nat) (body : Nat → σ → σ) (init : σ) : σ :=
  (List.range n).foldl (fun acc i => body i acc) init

/-- Subtraction of two `uint32_t` operands. -/
def u32_sub (a b : Nat) : Nat :=
  (a + 4294967296 - b % 4294967296) % 4294967296

/-! ## Bit and validity helpers -/

def is_bit_set (bitmap : Nat → Nat) (bit : Nat) : Bool :=
  let byte_index := bit / 8
  let bit_pos := bit % 8
  (bitmap byte_index &&& (1 <<< bit_pos)) != 0

/-- In `set_bit` the complement `~(1 << bit_pos)` is taken on a 32-bit `int`, and the
result of either branch is stored back into a `uint8_t`. -/
def set_bit (bitmap : Nat → Nat) (bit : Nat) (value : Bool) : Nat → Nat :=
  let byte_index := bit / 8
  let bit_pos := bit % 8
  if value then
    Function.update bitmap byte_index ((bitmap byte_index ||| (1 <<< bit_pos)) % 256)
  else
    Function.update bitmap byte_index
      ((bitmap byte_index &&& (4294967295 ^^^ (1 <<< bit_pos))) % 256)

def is_inode_valid (inodes : Nat → Inode) (inode_num : Nat) : Bool :=
  decide ((inodes inode_num).links_count > 0) && decide ((inodes inode_num).dtime = 0)

def is_block_valid (block_num : Nat) : Bool :=
  decide (block_num = 0) ||
    (decide (block_num ≥ DATA_BLOCK_START) && decide (block_num < TOTAL_BLOCKS))

/-! ## Feature 1: superblock validator -/

/-- One `if (sb.field != CONSTANT) { printf(...); errors++; }` statement. -/
def sb_check_field (field : SbField) (actual expected : Nat) (es : Nat × State) :
    Nat × State :=
  if actual ≠ expected then
    (es.1 + 1, es.2.emit (Msg.sb_invalid field actual expected))
  else es

def check_superblock (s : State) : Nat × State :=
  let es : Nat × State := (0, s)
  let es := sb_check_field SbField.magic s.sb.magic SUPERBLOCK_MAGIC es
  let es := sb_check_field SbField.block_size s.sb.block_size BLOCK_SIZE es
  let es := sb_check_field SbField.total_blocks s.sb.total_blocks TOTAL_BLOCKS es
  let es := sb_check_field SbField.inode_bitmap_block s.sb.inode_bitmap_block
    INODE_BITMAP_BLOCK es
  let es := sb_check_field SbField.data_bitmap_block s.sb.data_bitmap_block
    DATA_BITMAP_BLOCK es
  let es := sb_check_field SbField.inode_table_block s.sb.inode_table_block
    INODE_TABLE_START_BLOCK es
  let es := sb_check_field SbField.first_data_block s.sb.first_data_block
    DATA_BLOCK_START es
  let es := sb_check_field SbField.inode_size s.sb.inode_size INODE_SIZE es
  let es := sb_check_field SbField.inode_count s.sb.inode_count INODE_COUNT es
  (es.1, { es.2 with errors_found := es.2.errors_found + es.1 })

/-! ## Block reference tracking -/

/-- One `if (inode->ptr != 0) { if (is_block_valid(inode->ptr)) { ... } }` statement of
`process_block_pointers`. -/
def track_pointer (inode_num : Nat) (ptr : Nat) (s : State) : State :=
  if ptr ≠ 0 then
    if is_block_valid ptr then
      let data_idx := u32_sub ptr DATA_BLOCK_START
      { s with
        data_block_referenced := Function.update s.data_block_referenced data_idx true
        data_block_owner := Function.update s.data_block_owner data_idx (inode_num : Int) }
    else s
  else s

def process_block_pointers (inode_num : Nat) (s : State) : State :=
  let inode := s.inodes inode_num
  let s := track_pointer inode_num inode.direct_block s
  let s := track_pointer inode_num inode.single_indirect s
  let s := track_pointer inode_num inode.double_indirect s
  let s := track_pointer inode_num inode.triple_indirect s
  s

/-! ## Feature 2: inode bitmap consistency checker -/

/-- Body of the first loop of `check_inode_bitmap`. -/
def check_inode_bitmap_mark (i : Nat) (s : State) : State :=
  if is_inode_valid s.inodes i then
    process_block_pointers i
      { s with inode_referenced := Function.update s.inode_referenced i true }
  else s

/-- Body of the second loop of `check_inode_bitmap`. -/
def check_inode_bitmap_compare (i : Nat) (es : Nat × State) : Nat × State :=
  let is_marked_used := is_bit_set es.2.inode_bitmap i
  let es : Nat × State :=
    if is_marked_used && !es.2.inode_referenced i then
      (es.1 + 1, es.2.emit (Msg.inode_used_not_valid i))
    else es
  let es : Nat × State :=
    if !is_marked_used && es.2.inode_referenced i then
      (es.1 + 1, es.2.emit (Msg.inode_valid_marked_free i))
    else es
  es

def check_inode_bitmap (s : State) : Nat × State :=
  let s := for_loop INODE_COUNT check_inode_bitmap_mark s
  let es := for_loop INODE_COUNT check_inode_bitmap_compare (0, s)
  (es.1, { es.2 with errors_found := es.2.errors_found + es.1 })

/-! ## Feature 3: data bitmap consistency checker -/

/-- Body of the loop of `check_data_bitmap`. -/
def check_data_bitmap_compare (i : Nat) (es : Nat × State) : Nat × State :=
  let is_marked_used := is_bit_set es.2.data_bitmap i
  let es : Nat × State :=
    if is_marked_used && !es.2.data_block_referenced i then
      (es.1 + 1, es.2.emit (Msg.data_used_not_referenced (i + DATA_BLOCK_START)))
    else es
  let es : Nat × State :=
    if !is_marked_used && es.2.data_block_referenced i then
      (es.1 + 1, es.2.emit
        (Msg.data_referenced_marked_free (i + DATA_BLOCK_START) (es.2.data_block_owner i)))
    else es
  es

def check_data_bitmap (s : State) : Nat × State :=
  let es := for_loop DATA_BLOCK_COUNT check_data_bitmap_compare (0, s)
  (es.1, { es.2 with errors_found := es.2.errors_found + es.1 })

/-! ## Feature 4: duplicate checker -/

/-- One `if (inodes[i].ptr != 0 && is_block_valid(inodes[i].ptr)) { ... }` statement of
`check_duplicate_blocks`. -/
def dup_check_pointer (i : Nat) (ptr : Nat) (es : Nat × State) : Nat × State :=
  if ptr ≠ 0 ∧ is_block_valid ptr = true then
    let data_idx := u32_sub ptr DATA_BLOCK_START
    if es.2.data_block_referenced data_idx then
      (es.1 + 1, es.2.emit (Msg.duplicate ptr (es.2.data_block_owner data_idx) i))
    else
      (es.1, { es.2 with
        data_block_referenced := Function.update es.2.data_block_referenced data_idx true
        data_block_owner := Function.update es.2.data_block_owner data_idx (i : Int) })
  else es

/-- Body of the loop of `check_duplicate_blocks`. -/
def check_duplicate_blocks_body (i : Nat) (es : Nat × State) : Nat × State :=
  if is_inode_valid es.2.inodes i then
    let es := dup_check_pointer i (es.2.inodes i).direct_block es
    let es := dup_check_pointer i (es.2.inodes i).single_indirect es
    let es := dup_check_pointer i (es.2.inodes i).double_indirect es
    let es := dup_check_pointer i (es.2.inodes i).triple_indirect es
    es
  else es

def check_duplicate_blocks (s : State) : Nat × State :=
  let s := { s with
    data_block_referenced := fun _ => false
    data_block_owner := fun _ => -1 }
  let es := for_loop INODE_COUNT check_duplicate_blocks_body (0, s)
  (es.1, { es.2 with errors_found := es.2.errors_found + es.1 })

/-! ## Feature 5: bad block checker -/

/-- One `if (inodes[i].ptr != 0 && !is_block_valid(inodes[i].ptr)) { ... }` statement of
`check_bad_blocks`. -/
def bad_check_pointer (i : Nat) (field : PtrField) (ptr : Nat) (es : Nat × State) :
    Nat × State :=
  if ptr ≠ 0 ∧ is_block_valid ptr = false then
    (es.1 + 1, es.2.emit (Msg.bad_pointer i field ptr))
  else es

/-- Body of the loop of `check_bad_blocks`. -/
def check_bad_blocks_body (i : Nat) (es : Nat × State) : Nat × State :=
  if is_inode_valid es.2.inodes i then
    let es := bad_check_pointer i PtrField.direct (es.2.inodes i).direct_block es
    let es := bad_check_pointer i PtrField.single (es.2.inodes i).single_indirect es
    let es := bad_check_pointer i PtrField.double (es.2.inodes i).double_indirect es
    let es := bad_check_pointer i PtrField.triple (es.2.inodes i).triple_indirect es
    es
  else es

def check_bad_blocks (s : State) : Nat × State :=
  let es := for_loop INODE_COUNT check_bad_blocks_body (0, s)
  (es.1, { es.2 with errors_found := es.2.errors_found + es.1 })

/-! ## Fix functions -/

/-- Read access to one of the nine checked superblock fields. -/
def Superblock.get (sb : Superblock) : SbField → Nat
  | SbField.magic => sb.magic
  | SbField.block_size => sb.block_size
  | SbField.total_blocks => sb.total_blocks
  | SbField.inode_bitmap_block => sb.inode_bitmap_block
  | SbField.data_bitmap_block => sb.data_bitmap_block
  | SbField.inode_table_block => sb.inode_table_block
  | SbField.first_data_block => sb.first_data_block
  | SbField.inode_size => sb.inode_size
  | SbField.inode_count => sb.inode_count

/-- Assignment to one of the nine checked superblock fields. -/
def Superblock.set (sb : Superblock) (field : SbField) (v : Nat) : Superblock :=
  match field with
  | SbField.magic => { sb with magic := v }
  | SbField.block_size => { sb with block_size := v }
  | SbField.total_blocks => { sb with total_blocks := v }
  | SbField.inode_bitmap_block => { sb with inode_bitmap_block := v }
  | SbField.data_bitmap_block => { sb with data_bitmap_block := v }
  | SbField.inode_table_block => { sb with inode_table_block := v }
  | SbField.first_data_block => { sb with first_data_block := v }
  | SbField.inode_size => { sb with inode_size := v }
  | SbField.inode_count => { sb with inode_count := v }

/-- One `if (sb.field != CONSTANT) { sb.field = CONSTANT; printf(...); fixed = true; }`
statement of `fix_superblock`. -/
def sb_fix_field (field : SbField) (expected : Nat) (fs : Bool × State) : Bool × State :=
  if fs.2.sb.get field ≠ expected then
    (true, ({ fs.2 with sb := fs.2.sb.set field expected }).emit
      (Msg.fixed_sb field expected))
  else fs

/-- The nine field repairs of `fix_superblock`, up to the final `if (fixed)`. -/
def fix_superblock_scan (s : State) : Bool × State :=
  let fs : Bool × State := (false, s)
  let fs := sb_fix_field SbField.magic SUPERBLOCK_MAGIC fs
  let fs := sb_fix_field SbField.block_size BLOCK_SIZE fs
  let fs := sb_fix_field SbField.total_blocks TOTAL_BLOCKS fs
  let fs := sb_fix_field SbField.inode_bitmap_block INODE_BITMAP_BLOCK fs
  let fs := sb_fix_field SbField.data_bitmap_block DATA_BITMAP_BLOCK fs
  let fs := sb_fix_field SbField.inode_table_block INODE_TABLE_START_BLOCK fs
  let fs := sb_fix_field SbField.first_data_block DATA_BLOCK_START fs
  let fs := sb_fix_field SbField.inode_size INODE_SIZE fs
  let fs := sb_fix_field SbField.inode_count INODE_COUNT fs
  fs

/-- The closing `if (fixed) { write_block(block, ...); errors_fixed++; }` of every fix
function. -/
def persist_if_fixed (block_num : Nat) (fs : Bool × State) : State :=
  if fs.1 then
    let s := write_block block_num fs.2
    { s with errors_fixed := s.errors_fixed + 1 }
  else fs.2

def fix_superblock (s : State) : State :=
  persist_if_fixed SUPERBLOCK_BLOCK (fix_superblock_scan s)

/-- Body of the loop of `fix_inode_bitmap`. -/
def fix_inode_bitmap_body (i : Nat) (fs : Bool × State) : Bool × State :=
  let should_be_used := is_inode_valid fs.2.inodes i
  let is_marked_used := is_bit_set fs.2.inode_bitmap i
  if should_be_used ≠ is_marked_used then
    (true, ({ fs.2 with inode_bitmap := set_bit fs.2.inode_bitmap i should_be_used }).emit
      (Msg.fixed_inode_bit i should_be_used))
  else fs

/-- The loop of `fix_inode_bitmap`, up to the final `if (fixed)`. -/
def fix_inode_bitmap_scan (s : State) : Bool × State :=
  for_loop INODE_COUNT fix_inode_bitmap_body (false, s)

def fix_inode_bitmap (s : State) : State :=
  persist_if_fixed INODE_BITMAP_BLOCK (fix_inode_bitmap_scan s)

/-- Body of the first loop of `fix_data_bitmap`. -/
def fix_data_bitmap_track (i : Nat) (s : State) : State :=
  if is_inode_valid s.inodes i then process_block_pointers i s else s

/-- Body of the second loop of `fix_data_bitmap`. -/
def fix_data_bitmap_body (i : Nat) (fs : Bool × State) : Bool × State :=
  let should_be_used := fs.2.data_block_referenced i
  let is_marked_used := is_bit_set fs.2.data_bitmap i
  if should_be_used ≠ is_marked_used then
    (true, ({ fs.2 with data_bitmap := set_bit fs.2.data_bitmap i should_be_used }).emit
      (Msg.fixed_data_bit (i + DATA_BLOCK_START) should_be_used))
  else fs

/-- The reset and the two loops of `fix_data_bitmap`, up to the final `if (fixed)`. -/
def fix_data_bitmap_scan (s : State) : Bool × State :=
  let s := { s with
    data_block_referenced := fun _ => false
    data_block_owner := fun _ => -1 }
  let s := for_loop INODE_COUNT fix_data_bitmap_track s
  for_loop DATA_BLOCK_COUNT fix_data_bitmap_body (false, s)

def fix_data_bitmap (s : State) : State :=
  persist_if_fixed DATA_BITMAP_BLOCK (fix_data_bitmap_scan s)

/-! ## The program -/

/-- The globals right after `main` has read the image: the loaded superblock, bitmaps and
inode table, zero-initialised flags and counters, and every owner entry set to `-1`. -/
def initial_state (sb : Superblock) (inode_bitmap data_bitmap : Nat → Nat)
    (inodes : Nat → Inode) : State :=
  { sb := sb
    inode_bitmap := inode_bitmap
    data_bitmap := data_bitmap
    inodes := inodes
    inode_referenced := fun _ => false
    data_block_referenced := fun _ => false
    data_block_owner := fun _ => -1
    errors_found := 0
    errors_fixed := 0
    out := []
    writes := [] }

/-- The five checks in the order in which `main` calls them. -/
def run_checks (s : State) : State :=
  let s := (check_superblock s).2
  let s := (check_inode_bitmap s).2
  let s := (check_data_bitmap s).2
  let s := (check_duplicate_blocks s).2
  let s := (check_bad_blocks s).2
  s

/-- The three fix functions in the order in which `main` calls them. -/
def run_fixes (s : State) : State :=
  let s := fix_superblock s
  let s := fix_inode_bitmap s
  let s := fix_data_bitmap s
  s

/-- The part of `main` after the image is loaded; `answer_yes` is the operator's reply at
the confirmation prompt. -/
def main (answer_yes : Bool) (s : State) : State :=
  let s := run_checks s
  if s.errors_found > 0 then
    if answer_yes then
      let s := run_fixes s
      let s := { s with errors_found := 0 }
      run_checks s
    else s
  else s

/-! ## Specification-side vocabulary -/

/-- The compiled constant that the specification lists for each superblock field. -/
def sb_expected : SbField → Nat
  | SbField.magic => 0xd34d
  | SbField.block_size => 4096
  | SbField.total_blocks => 64
  | SbField.inode_bitmap_block => 1
  | SbField.data_bitmap_block => 2
  | SbField.inode_table_block => 3
  | SbField.first_data_block => 8
  | SbField.inode_size => 256
  | SbField.inode_count => 80

/-- The nine checked superblock fields. -/
def sb_fields : List SbField :=
  [SbField.magic, SbField.block_size, SbField.total_blocks, SbField.inode_bitmap_block,
   SbField.data_bitmap_block, SbField.inode_table_block, SbField.first_data_block,
   SbField.inode_size, SbField.inode_count]

/-- The checked fields of a superblock that differ from their compiled constant. -/
def sb_mismatches (sb : Superblock) : List SbField :=
  sb_fields.filter (fun f => decide (sb.get f ≠ sb_expected f))

/-- The superblock all of whose checked fields hold the compiled constants of the
specification, with the given reserved bytes. -/
def expected_superblock (reserved : List Nat) : Superblock :=
  { magic := 0xd34d
    block_size := 4096
    total_blocks := 64
    inode_bitmap_block := 1
    data_bitmap_block := 2
    inode_table_block := 3
    first_data_block := 8
    inode_size := 256
    inode_count := 80
    reserved := reserved }

/-- The validity predicate of the specification: `links_count > 0` and a zero deletion
timestamp. -/
def valid_inode (ino : Inode) : Prop :=
  0 < ino.links_count ∧ ino.dtime = 0

instance valid_inode_decidable (ino : Inode) : Decidable (valid_inode ino) :=
  inferInstanceAs (Decidable (0 < ino.links_count ∧ ino.dtime = 0))

/-- Read access to one of the four pointer fields of an inode. -/
def Inode.ptr (ino : Inode) : PtrField → Nat
  | PtrField.direct => ino.direct_block
  | PtrField.single => ino.single_indirect
  | PtrField.double => ino.double_indirect
  | PtrField.triple => ino.triple_indirect

/-- The four pointer fields in the order direct, single, double, triple. -/
def ptr_fields : List PtrField :=
  [PtrField.direct, PtrField.single, PtrField.double, PtrField.triple]

/-- All pairs (inode number, pointer field) of the 80 inode slots, in ascending inode
order and, within an inode, in the order direct, single, double, triple. -/
def inode_slots : List (Nat × PtrField) :=
  (List.range 80).flatMap (fun i => ptr_fields.map (fun f => (i, f)))

/-- The data block address range of the specification: blocks 8..63. -/
def in_data_range (v : Nat) : Prop :=
  8 ≤ v ∧ v < 64

instance in_data_range_decidable (v : Nat) : Decidable (in_data_range v) :=
  inferInstanceAs (Decidable (8 ≤ v ∧ v < 64))

/-- The pairs (valid inode, pointer field) whose value is nonzero and outside the data
block range. -/
def bad_slots (inodes : Nat → Inode) : List (Nat × PtrField) :=
  inode_slots.filter (fun p =>
    decide (valid_inode (inodes p.1) ∧ (inodes p.1).ptr p.2 ≠ 0 ∧
      ¬ in_data_range ((inodes p.1).ptr p.2)))

/-- The bad-pointer diagnostic for slot `p` of the inode table. -/
def bad_pointer_msg (inodes : Nat → Inode) (p : Nat × PtrField) : Msg :=
  Msg.bad_pointer p.1 p.2 ((inodes p.1).ptr p.2)

/-- The bad-pointer diagnostics of inode `i`, field by field. -/
def bad_findings_of (inodes : Nat → Inode) (i : Nat) : List Msg :=
  ((ptr_fields.filter (fun f =>
    decide (valid_inode (inodes i) ∧ (inodes i).ptr f ≠ 0 ∧
      ¬ in_data_range ((inodes i).ptr f)))).map (fun f => (i, f))).map (bad_pointer_msg inodes)

/-- Bit `k` of a bitmap block: bit `k % 8`, counted from the least significant one, of
byte `k / 8`. -/
def bitmap_bit (bitmap : Nat → Nat) (k : Nat) : Bool :=
  (bitmap (k / 8)).testBit (k % 8)

/-- One of the four pointer fields of the inode holds block number `b`. -/
def points_to (ino : Inode) (b : Nat) : Prop :=
  ino.direct_block = b ∨ ino.single_indirect = b ∨ ino.double_indirect = b ∨
    ino.triple_indirect = b

instance points_to_decidable (ino : Inode) (b : Nat) : Decidable (points_to ino b) :=
  inferInstanceAs (Decidable (ino.direct_block = b ∨ ino.single_indirect = b ∨
    ino.double_indirect = b ∨ ino.triple_indirect = b))

/-- Some valid inode among the first `n` slots has a pointer field equal to `b`. -/
def referenced_below (inodes : Nat → Inode) (n b : Nat) : Prop :=
  ∃ i, i < n ∧ valid_inode (inodes i) ∧ points_to (inodes i) b

instance referenced_below_decidable (inodes : Nat → Inode) (n b : Nat) :
    Decidable (referenced_below inodes n b) :=
  inferInstanceAs (Decidable (∃ i, i < n ∧ valid_inode (inodes i) ∧ points_to (inodes i) b))

/-- The finding, if any, that the specification asks for inode slot `i`: bit set but
inode not valid, or bit clear but inode valid. -/
def inode_bitmap_finding (bitmap : Nat → Nat) (inodes : Nat → Inode) (i : Nat) : Option Msg :=
  if bitmap_bit bitmap i = true ∧ ¬ valid_inode (inodes i) then
    some (Msg.inode_used_not_valid i)
  else if bitmap_bit bitmap i = false ∧ valid_inode (inodes i) then
    some (Msg.inode_valid_marked_free i)
  else none

/-- The finding of one slot of a bitmap check, from the stored bit and the tracked flag. -/
def slot_finding (bit flag : Bool) (m_used m_free : Msg) : Option Msg :=
  if bit && !flag then some m_used else if !bit && flag then some m_free else none

/-- What the second loop of `check_inode_bitmap` prints for slot `i` in state `s`. -/
def inode_compare_findings (s : State) (i : Nat) : List Msg :=
  (slot_finding (is_bit_set s.inode_bitmap i) (s.inode_referenced i)
    (Msg.inode_used_not_valid i) (Msg.inode_valid_marked_free i)).toList

/-- What the loop of `check_data_bitmap` prints for data index `i` in state `s`. -/
def data_compare_findings (s : State) (i : Nat) : List Msg :=
  (slot_finding (is_bit_set s.data_bitmap i) (s.data_block_referenced i)
    (Msg.data_used_not_referenced (i + DATA_BLOCK_START))
    (Msg.data_referenced_marked_free (i + DATA_BLOCK_START) (s.data_block_owner i))).toList

/-- A claim on a data block: pointer field `field` of inode `inode` holds `block`. -/
structure Claim where
  inode : Nat
  field : PtrField
  block : Nat
deriving DecidableEq, Repr

/-- The claim made by one pointer field: present when the value is nonzero and in the data
block range. -/
def ptr_claim (i : Nat) (f : PtrField) (v : Nat) : List Claim :=
  if v ≠ 0 ∧ in_data_range v then [{ inode := i, field := f, block := v }] else []

/-- The claims of inode `i` in the order direct, single, double, triple; an inode that is
not valid makes no claim. -/
def inode_claims (inodes : Nat → Inode) (i : Nat) : List Claim :=
  if valid_inode (inodes i) then
    ptr_claim i PtrField.direct (inodes i).direct_block
      ++ ptr_claim i PtrField.single (inodes i).single_indirect
      ++ ptr_claim i PtrField.double (inodes i).double_indirect
      ++ ptr_claim i PtrField.triple (inodes i).triple_indirect
  else []

/-- All nonzero in-range pointer fields of valid inodes, in ascending inode order. -/
def block_claims (inodes : Nat → Inode) : List Claim :=
  (List.range 80).flatMap (inode_claims inodes)

/-- Position of a pointer field in the order direct, single, double, triple. -/
def PtrField.index : PtrField → Nat
  | PtrField.direct => 0
  | PtrField.single => 1
  | PtrField.double => 2
  | PtrField.triple => 3

/-- Claim `a` is made before claim `b`: ascending inode number, then field order. -/
def claimed_before (a b : Claim) : Prop :=
  a.inode < b.inode ∨ (a.inode = b.inode ∧ a.field.index < b.field.index)

/-- The conflict to report for claim `c` made after the claims `pre`: none if no earlier
claim names the block, else one naming the first claimant as owner. -/
def conflict_of_claim (pre : List Claim) (c : Claim) : List Msg :=
  match pre.find? (fun p : Claim => decide (p.block = c.block)) with
  | some o => [Msg.duplicate c.block (o.inode : Int) c.inode]
  | none => []

/-- The conflicts to report for the claims `cs`, made in this order after the claims `pre`:
a claim on a block that an earlier claim names is reported against the first claimant. -/
def conflicts_after (pre : List Claim) : List Claim → List Msg
  | [] => []
  | c :: rest => conflict_of_claim pre c ++ conflicts_after (pre ++ [c]) rest

/-- The diagnostic is a duplicate-reference finding for block `v`. -/
def Msg.is_conflict_on (v : Nat) : Msg → Bool
  | Msg.duplicate b _ _ => decide (b = v)
  | _ => false

/-- The tracker arrays record exactly the claims `pre`: a block is marked iff some claim
names it, and its owner is the first claimant. -/
def tracks (s : State) (pre : List Claim) : Prop :=
  (∀ d, s.data_block_referenced d = true ↔ ∃ p, p ∈ pre ∧ p.block = d + 8) ∧
  (∀ d o, pre.find? (fun p => decide (p.block = d + 8)) = some o →
    s.data_block_owner d = (o.inode : Int))

/-- Loop invariant of `check_duplicate_blocks`: after the claims `pre` were processed from
state `s0`, only the tracker, the counter and the output have changed. -/
def dup_inv (s0 : State) (pre : List Claim) (es : Nat × State) : Prop :=
  es.2.inodes = s0.inodes ∧
  es.2.out = s0.out ++ conflicts_after [] pre ∧
  es.1 = (conflicts_after [] pre).length ∧
  tracks es.2 pre ∧
  (∀ p, p ∈ pre → in_data_range p.block)

/-! ## Concrete images used to exercise the theorems -/

/-- An inode record with every field zero (a free slot). -/
def zero_inode : Inode :=
  { mode := 0, uid := 0, gid := 0, size := 0, atime := 0, ctime := 0, mtime := 0, dtime := 0,
    links_count := 0, blocks_count := 0, direct_block := 0, single_indirect := 0,
    double_indirect := 0, triple_indirect := 0, reserved := [] }

/-- An in-use inode with one link and the four given block pointers. -/
def file_inode (direct single double triple : Nat) : Inode :=
  { zero_inode with
    links_count := 1, direct_block := direct, single_indirect := single,
    double_indirect := double, triple_indirect := triple }

/-- A loaded image whose superblock is right except for a zero magic number; bitmaps and
inode table are empty. -/
def image_bad_magic : State :=
  initial_state ((expected_superblock [7]).set SbField.magic 0) (fun _ => 0) (fun _ => 0)
    (fun _ => zero_inode)

/-- A loaded image with one file (inode 0, direct block 10) that neither bitmap marks. -/
def image_unmarked_file : State :=
  initial_state (expected_superblock []) (fun _ => 0) (fun _ => 0)
    (fun i => if i = 0 then file_inode 10 0 0 0 else zero_inode)

/-- A loaded image in which inode 0 (direct pointer) and inode 1 (single-indirect pointer)
both name data block 10. -/
def image_shared_block : State :=
  initial_state (expected_superblock []) (fun _ => 0) (fun _ => 0)
    (fun i => if i = 0 then file_inode 10 0 0 0 else if i = 1 then file_inode 0 10 0 0
      else zero_inode)

/-- The two `memset` calls that open `check_duplicate_blocks` and `fix_data_bitmap`. -/
def reset_tracker (s : State) : State :=
  { s with data_block_referenced := fun _ => false, data_block_owner := fun _ => -1 }

/-- Inode `i` is the last valid inode among the first `n` slots with a pointer field equal
to `b`. -/
def last_claimant (inodes : Nat → Inode) (n b i : Nat) : Prop :=
  i < n ∧ valid_inode (inodes i) ∧ points_to (inodes i) b ∧
    ∀ j, i < j → j < n → ¬ (valid_inode (inodes j) ∧ points_to (inodes j) b)

/-- Inode `i` is the first valid inode among the first `n` slots with a pointer field equal
to `b`. -/
def first_claimant (inodes : Nat → Inode) (n b i : Nat) : Prop :=
  i < n ∧ valid_inode (inodes i) ∧ points_to (inodes i) b ∧
    ∀ j, j < i → ¬ (valid_inode (inodes j) ∧ points_to (inodes j) b)

/-- A loaded image in which inode 3 names data block 10 in two of its pointer fields. -/
def image_double_claim : State :=
  initial_state (expected_superblock []) (fun _ => 0) (fun _ => 0)
    (fun i => if i = 3 then file_inode 10 10 0 0 else zero_inode)

/-- The stored image and what was done to the disk: the superblock, both bitmaps and the
inode table, with the list of written blocks and the counter of repaired structures. -/
def State.stored (s : State) :
    Superblock × (Nat → Nat) × (Nat → Nat) × (Nat → Inode) × List Nat × Nat :=
  (s.sb, s.inode_bitmap, s.data_bitmap, s.inodes, s.writes, s.errors_fixed)

/-- A loaded image that is consistent: right superblock, no inode in use, empty bitmaps. -/
def image_clean : State :=
  initial_state (expected_superblock []) (fun _ => 0) (fun _ => 0) (fun _ => zero_inode)

/-- The widths in bytes of the members of the packed `Inode` record of the source, in
declaration order: fourteen `uint32_t` members and `uint8_t reserved[156]`. -/
def inode_member_widths : List Nat :=
  [4, 4, 4, 4, 4, 4, 4, 4, 4, 4, 4, 4, 4, 4, 156]

/-- The size, `sizeof(Inode)`, of the packed in-memory inode record. -/
def inode_record_size : Nat :=
  inode_member_widths.sum

/-- A loaded image with the inode table of `image_shared_block` but other bitmaps and
another superblock. -/
def image_shared_block_marked : State :=
  initial_state ((expected_superblock [1]).set SbField.magic 0) (fun _ => 255) (fun _ => 255)
    image_shared_block.inodes


/-- The widths in bytes of the members of the packed `Superblock` record of the source, in
declaration order: `uint16_t magic`, eight `uint32_t` members and `uint8_t reserved[4058]`. -/
def superblock_member_widths : List Nat :=
  [2, 4, 4, 4, 4, 4, 4, 4, 4, 4058]

/-- The size, `sizeof(Superblock)`, of the packed in-memory superblock record. -/
def superblock_record_size : Nat :=
  superblock_member_widths.sum

/-- The number of bytes that one call of `read_block` or `write_block` moves between the
image and its buffer argument: `fread(buffer, BLOCK_SIZE, 1, img)`. -/
def block_transfer_size : Nat :=
  BLOCK_SIZE

/-- The bytes that a block transfer touches beyond a buffer of `buffer_size` bytes. -/
def transfer_overrun (buffer_size : Nat) : Nat :=
  block_transfer_size - buffer_size


/-- The closing line that `main` prints about the state of the file system. -/
inductive Verdict where
  /-- Line `File system is consistent. No errors found.` -/
  | consistent_no_errors
  /-- Line `File system is now consistent.` -/
  | now_consistent
  /-- Line `Some errors could not be fixed. Manual intervention required.` -/
  | manual_intervention
  /-- Line `No changes made to the file system.` -/
  | no_changes
deriving DecidableEq, Repr

/-- The closing line of `main`: the control flow of `main` after the image is loaded, with
the `printf` that ends each branch. -/
def main_verdict (answer_yes : Bool) (s : State) : Verdict :=
  let s := run_checks s
  if s.errors_found > 0 then
    if answer_yes then
      let s := run_fixes s
      let s := { s with errors_found := 0 }
      let s := run_checks s
      if s.errors_found = 0 then Verdict.now_consistent else Verdict.manual_intervention
    else Verdict.no_changes
  else Verdict.consistent_no_errors

/-- The state in which `main` starts its re-check: the five checks, then the three fix
functions, then `errors_found = 0`. -/
def recheck_start (s : State) : State :=
  { run_fixes (run_checks s) with errors_found := 0 }

/-- An `inode_referenced` flag is set only for a valid inode. -/
def flags_sound (s : State) : Prop :=
  ∀ i, i < 80 → s.inode_referenced i = true → valid_inode (s.inodes i)

/-- No data block is claimed twice: two pointer fields of valid inodes that hold the same
block number of the data range are the same field of the same inode. -/
def no_duplicate_claim (inodes : Nat → Inode) : Prop :=
  ∀ i f j g, i < 80 → j < 80 → valid_inode (inodes i) → valid_inode (inodes j) →
    in_data_range ((inodes i).ptr f) → (inodes i).ptr f = (inodes j).ptr g → i = j ∧ f = g

/-- No valid inode has a nonzero pointer field outside the data range. -/
def no_bad_pointer (inodes : Nat → Inode) : Prop :=
  ∀ i f, i < 80 → valid_inode (inodes i) → (inodes i).ptr f ≠ 0 →
    in_data_range ((inodes i).ptr f)


/-! ## The program with checked array accesses -/

/-- The read `a[i]` of an array declared with `len` elements; `none` is the access outside
the array. A negative `int` index of the program arrives here as a number of at least
`2 ^ 31`, beyond every array length. -/
def read_at {α : Type} (len : Nat) (a : Nat → α) (i : Nat) : Option α :=
  if i < len then some (a i) else none

/-- The write `a[i] = v` to an array declared with `len` elements; `none` is the access
outside the array. -/
def write_at {α : Type} (len : Nat) (a : Nat → α) (i : Nat) (v : α) : Option (Nat → α) :=
  if i < len then some (Function.update a i v) else none

/-- The loop `for (int i = 0; i < n; i++) body` whose body may fail. -/
def for_loop_checked {σ : Type} (n : Nat) (body : Nat → σ → Option σ) (init : σ) : Option σ :=
  (List.range n).foldlM (fun acc i => body i acc) init

/-- `is_bit_set` on a bitmap describing `nbits` slots: the bit number is checked against
`nbits` and the byte access against the `BLOCK_SIZE` bytes of the bitmap array. -/
def is_bit_set_checked (nbits : Nat) (bitmap : Nat → Nat) (bit : Nat) : Option Bool :=
  if bit < nbits then do
    let byte_index := bit / 8
    let bit_pos := bit % 8
    let byte ← read_at BLOCK_SIZE bitmap byte_index
    pure ((byte &&& (1 <<< bit_pos)) != 0)
  else none

/-- `set_bit` on a bitmap describing `nbits` slots, with the same two checks and the
checked write of the byte. -/
def set_bit_checked (nbits : Nat) (bitmap : Nat → Nat) (bit : Nat) (value : Bool) :
    Option (Nat → Nat) :=
  if bit < nbits then do
    let byte_index := bit / 8
    let bit_pos := bit % 8
    let byte ← read_at BLOCK_SIZE bitmap byte_index
    if value then
      write_at BLOCK_SIZE bitmap byte_index ((byte ||| (1 <<< bit_pos)) % 256)
    else
      write_at BLOCK_SIZE bitmap byte_index ((byte &&& (4294967295 ^^^ (1 <<< bit_pos))) % 256)
  else none

/-- `is_inode_valid` with the access `inodes[inode_num]` checked. -/
def is_inode_valid_checked (inodes : Nat → Inode) (inode_num : Nat) : Option Bool := do
  let inode ← read_at INODE_COUNT inodes inode_num
  pure (decide (inode.links_count > 0) && decide (inode.dtime = 0))

/-- One pointer statement of `process_block_pointers` with both tracker writes checked. -/
def track_pointer_checked (inode_num : Nat) (ptr : Nat) (s : State) : Option State :=
  if ptr ≠ 0 then
    if is_block_valid ptr then do
      let data_idx := u32_sub ptr DATA_BLOCK_START
      let referenced ← write_at DATA_BLOCK_COUNT s.data_block_referenced data_idx true
      let owner ← write_at DATA_BLOCK_COUNT s.data_block_owner data_idx (inode_num : Int)
      pure { s with data_block_referenced := referenced, data_block_owner := owner }
    else pure s
  else pure s

/-- `process_block_pointers` with `&inodes[inode_num]` and the tracker writes checked. -/
def process_block_pointers_checked (inode_num : Nat) (s : State) : Option State := do
  let inode ← read_at INODE_COUNT s.inodes inode_num
  let s ← track_pointer_checked inode_num inode.direct_block s
  let s ← track_pointer_checked inode_num inode.single_indirect s
  let s ← track_pointer_checked inode_num inode.double_indirect s
  let s ← track_pointer_checked inode_num inode.triple_indirect s
  pure s

/-- Body of the first loop of `check_inode_bitmap` with every array access checked. -/
def check_inode_bitmap_mark_checked (i : Nat) (s : State) : Option State := do
  if ← is_inode_valid_checked s.inodes i then
    let flags ← write_at INODE_COUNT s.inode_referenced i true
    process_block_pointers_checked i { s with inode_referenced := flags }
  else pure s

/-- Body of the second loop of `check_inode_bitmap` with every array access checked; the
right operand of each `&&` is read whatever the left one is, which only adds checks. -/
def check_inode_bitmap_compare_checked (i : Nat) (es : Nat × State) : Option (Nat × State) := do
  let is_marked_used ← is_bit_set_checked INODE_COUNT es.2.inode_bitmap i
  let flag ← read_at INODE_COUNT es.2.inode_referenced i
  let es : Nat × State :=
    if is_marked_used && !flag then
      (es.1 + 1, es.2.emit (Msg.inode_used_not_valid i))
    else es
  let flag ← read_at INODE_COUNT es.2.inode_referenced i
  let es : Nat × State :=
    if !is_marked_used && flag then
      (es.1 + 1, es.2.emit (Msg.inode_valid_marked_free i))
    else es
  pure es

/-- `check_inode_bitmap` with every array access checked. -/
def check_inode_bitmap_checked (s : State) : Option (Nat × State) := do
  let s ← for_loop_checked INODE_COUNT check_inode_bitmap_mark_checked s
  let es ← for_loop_checked INODE_COUNT check_inode_bitmap_compare_checked (0, s)
  pure (es.1, { es.2 with errors_found := es.2.errors_found + es.1 })

/-- Body of the loop of `check_data_bitmap` with every array access checked, the owner
read of the `printf` included. -/
def check_data_bitmap_compare_checked (i : Nat) (es : Nat × State) : Option (Nat × State) := do
  let is_marked_used ← is_bit_set_checked DATA_BLOCK_COUNT es.2.data_bitmap i
  let referenced ← read_at DATA_BLOCK_COUNT es.2.data_block_referenced i
  let es : Nat × State :=
    if is_marked_used && !referenced then
      (es.1 + 1, es.2.emit (Msg.data_used_not_referenced (i + DATA_BLOCK_START)))
    else es
  let referenced ← read_at DATA_BLOCK_COUNT es.2.data_block_referenced i
  if !is_marked_used && referenced then
    let owner ← read_at DATA_BLOCK_COUNT es.2.data_block_owner i
    pure (es.1 + 1, es.2.emit (Msg.data_referenced_marked_free (i + DATA_BLOCK_START) owner))
  else pure es

/-- `check_data_bitmap` with every array access checked. -/
def check_data_bitmap_checked (s : State) : Option (Nat × State) := do
  let es ← for_loop_checked DATA_BLOCK_COUNT check_data_bitmap_compare_checked (0, s)
  pure (es.1, { es.2 with errors_found := es.2.errors_found + es.1 })

/-- One pointer statement of `check_duplicate_blocks` with the tracker reads and writes
checked. -/
def dup_check_pointer_checked (i : Nat) (ptr : Nat) (es : Nat × State) :
    Option (Nat × State) :=
  if ptr ≠ 0 ∧ is_block_valid ptr = true then do
    let data_idx := u32_sub ptr DATA_BLOCK_START
    if ← read_at DATA_BLOCK_COUNT es.2.data_block_referenced data_idx then
      let owner ← read_at DATA_BLOCK_COUNT es.2.data_block_owner data_idx
      pure (es.1 + 1, es.2.emit (Msg.duplicate ptr owner i))
    else
      let referenced ← write_at DATA_BLOCK_COUNT es.2.data_block_referenced data_idx true
      let owner ← write_at DATA_BLOCK_COUNT es.2.data_block_owner data_idx (i : Int)
      pure (es.1, { es.2 with data_block_referenced := referenced, data_block_owner := owner })
  else pure es

/-- Body of the loop of `check_duplicate_blocks` with every array access checked. -/
def check_duplicate_blocks_body_checked (i : Nat) (es : Nat × State) :
    Option (Nat × State) := do
  if ← is_inode_valid_checked es.2.inodes i then
    let inode ← read_at INODE_COUNT es.2.inodes i
    let es ← dup_check_pointer_checked i inode.direct_block es
    let inode ← read_at INODE_COUNT es.2.inodes i
    let es ← dup_check_pointer_checked i inode.single_indirect es
    let inode ← read_at INODE_COUNT es.2.inodes i
    let es ← dup_check_pointer_checked i inode.double_indirect es
    let inode ← read_at INODE_COUNT es.2.inodes i
    let es ← dup_check_pointer_checked i inode.triple_indirect es
    pure es
  else pure es

/-- `check_duplicate_blocks` with every array access checked; the two `memset` calls cover
exactly the arrays. -/
def check_duplicate_blocks_checked (s : State) : Option (Nat × State) := do
  let s := { s with
    data_block_referenced := fun _ => false
    data_block_owner := fun _ => -1 }
  let es ← for_loop_checked INODE_COUNT check_duplicate_blocks_body_checked (0, s)
  pure (es.1, { es.2 with errors_found := es.2.errors_found + es.1 })

/-- Body of the loop of `check_bad_blocks` with the accesses `inodes[i]` checked. -/
def check_bad_blocks_body_checked (i : Nat) (es : Nat × State) : Option (Nat × State) := do
  if ← is_inode_valid_checked es.2.inodes i then
    let inode ← read_at INODE_COUNT es.2.inodes i
    let es := bad_check_pointer i PtrField.direct inode.direct_block es
    let inode ← read_at INODE_COUNT es.2.inodes i
    let es := bad_check_pointer i PtrField.single inode.single_indirect es
    let inode ← read_at INODE_COUNT es.2.inodes i
    let es := bad_check_pointer i PtrField.double inode.double_indirect es
    let inode ← read_at INODE_COUNT es.2.inodes i
    let es := bad_check_pointer i PtrField.triple inode.triple_indirect es
    pure es
  else pure es

/-- `check_bad_blocks` with every array access checked. -/
def check_bad_blocks_checked (s : State) : Option (Nat × State) := do
  let es ← for_loop_checked INODE_COUNT check_bad_blocks_body_checked (0, s)
  pure (es.1, { es.2 with errors_found := es.2.errors_found + es.1 })

/-- Body of the loop of `fix_inode_bitmap` with every array access checked. -/
def fix_inode_bitmap_body_checked (i : Nat) (fs : Bool × State) : Option (Bool × State) := do
  let should_be_used ← is_inode_valid_checked fs.2.inodes i
  let is_marked_used ← is_bit_set_checked INODE_COUNT fs.2.inode_bitmap i
  if should_be_used ≠ is_marked_used then
    let bitmap ← set_bit_checked INODE_COUNT fs.2.inode_bitmap i should_be_used
    pure (true, ({ fs.2 with inode_bitmap := bitmap }).emit
      (Msg.fixed_inode_bit i should_be_used))
  else pure fs

/-- `fix_inode_bitmap` with every array access checked. -/
def fix_inode_bitmap_checked (s : State) : Option State := do
  let fs ← for_loop_checked INODE_COUNT fix_inode_bitmap_body_checked (false, s)
  pure (persist_if_fixed INODE_BITMAP_BLOCK fs)

/-- Body of the first loop of `fix_data_bitmap` with every array access checked. -/
def fix_data_bitmap_track_checked (i : Nat) (s : State) : Option State := do
  if ← is_inode_valid_checked s.inodes i then process_block_pointers_checked i s else pure s

/-- Body of the second loop of `fix_data_bitmap` with every array access checked. -/
def fix_data_bitmap_body_checked (i : Nat) (fs : Bool × State) : Option (Bool × State) := do
  let should_be_used ← read_at DATA_BLOCK_COUNT fs.2.data_block_referenced i
  let is_marked_used ← is_bit_set_checked DATA_BLOCK_COUNT fs.2.data_bitmap i
  if should_be_used ≠ is_marked_used then
    let bitmap ← set_bit_checked DATA_BLOCK_COUNT fs.2.data_bitmap i should_be_used
    pure (true, ({ fs.2 with data_bitmap := bitmap }).emit
      (Msg.fixed_data_bit (i + DATA_BLOCK_START) should_be_used))
  else pure fs

/-- `fix_data_bitmap` with every array access checked. -/
def fix_data_bitmap_checked (s : State) : Option State := do
  let s := { s with
    data_block_referenced := fun _ => false
    data_block_owner := fun _ => -1 }
  let s ← for_loop_checked INODE_COUNT fix_data_bitmap_track_checked s
  let fs ← for_loop_checked DATA_BLOCK_COUNT fix_data_bitmap_body_checked (false, s)
  pure (persist_if_fixed DATA_BITMAP_BLOCK fs)

/-- The five checks of `main` with every array access checked; `check_superblock` indexes
no array. -/
def run_checks_checked (s : State) : Option State := do
  let s := (check_superblock s).2
  let s := (← check_inode_bitmap_checked s).2
  let s := (← check_data_bitmap_checked s).2
  let s := (← check_duplicate_blocks_checked s).2
  let s := (← check_bad_blocks_checked s).2
  pure s

/-- The three fix functions of `main` with every array access checked; `fix_superblock`
indexes no array. -/
def run_fixes_checked (s : State) : Option State := do
  let s := fix_superblock s
  let s ← fix_inode_bitmap_checked s
  let s ← fix_data_bitmap_checked s
  pure s

/-- The part of `main` after the image is loaded, with every array access checked. -/
def main_checked (answer_yes : Bool) (s : State) : Option State := do
  let s ← run_checks_checked s
  if s.errors_found > 0 then
    if answer_yes then
      let s ← run_fixes_checked s
      let s := { s with errors_found := 0 }
      run_checks_checked s
    else pure s
  else pure s

/-- The index `i * INODES_PER_BLOCK + j` at which `load_inodes` stores inode `j` of table
block `i`. -/
def load_inodes_index (i j : Nat) : Nat :=
  i * INODES_PER_BLOCK + j

end RavenVsfs

/-! # Theorems -/

namespace RavenVsfs

/-! ## Generic lemmas on loops and on the output log -/

theorem for_loop_zero {σ : Type} (body : Nat → σ → σ) (init : σ) :
    for_loop 0 body init = init := by
  simp [for_loop]

theorem for_loop_succ {σ : Type} (n : Nat) (body : Nat → σ → σ) (init : σ) :
    for_loop (n + 1) body init = body n (for_loop n body init) := by
  simp [for_loop, List.range_succ, List.foldl_append]

/-! ## Superblock validator -/

theorem sb_check_field_fst (field : SbField) (actual expected : Nat) (es : Nat × State) :
    (sb_check_field field actual expected es).1
      = es.1 + (if actual ≠ expected then 1 else 0) := by
  unfold sb_check_field
  split <;> simp

theorem sb_check_field_sb (field : SbField) (actual expected : Nat) (es : Nat × State) :
    (sb_check_field field actual expected es).2.sb = es.2.sb := by
  unfold sb_check_field
  split <;> simp [State.emit]

theorem sb_check_field_out (field : SbField) (actual expected : Nat) (es : Nat × State) :
    (sb_check_field field actual expected es).2.out
      = es.2.out ++ (if actual ≠ expected then [Msg.sb_invalid field actual expected]
          else []) := by
  unfold sb_check_field
  split <;> simp [State.emit]

theorem check_superblock_fst (s : State) :
    (check_superblock s).1
      = (if s.sb.magic ≠ 0xd34d then 1 else 0) + (if s.sb.block_size ≠ 4096 then 1 else 0)
        + (if s.sb.total_blocks ≠ 64 then 1 else 0)
        + (if s.sb.inode_bitmap_block ≠ 1 then 1 else 0)
        + (if s.sb.data_bitmap_block ≠ 2 then 1 else 0)
        + (if s.sb.inode_table_block ≠ 3 then 1 else 0)
        + (if s.sb.first_data_block ≠ 8 then 1 else 0)
        + (if s.sb.inode_size ≠ 256 then 1 else 0)
        + (if s.sb.inode_count ≠ 80 then 1 else 0) := by
  simp only [check_superblock, sb_check_field_fst]
  simp [SUPERBLOCK_MAGIC, BLOCK_SIZE, TOTAL_BLOCKS, INODE_BITMAP_BLOCK, DATA_BITMAP_BLOCK,
    INODE_TABLE_START_BLOCK, DATA_BLOCK_START, INODE_SIZE, INODE_COUNT, INODES_PER_BLOCK,
    INODE_TABLE_BLOCKS]

theorem check_superblock_fst_eq_zero (s : State) :
    (check_superblock s).1 = 0 ↔
      (s.sb.magic = 0xd34d ∧ s.sb.block_size = 4096 ∧ s.sb.total_blocks = 64 ∧
       s.sb.inode_bitmap_block = 1 ∧ s.sb.data_bitmap_block = 2 ∧
       s.sb.inode_table_block = 3 ∧ s.sb.first_data_block = 8 ∧
       s.sb.inode_size = 256 ∧ s.sb.inode_count = 80) := by
  rw [check_superblock_fst]
  simp [and_assoc]

/-- C1: for every superblock value, `check_superblock` returns exactly the number of the
nine checked fields that differ from their compiled constants (0xd34d, 4096, 64, 1, 2, 3,
8, 256, 80); the result is at most 9 and it is 0 exactly when all nine fields equal the
constants. -/
theorem check_superblock_counts_mismatches (s : State) :
    (check_superblock s).1 = (sb_mismatches s.sb).length ∧
    (check_superblock s).1 ≤ 9 ∧
    ((check_superblock s).1 = 0 ↔
      (s.sb.magic = 0xd34d ∧ s.sb.block_size = 4096 ∧ s.sb.total_blocks = 64 ∧
       s.sb.inode_bitmap_block = 1 ∧ s.sb.data_bitmap_block = 2 ∧
       s.sb.inode_table_block = 3 ∧ s.sb.first_data_block = 8 ∧
       s.sb.inode_size = 256 ∧ s.sb.inode_count = 80)) := by
  have hlen : (sb_mismatches s.sb).length
      = (if s.sb.magic ≠ 0xd34d then 1 else 0) + (if s.sb.block_size ≠ 4096 then 1 else 0)
        + (if s.sb.total_blocks ≠ 64 then 1 else 0)
        + (if s.sb.inode_bitmap_block ≠ 1 then 1 else 0)
        + (if s.sb.data_bitmap_block ≠ 2 then 1 else 0)
        + (if s.sb.inode_table_block ≠ 3 then 1 else 0)
        + (if s.sb.first_data_block ≠ 8 then 1 else 0)
        + (if s.sb.inode_size ≠ 256 then 1 else 0)
        + (if s.sb.inode_count ≠ 80 then 1 else 0) := by
    simp only [sb_mismatches, sb_fields, ← List.countP_eq_length_filter, List.countP_cons,
      List.countP_nil, Superblock.get, sb_expected]
    simp
    omega
  refine ⟨by rw [check_superblock_fst, hlen], ?_, check_superblock_fst_eq_zero s⟩
  rw [check_superblock_fst]
  have h (a b : Nat) : (if a ≠ b then 1 else 0) ≤ 1 := by split <;> omega
  have h1 := h s.sb.magic 0xd34d
  have h2 := h s.sb.block_size 4096
  have h3 := h s.sb.total_blocks 64
  have h4 := h s.sb.inode_bitmap_block 1
  have h5 := h s.sb.data_bitmap_block 2
  have h6 := h s.sb.inode_table_block 3
  have h7 := h s.sb.first_data_block 8
  have h8 := h s.sb.inode_size 256
  have h9 := h s.sb.inode_count 80
  omega

/-! ## Block pointer validity -/

/-- C6: a pointer value is accepted by `is_block_valid` exactly when it is 0 or lies in
8..63; in particular 0 and 63 are accepted and 7 and 64 are rejected. -/
theorem is_block_valid_iff (v : Nat) :
    (is_block_valid v = true ↔ (v = 0 ∨ (8 ≤ v ∧ v < 64))) ∧
    is_block_valid 0 = true ∧ is_block_valid 63 = true ∧
    is_block_valid 7 = false ∧ is_block_valid 64 = false := by
  refine ⟨?_, by decide, by decide, by decide, by decide⟩
  simp [is_block_valid, DATA_BLOCK_START, TOTAL_BLOCKS]

/-! ## Superblock repair -/

theorem Superblock.set_get_self (sb : Superblock) (f : SbField) : sb.set f (sb.get f) = sb := by
  cases f <;> rfl

theorem sb_fix_field_sb (field : SbField) (expected : Nat) (fs : Bool × State) :
    (sb_fix_field field expected fs).2.sb = fs.2.sb.set field expected := by
  unfold sb_fix_field
  split
  · simp [State.emit]
  · rename_i h
    have h2 : fs.2.sb.get field = expected := by simpa using h
    rw [← h2, Superblock.set_get_self]

theorem persist_if_fixed_sb (b : Nat) (fs : Bool × State) :
    (persist_if_fixed b fs).sb = fs.2.sb := by
  unfold persist_if_fixed
  split <;> simp [write_block]

theorem fix_superblock_sb (s : State) :
    (fix_superblock s).sb = expected_superblock s.sb.reserved := by
  simp only [fix_superblock, persist_if_fixed_sb, fix_superblock_scan, sb_fix_field_sb]
  rfl

/-- C8: for every superblock value, after `fix_superblock` all nine checked fields equal
their compiled constants, and `check_superblock` run on the result returns 0. -/
theorem fix_superblock_then_check (s : State) :
    ((fix_superblock s).sb.magic = 0xd34d ∧ (fix_superblock s).sb.block_size = 4096 ∧
      (fix_superblock s).sb.total_blocks = 64 ∧
      (fix_superblock s).sb.inode_bitmap_block = 1 ∧
      (fix_superblock s).sb.data_bitmap_block = 2 ∧
      (fix_superblock s).sb.inode_table_block = 3 ∧
      (fix_superblock s).sb.first_data_block = 8 ∧
      (fix_superblock s).sb.inode_size = 256 ∧ (fix_superblock s).sb.inode_count = 80) ∧
    (check_superblock (fix_superblock s)).1 = 0 := by
  have h := fix_superblock_sb s
  have hfields : (fix_superblock s).sb.magic = 0xd34d ∧
      (fix_superblock s).sb.block_size = 4096 ∧
      (fix_superblock s).sb.total_blocks = 64 ∧
      (fix_superblock s).sb.inode_bitmap_block = 1 ∧
      (fix_superblock s).sb.data_bitmap_block = 2 ∧
      (fix_superblock s).sb.inode_table_block = 3 ∧
      (fix_superblock s).sb.first_data_block = 8 ∧
      (fix_superblock s).sb.inode_size = 256 ∧ (fix_superblock s).sb.inode_count = 80 := by
    rw [h]
    simp [expected_superblock]
  exact ⟨hfields, (check_superblock_fst_eq_zero (fix_superblock s)).2 hfields⟩

/-- C9: on a superblock that holds the compiled constants everywhere except that field
`f` holds a different value `w`, `check_superblock` yields exactly one finding, which names
`f` with the actual value `w` and the expected constant; `fix_superblock` then changes
`f` and only `f`, giving the all-constants superblock with the reserved bytes unchanged. -/
theorem single_flipped_field (f : SbField) (w : Nat) (r : List Nat) (s : State)
    (hw : w ≠ sb_expected f) (hs : s.sb = (expected_superblock r).set f w) :
    (check_superblock s).1 = 1 ∧
    (check_superblock s).2.out = s.out ++ [Msg.sb_invalid f w (sb_expected f)] ∧
    (fix_superblock s).sb = s.sb.set f (sb_expected f) ∧
    (fix_superblock s).sb = expected_superblock r ∧
    (∀ g, g ≠ f → (fix_superblock s).sb.get g = s.sb.get g) ∧
    (fix_superblock s).sb.reserved = r := by
  have hres : s.sb.reserved = r := by
    rw [hs]
    cases f <;> rfl
  have hfix : (fix_superblock s).sb = expected_superblock r := by
    rw [fix_superblock_sb, hres]
  refine ⟨?_, ?_, ?_, hfix, ?_, ?_⟩
  · cases f <;>
      simp_all [check_superblock, sb_check_field, Superblock.set, expected_superblock,
        sb_expected, SUPERBLOCK_MAGIC, BLOCK_SIZE, TOTAL_BLOCKS, INODE_BITMAP_BLOCK,
        DATA_BITMAP_BLOCK, INODE_TABLE_START_BLOCK, DATA_BLOCK_START, INODE_SIZE,
        INODE_COUNT, INODES_PER_BLOCK, INODE_TABLE_BLOCKS]
  · cases f <;>
      simp_all [check_superblock, sb_check_field, Superblock.set, expected_superblock,
        sb_expected, SUPERBLOCK_MAGIC, BLOCK_SIZE, TOTAL_BLOCKS, INODE_BITMAP_BLOCK,
        DATA_BITMAP_BLOCK, INODE_TABLE_START_BLOCK, DATA_BLOCK_START, INODE_SIZE,
        INODE_COUNT, INODES_PER_BLOCK, INODE_TABLE_BLOCKS, State.emit]
  · rw [hfix, hs]
    cases f <;> rfl
  · intro g hg
    rw [hfix, hs]
    cases f <;> cases g <;> first | rfl | exact absurd rfl hg
  · rw [hfix]
    rfl

/-- Witness for C9: the magic number flipped to 0. -/
theorem single_flipped_field_witness :
    (0 ≠ sb_expected SbField.magic ∧
      image_bad_magic.sb = (expected_superblock [7]).set SbField.magic 0) ∧
    ((check_superblock image_bad_magic).1 = 1 ∧
      (check_superblock image_bad_magic).2.out
        = image_bad_magic.out ++ [Msg.sb_invalid SbField.magic 0 (sb_expected SbField.magic)] ∧
      (fix_superblock image_bad_magic).sb
        = image_bad_magic.sb.set SbField.magic (sb_expected SbField.magic) ∧
      (fix_superblock image_bad_magic).sb = expected_superblock [7] ∧
      (∀ g, g ≠ SbField.magic →
        (fix_superblock image_bad_magic).sb.get g = image_bad_magic.sb.get g) ∧
      (fix_superblock image_bad_magic).sb.reserved = [7]) :=
  ⟨⟨by decide, rfl⟩,
    single_flipped_field SbField.magic 0 [7] image_bad_magic (by decide) rfl⟩

/-! ## Loops that only report -/

theorem for_loop_emit (g : State → Nat → List Msg) (body : Nat → Nat × State → Nat × State)
    (hg : ∀ (s : State) (m : List Msg) (i : Nat), g { s with out := m } i = g s i)
    (hbody : ∀ (i : Nat) (es : Nat × State),
      body i es = (es.1 + (g es.2 i).length, { es.2 with out := es.2.out ++ g es.2 i }))
    (n : Nat) (es : Nat × State) :
    for_loop n body es
      = (es.1 + ((List.range n).flatMap (g es.2)).length,
          { es.2 with out := es.2.out ++ (List.range n).flatMap (g es.2) }) := by
  induction n with
  | zero => simp [for_loop_zero]
  | succ n ih =>
    rw [for_loop_succ, ih, hbody]
    simp only [hg, List.range_succ, List.flatMap_append, List.flatMap_cons, List.flatMap_nil,
      List.append_nil, List.length_append, List.append_assoc, Nat.add_assoc]

theorem filter_slots_eq (P : Nat × PtrField → Bool) (l : List Nat) :
    (l.flatMap (fun i => ptr_fields.map (fun f => (i, f)))).filter P
      = l.flatMap (fun i => (ptr_fields.filter (fun f => P (i, f))).map (fun f => (i, f))) := by
  induction l with
  | nil => rfl
  | cons a l ih =>
    simp only [List.flatMap_cons, List.filter_append, ih]
    congr 1
    simp only [List.filter_map]
    rfl

theorem is_inode_valid_iff (inodes : Nat → Inode) (i : Nat) :
    is_inode_valid inodes i = true ↔ valid_inode (inodes i) := by
  simp [is_inode_valid, valid_inode]

theorem is_block_valid_eq_true (v : Nat) :
    is_block_valid v = true ↔ (v = 0 ∨ in_data_range v) := by
  simp [is_block_valid, DATA_BLOCK_START, TOTAL_BLOCKS, in_data_range]

/-! ## Bad block checker -/

theorem bad_check_pointer_eq (i : Nat) (f : PtrField) (v : Nat) (es : Nat × State) :
    bad_check_pointer i f v es
      = (es.1 + (if v ≠ 0 ∧ ¬ in_data_range v then [Msg.bad_pointer i f v] else []).length,
          { es.2 with out := es.2.out ++
              (if v ≠ 0 ∧ ¬ in_data_range v then [Msg.bad_pointer i f v] else []) }) := by
  unfold bad_check_pointer
  by_cases h0 : v = 0
  · simp [h0]
  · by_cases hr : in_data_range v
    · have hv : is_block_valid v = true := (is_block_valid_eq_true v).2 (Or.inr hr)
      simp [h0, hr, hv]
    · have hv : is_block_valid v = false := by
        rw [← Bool.not_eq_true, is_block_valid_eq_true]
        tauto
      simp [h0, hr, hv, State.emit]

theorem filter_ptr_fields (q : PtrField → Bool) :
    ptr_fields.filter q
      = (if q PtrField.direct then [PtrField.direct] else [])
        ++ (if q PtrField.single then [PtrField.single] else [])
        ++ (if q PtrField.double then [PtrField.double] else [])
        ++ (if q PtrField.triple then [PtrField.triple] else []) := by
  cases h1 : q PtrField.direct <;> cases h2 : q PtrField.single <;>
    cases h3 : q PtrField.double <;> cases h4 : q PtrField.triple <;>
    simp [ptr_fields, List.filter_cons, h1, h2, h3, h4]

theorem check_bad_blocks_body_eq (i : Nat) (es : Nat × State) :
    check_bad_blocks_body i es
      = (es.1 + (bad_findings_of es.2.inodes i).length,
          { es.2 with out := es.2.out ++ bad_findings_of es.2.inodes i }) := by
  unfold check_bad_blocks_body
  by_cases hv : valid_inode (es.2.inodes i)
  · have hv2 := (is_inode_valid_iff es.2.inodes i).2 hv
    simp only [hv2, if_true, bad_check_pointer_eq]
    simp only [bad_findings_of, filter_ptr_fields, bad_pointer_msg, Inode.ptr, hv, true_and]
    by_cases h1 : (es.2.inodes i).direct_block ≠ 0 ∧ ¬ in_data_range (es.2.inodes i).direct_block <;>
    by_cases h2 : (es.2.inodes i).single_indirect ≠ 0 ∧
        ¬ in_data_range (es.2.inodes i).single_indirect <;>
    by_cases h3 : (es.2.inodes i).double_indirect ≠ 0 ∧
        ¬ in_data_range (es.2.inodes i).double_indirect <;>
    by_cases h4 : (es.2.inodes i).triple_indirect ≠ 0 ∧
        ¬ in_data_range (es.2.inodes i).triple_indirect <;>
    simp [h1, h2, h3, h4, Inode.ptr, Nat.add_assoc, bad_pointer_msg]
  · have hv2 : is_inode_valid es.2.inodes i = false := by
      rw [← Bool.not_eq_true, is_inode_valid_iff]
      exact hv
    simp [hv2, bad_findings_of, hv]

theorem flatMap_bad_findings (inodes : Nat → Inode) :
    (List.range 80).flatMap (bad_findings_of inodes)
      = (bad_slots inodes).map (bad_pointer_msg inodes) := by
  unfold bad_slots inode_slots
  rw [filter_slots_eq]
  generalize List.range 80 = l
  induction l with
  | nil => rfl
  | cons a l ih =>
    simp only [List.flatMap_cons, List.map_append, ih]
    rfl

theorem check_bad_blocks_eq (s : State) :
    check_bad_blocks s
      = ((bad_slots s.inodes).length,
          { s with
            out := s.out ++ (bad_slots s.inodes).map (bad_pointer_msg s.inodes)
            errors_found := s.errors_found + (bad_slots s.inodes).length }) := by
  unfold check_bad_blocks
  rw [for_loop_emit (fun st i => bad_findings_of st.inodes i) check_bad_blocks_body
    (fun _ _ _ => rfl) check_bad_blocks_body_eq]
  have h80 : INODE_COUNT = 80 := rfl
  simp only [h80, flatMap_bad_findings, List.length_map, Nat.zero_add]

theorem mem_ptr_fields (f : PtrField) : f ∈ ptr_fields := by
  cases f <;> simp [ptr_fields]

theorem mem_inode_slots (i : Nat) (f : PtrField) : (i, f) ∈ inode_slots ↔ i < 80 := by
  unfold inode_slots
  rw [List.mem_flatMap]
  constructor
  · rintro ⟨a, ha, hmem⟩
    rw [List.mem_map] at hmem
    obtain ⟨g, _, hg⟩ := hmem
    have : a = i := congrArg Prod.fst hg
    rw [← this]
    exact List.mem_range.1 ha
  · intro hi
    exact ⟨i, List.mem_range.2 hi, List.mem_map.2 ⟨f, mem_ptr_fields f, rfl⟩⟩

theorem mem_bad_slots (inodes : Nat → Inode) (i : Nat) (f : PtrField) :
    (i, f) ∈ bad_slots inodes ↔
      (i < 80 ∧ valid_inode (inodes i) ∧ (inodes i).ptr f ≠ 0 ∧
        ¬ in_data_range ((inodes i).ptr f)) := by
  unfold bad_slots
  rw [List.mem_filter, mem_inode_slots, decide_eq_true_eq]

/-- C7: for every inode table, `check_bad_blocks` returns exactly the number of pairs
(valid inode, pointer field) whose value is nonzero and outside 8..63, and prints one
finding for each such pair; the pointer fields of an inode that is not valid
(`links_count = 0` or `dtime != 0`) produce no finding whatever their value. -/
theorem check_bad_blocks_counts (s : State) :
    (check_bad_blocks s).1
      = (inode_slots.filter (fun p =>
          decide ((0 < (s.inodes p.1).links_count ∧ (s.inodes p.1).dtime = 0) ∧
            (s.inodes p.1).ptr p.2 ≠ 0 ∧
            ¬ (8 ≤ (s.inodes p.1).ptr p.2 ∧ (s.inodes p.1).ptr p.2 < 64)))).length ∧
    (∃ findings : List Msg,
      (check_bad_blocks s).2.out = s.out ++ findings ∧
      findings.length = (check_bad_blocks s).1 ∧
      ∀ (i : Nat) (f : PtrField) (v : Nat),
        Msg.bad_pointer i f v ∈ findings ↔
          (i < 80 ∧ (0 < (s.inodes i).links_count ∧ (s.inodes i).dtime = 0) ∧
            (s.inodes i).ptr f = v ∧ v ≠ 0 ∧ ¬ (8 ≤ v ∧ v < 64))) := by
  rw [check_bad_blocks_eq]
  refine ⟨rfl, (bad_slots s.inodes).map (bad_pointer_msg s.inodes), rfl, ?_, ?_⟩
  · rw [List.length_map]
  intro i f v
  rw [List.mem_map]
  constructor
  · rintro ⟨⟨a, b⟩, hmem, heq⟩
    rw [mem_bad_slots] at hmem
    simp only [bad_pointer_msg, Msg.bad_pointer.injEq] at heq
    obtain ⟨rfl, rfl, rfl⟩ := heq
    exact ⟨hmem.1, hmem.2.1, rfl, hmem.2.2.1, hmem.2.2.2⟩
  · rintro ⟨hi, hv, rfl, h0, hr⟩
    exact ⟨(i, f), (mem_bad_slots s.inodes i f).2 ⟨hi, hv, h0, hr⟩, rfl⟩

/-! ## Frame lemmas: what the helpers leave unchanged -/

@[simp] theorem emit_sb (s : State) (m : Msg) :
    (s.emit m).sb = s.sb := by
  rfl

@[simp] theorem emit_inode_bitmap (s : State) (m : Msg) :
    (s.emit m).inode_bitmap = s.inode_bitmap := by
  rfl

@[simp] theorem emit_data_bitmap (s : State) (m : Msg) :
    (s.emit m).data_bitmap = s.data_bitmap := by
  rfl

@[simp] theorem emit_inodes (s : State) (m : Msg) :
    (s.emit m).inodes = s.inodes := by
  rfl

@[simp] theorem emit_inode_referenced (s : State) (m : Msg) :
    (s.emit m).inode_referenced = s.inode_referenced := by
  rfl

@[simp] theorem emit_data_block_referenced (s : State) (m : Msg) :
    (s.emit m).data_block_referenced = s.data_block_referenced := by
  rfl

@[simp] theorem emit_data_block_owner (s : State) (m : Msg) :
    (s.emit m).data_block_owner = s.data_block_owner := by
  rfl

@[simp] theorem emit_errors_found (s : State) (m : Msg) :
    (s.emit m).errors_found = s.errors_found := by
  rfl

@[simp] theorem emit_errors_fixed (s : State) (m : Msg) :
    (s.emit m).errors_fixed = s.errors_fixed := by
  rfl

@[simp] theorem emit_writes (s : State) (m : Msg) :
    (s.emit m).writes = s.writes := by
  rfl

@[simp] theorem track_pointer_sb (i v : Nat) (s : State) :
    (track_pointer i v s).sb = s.sb := by
  unfold track_pointer
  split_ifs <;> rfl

@[simp] theorem track_pointer_inode_bitmap (i v : Nat) (s : State) :
    (track_pointer i v s).inode_bitmap = s.inode_bitmap := by
  unfold track_pointer
  split_ifs <;> rfl

@[simp] theorem track_pointer_data_bitmap (i v : Nat) (s : State) :
    (track_pointer i v s).data_bitmap = s.data_bitmap := by
  unfold track_pointer
  split_ifs <;> rfl

@[simp] theorem track_pointer_inodes (i v : Nat) (s : State) :
    (track_pointer i v s).inodes = s.inodes := by
  unfold track_pointer
  split_ifs <;> rfl

@[simp] theorem track_pointer_inode_referenced (i v : Nat) (s : State) :
    (track_pointer i v s).inode_referenced = s.inode_referenced := by
  unfold track_pointer
  split_ifs <;> rfl

@[simp] theorem track_pointer_errors_found (i v : Nat) (s : State) :
    (track_pointer i v s).errors_found = s.errors_found := by
  unfold track_pointer
  split_ifs <;> rfl

@[simp] theorem track_pointer_errors_fixed (i v : Nat) (s : State) :
    (track_pointer i v s).errors_fixed = s.errors_fixed := by
  unfold track_pointer
  split_ifs <;> rfl

@[simp] theorem track_pointer_out (i v : Nat) (s : State) :
    (track_pointer i v s).out = s.out := by
  unfold track_pointer
  split_ifs <;> rfl

@[simp] theorem track_pointer_writes (i v : Nat) (s : State) :
    (track_pointer i v s).writes = s.writes := by
  unfold track_pointer
  split_ifs <;> rfl

@[simp] theorem process_block_pointers_sb (i : Nat) (s : State) :
    (process_block_pointers i s).sb = s.sb := by
  simp [process_block_pointers]

@[simp] theorem process_block_pointers_inode_bitmap (i : Nat) (s : State) :
    (process_block_pointers i s).inode_bitmap = s.inode_bitmap := by
  simp [process_block_pointers]

@[simp] theorem process_block_pointers_data_bitmap (i : Nat) (s : State) :
    (process_block_pointers i s).data_bitmap = s.data_bitmap := by
  simp [process_block_pointers]

@[simp] theorem process_block_pointers_inodes (i : Nat) (s : State) :
    (process_block_pointers i s).inodes = s.inodes := by
  simp [process_block_pointers]

@[simp] theorem process_block_pointers_inode_referenced (i : Nat) (s : State) :
    (process_block_pointers i s).inode_referenced = s.inode_referenced := by
  simp [process_block_pointers]

@[simp] theorem process_block_pointers_errors_found (i : Nat) (s : State) :
    (process_block_pointers i s).errors_found = s.errors_found := by
  simp [process_block_pointers]

@[simp] theorem process_block_pointers_errors_fixed (i : Nat) (s : State) :
    (process_block_pointers i s).errors_fixed = s.errors_fixed := by
  simp [process_block_pointers]

@[simp] theorem process_block_pointers_out (i : Nat) (s : State) :
    (process_block_pointers i s).out = s.out := by
  simp [process_block_pointers]

@[simp] theorem process_block_pointers_writes (i : Nat) (s : State) :
    (process_block_pointers i s).writes = s.writes := by
  simp [process_block_pointers]

@[simp] theorem check_inode_bitmap_mark_sb (i : Nat) (s : State) :
    (check_inode_bitmap_mark i s).sb = s.sb := by
  unfold check_inode_bitmap_mark
  split_ifs <;> simp

@[simp] theorem check_inode_bitmap_mark_inode_bitmap (i : Nat) (s : State) :
    (check_inode_bitmap_mark i s).inode_bitmap = s.inode_bitmap := by
  unfold check_inode_bitmap_mark
  split_ifs <;> simp

@[simp] theorem check_inode_bitmap_mark_data_bitmap (i : Nat) (s : State) :
    (check_inode_bitmap_mark i s).data_bitmap = s.data_bitmap := by
  unfold check_inode_bitmap_mark
  split_ifs <;> simp

@[simp] theorem check_inode_bitmap_mark_inodes (i : Nat) (s : State) :
    (check_inode_bitmap_mark i s).inodes = s.inodes := by
  unfold check_inode_bitmap_mark
  split_ifs <;> simp

@[simp] theorem check_inode_bitmap_mark_errors_found (i : Nat) (s : State) :
    (check_inode_bitmap_mark i s).errors_found = s.errors_found := by
  unfold check_inode_bitmap_mark
  split_ifs <;> simp

@[simp] theorem check_inode_bitmap_mark_errors_fixed (i : Nat) (s : State) :
    (check_inode_bitmap_mark i s).errors_fixed = s.errors_fixed := by
  unfold check_inode_bitmap_mark
  split_ifs <;> simp

@[simp] theorem check_inode_bitmap_mark_out (i : Nat) (s : State) :
    (check_inode_bitmap_mark i s).out = s.out := by
  unfold check_inode_bitmap_mark
  split_ifs <;> simp

@[simp] theorem check_inode_bitmap_mark_writes (i : Nat) (s : State) :
    (check_inode_bitmap_mark i s).writes = s.writes := by
  unfold check_inode_bitmap_mark
  split_ifs <;> simp

/-! ## Bits of a bitmap block -/

theorem and_one_shiftLeft_ne_zero (b p : Nat) :
    ((b &&& (1 <<< p)) != 0) = b.testBit p := by
  rw [Nat.one_shiftLeft]
  by_cases h : b.testBit p = true
  · rw [h]
    have hbit : (b &&& 2 ^ p).testBit p = true := by
      rw [Nat.testBit_and, h, Nat.testBit_two_pow_self]
      rfl
    have hne : b &&& 2 ^ p ≠ 0 := by
      intro h0
      rw [h0] at hbit
      simp at hbit
    simpa using hne
  · have hf : b.testBit p = false := by simpa using h
    rw [hf]
    have hz : b &&& 2 ^ p = 0 := by
      apply Nat.eq_of_testBit_eq
      intro i
      rw [Nat.testBit_and, Nat.testBit_two_pow]
      by_cases hi : p = i
      · subst hi
        simp [hf]
      · simp [hi]
    simp [hz]

theorem testBit_or_shift (b p q : Nat) (hq : q < 8) :
    ((b ||| (1 <<< p)) % 256).testBit q = (b.testBit q || decide (p = q)) := by
  have h256 : (256 : Nat) = 2 ^ 8 := by norm_num
  rw [h256, Nat.testBit_mod_two_pow, Nat.testBit_or, Nat.one_shiftLeft, Nat.testBit_two_pow]
  simp [hq]

theorem testBit_and_complement (b p q : Nat) (hq : q < 8) :
    ((b &&& (4294967295 ^^^ (1 <<< p))) % 256).testBit q
      = (b.testBit q && !decide (p = q)) := by
  have h256 : (256 : Nat) = 2 ^ 8 := by norm_num
  have h32 : (4294967295 : Nat) = 2 ^ 32 - 1 := by norm_num
  rw [h256, Nat.testBit_mod_two_pow, Nat.testBit_and, Nat.testBit_xor, Nat.one_shiftLeft,
    Nat.testBit_two_pow, h32, Nat.testBit_two_pow_sub_one]
  have hq32 : q < 32 := by omega
  by_cases hpq : p = q <;> simp [hq, hq32, hpq]

theorem is_bit_set_eq (bitmap : Nat → Nat) (k : Nat) :
    is_bit_set bitmap k = bitmap_bit bitmap k := by
  simp only [is_bit_set, bitmap_bit, and_one_shiftLeft_ne_zero]

theorem bitmap_bit_set_bit (bitmap : Nat → Nat) (k j : Nat) (v : Bool) :
    bitmap_bit (set_bit bitmap k v) j = if j = k then v else bitmap_bit bitmap j := by
  have hlt : j % 8 < 8 := Nat.mod_lt _ (by norm_num)
  by_cases hbyte : j / 8 = k / 8
  · have hjk : j = k ↔ k % 8 = j % 8 := by omega
    cases v
    · simp only [set_bit, bitmap_bit, hbyte, Function.update_same, Bool.false_eq_true,
        if_false, testBit_and_complement _ _ _ hlt]
      by_cases h : k % 8 = j % 8
      · simp [h, hjk.2 h]
      · have hne : ¬ j = k := fun e => h (hjk.1 e)
        simp [h, hne]
    · simp only [set_bit, bitmap_bit, hbyte, Function.update_same, if_true,
        testBit_or_shift _ _ _ hlt]
      by_cases h : k % 8 = j % 8
      · simp [h, hjk.2 h]
      · have hne : ¬ j = k := fun e => h (hjk.1 e)
        simp [h, hne]
  · have hne : ¬ j = k := fun e => hbyte (by rw [e])
    cases v <;> simp [set_bit, bitmap_bit, Function.update_noteq hbyte, hne]

@[simp] theorem fix_inode_bitmap_body_sb (i : Nat) (fs : Bool × State) :
    (fix_inode_bitmap_body i fs).2.sb = fs.2.sb := by
  unfold fix_inode_bitmap_body
  simp only []
  split_ifs <;> rfl

@[simp] theorem fix_inode_bitmap_body_data_bitmap (i : Nat) (fs : Bool × State) :
    (fix_inode_bitmap_body i fs).2.data_bitmap = fs.2.data_bitmap := by
  unfold fix_inode_bitmap_body
  simp only []
  split_ifs <;> rfl

@[simp] theorem fix_inode_bitmap_body_inodes (i : Nat) (fs : Bool × State) :
    (fix_inode_bitmap_body i fs).2.inodes = fs.2.inodes := by
  unfold fix_inode_bitmap_body
  simp only []
  split_ifs <;> rfl

@[simp] theorem fix_inode_bitmap_body_inode_referenced (i : Nat) (fs : Bool × State) :
    (fix_inode_bitmap_body i fs).2.inode_referenced = fs.2.inode_referenced := by
  unfold fix_inode_bitmap_body
  simp only []
  split_ifs <;> rfl

@[simp] theorem fix_inode_bitmap_body_data_block_referenced (i : Nat) (fs : Bool × State) :
    (fix_inode_bitmap_body i fs).2.data_block_referenced = fs.2.data_block_referenced := by
  unfold fix_inode_bitmap_body
  simp only []
  split_ifs <;> rfl

@[simp] theorem fix_inode_bitmap_body_data_block_owner (i : Nat) (fs : Bool × State) :
    (fix_inode_bitmap_body i fs).2.data_block_owner = fs.2.data_block_owner := by
  unfold fix_inode_bitmap_body
  simp only []
  split_ifs <;> rfl

@[simp] theorem fix_inode_bitmap_body_errors_found (i : Nat) (fs : Bool × State) :
    (fix_inode_bitmap_body i fs).2.errors_found = fs.2.errors_found := by
  unfold fix_inode_bitmap_body
  simp only []
  split_ifs <;> rfl

@[simp] theorem fix_inode_bitmap_body_errors_fixed (i : Nat) (fs : Bool × State) :
    (fix_inode_bitmap_body i fs).2.errors_fixed = fs.2.errors_fixed := by
  unfold fix_inode_bitmap_body
  simp only []
  split_ifs <;> rfl

@[simp] theorem fix_inode_bitmap_body_writes (i : Nat) (fs : Bool × State) :
    (fix_inode_bitmap_body i fs).2.writes = fs.2.writes := by
  unfold fix_inode_bitmap_body
  simp only []
  split_ifs <;> rfl

@[simp] theorem persist_if_fixed_inode_bitmap (b : Nat) (fs : Bool × State) :
    (persist_if_fixed b fs).inode_bitmap = fs.2.inode_bitmap := by
  unfold persist_if_fixed
  split_ifs <;> rfl

@[simp] theorem persist_if_fixed_data_bitmap (b : Nat) (fs : Bool × State) :
    (persist_if_fixed b fs).data_bitmap = fs.2.data_bitmap := by
  unfold persist_if_fixed
  split_ifs <;> rfl

@[simp] theorem persist_if_fixed_inodes (b : Nat) (fs : Bool × State) :
    (persist_if_fixed b fs).inodes = fs.2.inodes := by
  unfold persist_if_fixed
  split_ifs <;> rfl

@[simp] theorem persist_if_fixed_inode_referenced (b : Nat) (fs : Bool × State) :
    (persist_if_fixed b fs).inode_referenced = fs.2.inode_referenced := by
  unfold persist_if_fixed
  split_ifs <;> rfl

@[simp] theorem persist_if_fixed_data_block_referenced (b : Nat) (fs : Bool × State) :
    (persist_if_fixed b fs).data_block_referenced = fs.2.data_block_referenced := by
  unfold persist_if_fixed
  split_ifs <;> rfl

@[simp] theorem persist_if_fixed_data_block_owner (b : Nat) (fs : Bool × State) :
    (persist_if_fixed b fs).data_block_owner = fs.2.data_block_owner := by
  unfold persist_if_fixed
  split_ifs <;> rfl

@[simp] theorem persist_if_fixed_errors_found (b : Nat) (fs : Bool × State) :
    (persist_if_fixed b fs).errors_found = fs.2.errors_found := by
  unfold persist_if_fixed
  split_ifs <;> rfl

@[simp] theorem persist_if_fixed_out (b : Nat) (fs : Bool × State) :
    (persist_if_fixed b fs).out = fs.2.out := by
  unfold persist_if_fixed
  split_ifs <;> rfl

/-! ## Loop invariants for the inode bitmap check and repair -/

theorem for_loop_preserves {σ α : Type} (proj : σ → α) (body : Nat → σ → σ)
    (h : ∀ (i : Nat) (s : σ), proj (body i s) = proj s) (n : Nat) (s : σ) :
    proj (for_loop n body s) = proj s := by
  induction n with
  | zero => rw [for_loop_zero]
  | succ n ih => rw [for_loop_succ, h, ih]

theorem flatMap_toList_eq_filterMap {α β : Type} (f : α → Option β) (l : List α) :
    l.flatMap (fun a => (f a).toList) = l.filterMap f := by
  induction l with
  | nil => rfl
  | cons a l ih =>
    rw [List.flatMap_cons, ih]
    cases h : f a <;> simp [List.filterMap_cons, h]

theorem u32_sub_data_start (v : Nat) (h : in_data_range v) :
    u32_sub v DATA_BLOCK_START = v - 8 := by
  unfold in_data_range at h
  unfold u32_sub DATA_BLOCK_START
  omega

theorem track_pointer_referenced (i v d : Nat) (s : State) (hd : d < 56) :
    (track_pointer i v s).data_block_referenced d
      = (s.data_block_referenced d || decide (v = d + 8)) := by
  unfold track_pointer
  by_cases h0 : v = 0
  · have hne : ¬ (0 = d + 8) := by omega
    simp [h0, hne]
  · by_cases hr : in_data_range v
    · have hv : is_block_valid v = true := (is_block_valid_eq_true v).2 (Or.inr hr)
      simp only [h0, hv, ne_eq, not_false_eq_true, if_true, u32_sub_data_start v hr,
        Function.update_apply]
      unfold in_data_range at hr
      by_cases hdv : d = v - 8
      · have hv8 : v = d + 8 := by omega
        subst hv8
        simp
      · have hv8 : ¬ v = d + 8 := by omega
        simp [hdv, hv8]
    · have hv : is_block_valid v = false := by
        rw [← Bool.not_eq_true, is_block_valid_eq_true]
        tauto
      have hne : ¬ v = d + 8 := by
        intro e
        apply hr
        unfold in_data_range
        omega
      simp [h0, hv, hne]

theorem process_block_pointers_referenced (i d : Nat) (s : State) (hd : d < 56) :
    (process_block_pointers i s).data_block_referenced d
      = (s.data_block_referenced d || decide (points_to (s.inodes i) (d + 8))) := by
  simp only [process_block_pointers, track_pointer_referenced _ _ _ _ hd, points_to]
  simp [Bool.or_assoc]

theorem check_inode_bitmap_mark_referenced (j d : Nat) (s : State) (hd : d < 56) :
    (check_inode_bitmap_mark j s).data_block_referenced d
      = (s.data_block_referenced d ||
          decide (valid_inode (s.inodes j) ∧ points_to (s.inodes j) (d + 8))) := by
  unfold check_inode_bitmap_mark
  by_cases hv : valid_inode (s.inodes j)
  · have hv2 := (is_inode_valid_iff s.inodes j).2 hv
    simp [hv2, hv, process_block_pointers_referenced _ _ _ hd]
  · have hv2 : is_inode_valid s.inodes j = false := by
      rw [← Bool.not_eq_true, is_inode_valid_iff]
      exact hv
    simp [hv2, hv]

theorem check_inode_bitmap_mark_inode_referenced (j i : Nat) (s : State) :
    (check_inode_bitmap_mark j s).inode_referenced i
      = (s.inode_referenced i || (decide (i = j) && is_inode_valid s.inodes j)) := by
  unfold check_inode_bitmap_mark
  cases hv : is_inode_valid s.inodes j
  · simp
  · by_cases hij : i = j
    · simp [hij]
    · simp [hij, Function.update_noteq hij]

theorem mark_loop_inodes (n : Nat) (s : State) :
    (for_loop n check_inode_bitmap_mark s).inodes = s.inodes :=
  for_loop_preserves State.inodes _ check_inode_bitmap_mark_inodes n s

theorem mark_loop_inode_referenced (n i : Nat) (s : State) :
    (for_loop n check_inode_bitmap_mark s).inode_referenced i
      = (s.inode_referenced i || (decide (i < n) && is_inode_valid s.inodes i)) := by
  induction n with
  | zero => simp [for_loop_zero]
  | succ n ih =>
    rw [for_loop_succ, check_inode_bitmap_mark_inode_referenced, ih, mark_loop_inodes]
    by_cases h1 : i = n
    · subst h1
      simp
    · by_cases h2 : i < n
      · have : i < n + 1 := by omega
        simp [h1, h2, this]
      · have : ¬ i < n + 1 := by omega
        simp [h1, h2, this]

theorem referenced_below_succ (inodes : Nat → Inode) (n b : Nat) :
    referenced_below inodes (n + 1) b ↔
      (referenced_below inodes n b ∨ (valid_inode (inodes n) ∧ points_to (inodes n) b)) := by
  unfold referenced_below
  constructor
  · rintro ⟨i, hi, hv, hp⟩
    by_cases h : i = n
    · subst h
      exact Or.inr ⟨hv, hp⟩
    · exact Or.inl ⟨i, by omega, hv, hp⟩
  · rintro (⟨i, hi, hv, hp⟩ | ⟨hv, hp⟩)
    · exact ⟨i, by omega, hv, hp⟩
    · exact ⟨n, by omega, hv, hp⟩

theorem mark_loop_referenced (n d : Nat) (s : State) (hd : d < 56) :
    (for_loop n check_inode_bitmap_mark s).data_block_referenced d
      = (s.data_block_referenced d || decide (referenced_below s.inodes n (d + 8))) := by
  induction n with
  | zero =>
    have : ¬ referenced_below s.inodes 0 (d + 8) := by
      rintro ⟨i, hi, _⟩
      omega
    simp [for_loop_zero, this]
  | succ n ih =>
    rw [for_loop_succ, check_inode_bitmap_mark_referenced _ _ _ hd, ih, mark_loop_inodes]
    simp only [referenced_below_succ, Bool.or_assoc, Bool.decide_or]

/-! ## Inode bitmap checker -/

theorem slot_finding_length (bit flag : Bool) (m1 m2 : Msg) :
    (slot_finding bit flag m1 m2).toList.length = if bit = flag then 0 else 1 := by
  cases bit <;> cases flag <;> rfl

theorem check_inode_bitmap_compare_eq (i : Nat) (es : Nat × State) :
    check_inode_bitmap_compare i es
      = (es.1 + (inode_compare_findings es.2 i).length,
          { es.2 with out := es.2.out ++ inode_compare_findings es.2 i }) := by
  unfold check_inode_bitmap_compare inode_compare_findings
  cases h1 : is_bit_set es.2.inode_bitmap i <;> cases h2 : es.2.inode_referenced i <;>
    simp [slot_finding, State.emit, h1, h2]

theorem check_inode_bitmap_unfold (s : State) :
    check_inode_bitmap s
      = (((List.range 80).flatMap
            (inode_compare_findings (for_loop 80 check_inode_bitmap_mark s))).length,
          { for_loop 80 check_inode_bitmap_mark s with
            out := s.out ++ (List.range 80).flatMap
              (inode_compare_findings (for_loop 80 check_inode_bitmap_mark s))
            errors_found := s.errors_found + ((List.range 80).flatMap
              (inode_compare_findings (for_loop 80 check_inode_bitmap_mark s))).length }) := by
  have h80 : INODE_COUNT = 80 := rfl
  simp only [check_inode_bitmap]
  rw [for_loop_emit inode_compare_findings check_inode_bitmap_compare (fun _ _ _ => rfl)
    check_inode_bitmap_compare_eq, h80]
  have hout : (for_loop 80 check_inode_bitmap_mark s).out = s.out :=
    for_loop_preserves State.out _ check_inode_bitmap_mark_out 80 s
  have herr : (for_loop 80 check_inode_bitmap_mark s).errors_found = s.errors_found :=
    for_loop_preserves State.errors_found _ check_inode_bitmap_mark_errors_found 80 s
  simp only [hout, herr, Nat.zero_add]

/-- The flags that the first loop of `check_inode_bitmap` leaves behind agree with the
validity predicate as soon as no stale flag was set for an inode that is not valid. -/
theorem mark_loop_flags_valid (s : State)
    (h : ∀ i, i < 80 → s.inode_referenced i = true → valid_inode (s.inodes i)) (i : Nat)
    (hi : i < 80) :
    (for_loop 80 check_inode_bitmap_mark s).inode_referenced i
      = decide (valid_inode (s.inodes i)) := by
  rw [mark_loop_inode_referenced]
  by_cases hv : valid_inode (s.inodes i)
  · have hv2 := (is_inode_valid_iff s.inodes i).2 hv
    simp [hv, hv2, hi]
  · have hv2 : is_inode_valid s.inodes i = false := by
      rw [← Bool.not_eq_true, is_inode_valid_iff]
      exact hv
    have hr : s.inode_referenced i = false := by
      rw [← Bool.not_eq_true]
      exact fun e => hv (h i hi e)
    simp [hv, hv2, hr]

theorem slot_finding_inode (bitmap : Nat → Nat) (inodes : Nat → Inode) (i : Nat) :
    slot_finding (bitmap_bit bitmap i) (decide (valid_inode (inodes i)))
        (Msg.inode_used_not_valid i) (Msg.inode_valid_marked_free i)
      = inode_bitmap_finding bitmap inodes i := by
  unfold slot_finding inode_bitmap_finding
  cases hb : bitmap_bit bitmap i <;> by_cases hv : valid_inode (inodes i) <;> simp [hv]

theorem inode_compare_findings_eq (s : State)
    (h : ∀ i, i < 80 → s.inode_referenced i = true → valid_inode (s.inodes i)) :
    (List.range 80).flatMap (inode_compare_findings (for_loop 80 check_inode_bitmap_mark s))
      = (List.range 80).filterMap (inode_bitmap_finding s.inode_bitmap s.inodes) := by
  rw [← flatMap_toList_eq_filterMap]
  apply List.flatMap_congr
  intro i hi
  have hi2 : i < 80 := List.mem_range.1 hi
  have hbm : (for_loop 80 check_inode_bitmap_mark s).inode_bitmap = s.inode_bitmap :=
    for_loop_preserves State.inode_bitmap _ check_inode_bitmap_mark_inode_bitmap 80 s
  unfold inode_compare_findings
  rw [mark_loop_flags_valid s h i hi2, hbm, is_bit_set_eq, slot_finding_inode]

theorem inode_bitmap_finding_isSome (bitmap : Nat → Nat) (inodes : Nat → Inode) (i : Nat) :
    (inode_bitmap_finding bitmap inodes i).isSome = true ↔
      ¬ (bitmap_bit bitmap i = true ↔ valid_inode (inodes i)) := by
  unfold inode_bitmap_finding
  cases hb : bitmap_bit bitmap i <;> by_cases hv : valid_inode (inodes i) <;> simp [hv]

theorem mem_inode_bitmap_findings (bitmap : Nat → Nat) (inodes : Nat → Inode) (m : Msg) :
    m ∈ (List.range 80).filterMap (inode_bitmap_finding bitmap inodes) ↔
      ∃ i, i < 80 ∧
        ((bitmap_bit bitmap i = true ∧ ¬ valid_inode (inodes i) ∧
            m = Msg.inode_used_not_valid i) ∨
          (bitmap_bit bitmap i = false ∧ valid_inode (inodes i) ∧
            m = Msg.inode_valid_marked_free i)) := by
  rw [List.mem_filterMap]
  constructor
  · rintro ⟨i, hi, hm⟩
    refine ⟨i, List.mem_range.1 hi, ?_⟩
    unfold inode_bitmap_finding at hm
    split_ifs at hm with h1 h2
    · exact Or.inl ⟨h1.1, h1.2, (Option.some.inj hm).symm⟩
    · exact Or.inr ⟨h2.1, h2.2, (Option.some.inj hm).symm⟩
  · rintro ⟨i, hi, h | h⟩
    · refine ⟨i, List.mem_range.2 hi, ?_⟩
      unfold inode_bitmap_finding
      rw [if_pos ⟨h.1, h.2.1⟩, h.2.2]
    · refine ⟨i, List.mem_range.2 hi, ?_⟩
      unfold inode_bitmap_finding
      have hne : ¬ (bitmap_bit bitmap i = true ∧ ¬ valid_inode (inodes i)) :=
        fun hc => hc.2 h.2.1
      rw [if_neg hne, if_pos ⟨h.1, h.2.1⟩, h.2.2]

theorem inode_bitmap_findings_nodup (bitmap : Nat → Nat) (inodes : Nat → Inode) :
    ((List.range 80).filterMap (inode_bitmap_finding bitmap inodes)).Nodup := by
  apply List.Nodup.filterMap _ (List.nodup_range 80)
  intro a a2 b hb hb2
  unfold inode_bitmap_finding at hb hb2
  rw [Option.mem_def] at hb hb2
  split_ifs at hb hb2 <;> rw [← hb2] at hb <;> simp at hb <;> exact hb

theorem check_inode_bitmap_result (s : State)
    (h : ∀ i, i < 80 → s.inode_referenced i = true → valid_inode (s.inodes i)) :
    (check_inode_bitmap s).1
        = ((List.range 80).filterMap (inode_bitmap_finding s.inode_bitmap s.inodes)).length ∧
      (check_inode_bitmap s).2.out
        = s.out ++ (List.range 80).filterMap (inode_bitmap_finding s.inode_bitmap s.inodes) := by
  rw [check_inode_bitmap_unfold, inode_compare_findings_eq s h]
  exact ⟨rfl, rfl⟩

theorem inode_bitmap_findings_length (bitmap : Nat → Nat) (inodes : Nat → Inode) :
    ((List.range 80).filterMap (inode_bitmap_finding bitmap inodes)).length
      = ((List.range 80).filter (fun i =>
          decide (¬ (bitmap_bit bitmap i = true ↔ valid_inode (inodes i))))).length := by
  rw [List.length_filterMap_eq_countP, ← List.countP_eq_length_filter]
  apply List.countP_congr
  intro i _
  rw [inode_bitmap_finding_isSome, decide_eq_true_eq]

/-- C2: run from the initial tracking state (all `inode_referenced` flags false),
`check_inode_bitmap` returns exactly the number of slots `i` in 0..79 whose bitmap bit
differs from the validity predicate (`links_count > 0` and `dtime == 0`) of inode `i`;
the findings it prints are pairwise distinct, a slot is reported as "set but not valid"
exactly when its bit is set and the inode is not valid, and as "clear but valid" exactly
when its bit is clear and the inode is valid, so no slot gets both. -/
theorem check_inode_bitmap_counts (s : State)
    (h0 : ∀ i, i < 80 → s.inode_referenced i = false) :
    (check_inode_bitmap s).1
      = ((List.range 80).filter (fun i =>
          decide (¬ (bitmap_bit s.inode_bitmap i = true ↔
            (0 < (s.inodes i).links_count ∧ (s.inodes i).dtime = 0))))).length ∧
    (∃ findings : List Msg,
      (check_inode_bitmap s).2.out = s.out ++ findings ∧
      findings.length = (check_inode_bitmap s).1 ∧
      findings = (List.range 80).filterMap (inode_bitmap_finding s.inode_bitmap s.inodes) ∧
      findings.Nodup ∧
      (∀ i, Msg.inode_used_not_valid i ∈ findings ↔
        (i < 80 ∧ bitmap_bit s.inode_bitmap i = true ∧
          ¬ (0 < (s.inodes i).links_count ∧ (s.inodes i).dtime = 0))) ∧
      (∀ i, Msg.inode_valid_marked_free i ∈ findings ↔
        (i < 80 ∧ bitmap_bit s.inode_bitmap i = false ∧
          (0 < (s.inodes i).links_count ∧ (s.inodes i).dtime = 0))) ∧
      (∀ i, ¬ (Msg.inode_used_not_valid i ∈ findings ∧
        Msg.inode_valid_marked_free i ∈ findings))) := by
  have h : ∀ i, i < 80 → s.inode_referenced i = true → valid_inode (s.inodes i) := by
    intro i hi ht
    rw [h0 i hi] at ht
    exact absurd ht (by decide)
  obtain ⟨hcount, hout⟩ := check_inode_bitmap_result s h
  have hused : ∀ i, Msg.inode_used_not_valid i ∈
      (List.range 80).filterMap (inode_bitmap_finding s.inode_bitmap s.inodes) ↔
        (i < 80 ∧ bitmap_bit s.inode_bitmap i = true ∧ ¬ valid_inode (s.inodes i)) := by
    intro i
    rw [mem_inode_bitmap_findings]
    constructor
    · rintro ⟨j, hj, h1 | h1⟩
      · have hij : i = j := by
          have := h1.2.2
          simpa using this
        subst hij
        exact ⟨hj, h1.1, h1.2.1⟩
      · exact absurd h1.2.2 (by simp)
    · rintro ⟨hi, hb, hv⟩
      exact ⟨i, hi, Or.inl ⟨hb, hv, rfl⟩⟩
  have hfree : ∀ i, Msg.inode_valid_marked_free i ∈
      (List.range 80).filterMap (inode_bitmap_finding s.inode_bitmap s.inodes) ↔
        (i < 80 ∧ bitmap_bit s.inode_bitmap i = false ∧ valid_inode (s.inodes i)) := by
    intro i
    rw [mem_inode_bitmap_findings]
    constructor
    · rintro ⟨j, hj, h1 | h1⟩
      · exact absurd h1.2.2 (by simp)
      · have hij : i = j := by
          have := h1.2.2
          simpa using this
        subst hij
        exact ⟨hj, h1.1, h1.2.1⟩
    · rintro ⟨hi, hb, hv⟩
      exact ⟨i, hi, Or.inr ⟨hb, hv, rfl⟩⟩
  refine ⟨?_, _, hout, hcount.symm, rfl, inode_bitmap_findings_nodup _ _, hused, hfree, ?_⟩
  · rw [hcount, inode_bitmap_findings_length]
    rfl
  · intro i hboth
    exact ((hused i).1 hboth.1).2.2 ((hfree i).1 hboth.2).2.2

/-- Witness for C2: a freshly loaded image with one valid inode that the bitmap leaves
unmarked. -/
theorem check_inode_bitmap_counts_witness :
    (∀ i, i < 80 → image_unmarked_file.inode_referenced i = false) ∧
    (check_inode_bitmap image_unmarked_file).1
      = ((List.range 80).filter (fun i =>
          decide (¬ (bitmap_bit image_unmarked_file.inode_bitmap i = true ↔
            (0 < (image_unmarked_file.inodes i).links_count ∧
              (image_unmarked_file.inodes i).dtime = 0))))).length :=
  ⟨fun _ _ => rfl, (check_inode_bitmap_counts image_unmarked_file (fun _ _ => rfl)).1⟩

/-! ## Inode bitmap repair -/

theorem fix_inode_bitmap_body_bit (i j : Nat) (fs : Bool × State) :
    bitmap_bit (fix_inode_bitmap_body i fs).2.inode_bitmap j
      = if j = i then is_inode_valid fs.2.inodes i else bitmap_bit fs.2.inode_bitmap j := by
  unfold fix_inode_bitmap_body
  simp only []
  split_ifs with hne hji hji
  · simp [State.emit, bitmap_bit_set_bit, hji]
  · simp [State.emit, bitmap_bit_set_bit, hji]
  · have heq : is_inode_valid fs.2.inodes i = is_bit_set fs.2.inode_bitmap i := by
      simpa using hne
    rw [hji, heq, is_bit_set_eq]
  · rfl

theorem fix_inode_loop_inodes (n : Nat) (fs : Bool × State) :
    (for_loop n fix_inode_bitmap_body fs).2.inodes = fs.2.inodes :=
  for_loop_preserves (fun x : Bool × State => x.2.inodes) _ fix_inode_bitmap_body_inodes n fs

theorem fix_inode_loop_bit (n j : Nat) (fs : Bool × State) :
    bitmap_bit (for_loop n fix_inode_bitmap_body fs).2.inode_bitmap j
      = if j < n then is_inode_valid fs.2.inodes j else bitmap_bit fs.2.inode_bitmap j := by
  induction n with
  | zero => simp [for_loop_zero]
  | succ n ih =>
    rw [for_loop_succ, fix_inode_bitmap_body_bit, ih, fix_inode_loop_inodes]
    by_cases h1 : j = n
    · subst h1
      simp
    · by_cases h2 : j < n
      · have : j < n + 1 := by omega
        simp [h1, h2, this]
      · have : ¬ j < n + 1 := by omega
        simp [h1, h2, this]

theorem fix_inode_bitmap_bit (s : State) (j : Nat) (hj : j < 80) :
    bitmap_bit (fix_inode_bitmap s).inode_bitmap j = decide (valid_inode (s.inodes j)) := by
  have h80 : INODE_COUNT = 80 := rfl
  rw [fix_inode_bitmap, persist_if_fixed_inode_bitmap, fix_inode_bitmap_scan, h80,
    fix_inode_loop_bit, if_pos hj]
  by_cases hv : valid_inode (s.inodes j)
  · simp [hv, (is_inode_valid_iff s.inodes j).2 hv]
  · have hv2 : is_inode_valid s.inodes j = false := by
      rw [← Bool.not_eq_true, is_inode_valid_iff]
      exact hv
    simp [hv, hv2]

theorem fix_inode_bitmap_inodes (s : State) : (fix_inode_bitmap s).inodes = s.inodes := by
  rw [fix_inode_bitmap, persist_if_fixed_inodes, fix_inode_bitmap_scan, fix_inode_loop_inodes]

theorem fix_inode_bitmap_inode_referenced (s : State) :
    (fix_inode_bitmap s).inode_referenced = s.inode_referenced := by
  rw [fix_inode_bitmap, persist_if_fixed_inode_referenced, fix_inode_bitmap_scan]
  exact for_loop_preserves (fun x : Bool × State => x.2.inode_referenced) _
    fix_inode_bitmap_body_inode_referenced _ _

/-- The flags left by `check_inode_bitmap` on a freshly loaded image are set for valid
inodes only. -/
theorem check_inode_bitmap_flags_sound (s : State)
    (h : ∀ i, i < 80 → s.inode_referenced i = true → valid_inode (s.inodes i)) :
    ∀ i, i < 80 → (check_inode_bitmap s).2.inode_referenced i = true →
      valid_inode ((check_inode_bitmap s).2.inodes i) := by
  intro i hi
  rw [check_inode_bitmap_unfold]
  simp only [mark_loop_inodes, mark_loop_flags_valid s h i hi, decide_eq_true_eq]
  exact id

/-- C10: for any validity assignment to the 80 inode slots and any inode bitmap contents,
`fix_inode_bitmap` followed by `check_inode_bitmap` yields zero findings, provided the
`inode_referenced` flags are those of program start (all false) or were left by earlier
checks of the same inode table, that is: a flag is set only for a valid inode. -/
theorem fix_then_check_inode_bitmap (s : State)
    (h : ∀ i, i < 80 → s.inode_referenced i = true →
      (0 < (s.inodes i).links_count ∧ (s.inodes i).dtime = 0)) :
    (check_inode_bitmap (fix_inode_bitmap s)).1 = 0 ∧
    (check_inode_bitmap (fix_inode_bitmap s)).2.out = (fix_inode_bitmap s).out := by
  have h2 : ∀ i, i < 80 → (fix_inode_bitmap s).inode_referenced i = true →
      valid_inode ((fix_inode_bitmap s).inodes i) := by
    intro i hi
    rw [fix_inode_bitmap_inode_referenced, fix_inode_bitmap_inodes]
    exact h i hi
  obtain ⟨hcount, hout⟩ := check_inode_bitmap_result (fix_inode_bitmap s) h2
  have hnil : (List.range 80).filterMap
      (inode_bitmap_finding (fix_inode_bitmap s).inode_bitmap (fix_inode_bitmap s).inodes)
        = [] := by
    rw [List.filterMap_eq_nil_iff]
    intro i hi
    have hi2 : i < 80 := List.mem_range.1 hi
    rw [← Option.not_isSome_iff_eq_none, inode_bitmap_finding_isSome, not_not,
      fix_inode_bitmap_bit s i hi2, fix_inode_bitmap_inodes, decide_eq_true_eq]
  rw [hcount, hout, hnil]
  exact ⟨rfl, List.append_nil _⟩

/-- Witness for C10: a freshly loaded image with one valid inode that the bitmap leaves
unmarked. -/
theorem fix_then_check_inode_bitmap_witness :
    (∀ i, i < 80 → image_unmarked_file.inode_referenced i = true →
      (0 < (image_unmarked_file.inodes i).links_count ∧
        (image_unmarked_file.inodes i).dtime = 0)) ∧
    ((check_inode_bitmap (fix_inode_bitmap image_unmarked_file)).1 = 0 ∧
      (check_inode_bitmap (fix_inode_bitmap image_unmarked_file)).2.out
        = (fix_inode_bitmap image_unmarked_file).out) :=
  ⟨fun _ _ hf => Bool.noConfusion hf,
    fix_then_check_inode_bitmap image_unmarked_file (fun _ _ hf => Bool.noConfusion hf)⟩

/-! ## Data bitmap checker -/

theorem check_data_bitmap_compare_eq (i : Nat) (es : Nat × State) :
    check_data_bitmap_compare i es
      = (es.1 + (data_compare_findings es.2 i).length,
          { es.2 with out := es.2.out ++ data_compare_findings es.2 i }) := by
  unfold check_data_bitmap_compare data_compare_findings
  cases h1 : is_bit_set es.2.data_bitmap i <;> cases h2 : es.2.data_block_referenced i <;>
    simp [slot_finding, State.emit, h1, h2]

theorem check_data_bitmap_unfold (s : State) :
    check_data_bitmap s
      = (((List.range 56).flatMap (data_compare_findings s)).length,
          { s with
            out := s.out ++ (List.range 56).flatMap (data_compare_findings s)
            errors_found := s.errors_found
              + ((List.range 56).flatMap (data_compare_findings s)).length }) := by
  have h56 : DATA_BLOCK_COUNT = 56 := rfl
  simp only [check_data_bitmap]
  rw [for_loop_emit data_compare_findings check_data_bitmap_compare (fun _ _ _ => rfl)
    check_data_bitmap_compare_eq, h56]
  simp only [Nat.zero_add]

theorem length_flatMap_range (f : Nat → List Msg) (q : Nat → Bool) (n : Nat)
    (h : ∀ i, i < n → (f i).length = if q i = true then 1 else 0) :
    ((List.range n).flatMap f).length = ((List.range n).filter q).length := by
  induction n with
  | zero => rfl
  | succ n ih =>
    rw [List.range_succ, List.flatMap_append, List.filter_append, List.length_append,
      List.length_append, ih (fun i hi => h i (by omega))]
    congr 1
    simp only [List.flatMap_cons, List.flatMap_nil, List.append_nil, h n (by omega),
      List.filter_cons, List.filter_nil]
    cases q n <;> rfl

theorem check_data_bitmap_fst (s : State) :
    (check_data_bitmap s).1
      = ((List.range 56).filter (fun d =>
          bitmap_bit s.data_bitmap d != s.data_block_referenced d)).length := by
  rw [check_data_bitmap_unfold]
  apply length_flatMap_range
  intro i _
  unfold data_compare_findings
  rw [slot_finding_length, is_bit_set_eq]
  cases bitmap_bit s.data_bitmap i <;> cases s.data_block_referenced i <;> rfl

theorem check_inode_bitmap_data_bitmap (s : State) :
    (check_inode_bitmap s).2.data_bitmap = s.data_bitmap := by
  rw [check_inode_bitmap_unfold]
  dsimp only
  exact for_loop_preserves State.data_bitmap _ check_inode_bitmap_mark_data_bitmap 80 s

theorem check_inode_bitmap_referenced (s : State) (d : Nat) (hd : d < 56) :
    (check_inode_bitmap s).2.data_block_referenced d
      = (s.data_block_referenced d || decide (referenced_below s.inodes 80 (d + 8))) := by
  rw [check_inode_bitmap_unfold]
  dsimp only
  exact mark_loop_referenced 80 d s hd

/-- C3: in the program's check sequence, started with a zeroed `data_block_referenced`
array, the tracker that `check_data_bitmap` consults after `check_inode_bitmap` is the
reachability over all valid inodes (entry `d` is set iff some valid inode has one of its
four pointer fields equal to `d + 8`, which is `referenced_below inodes 80 (d + 8)`), and
`check_data_bitmap` returns exactly the number of data indices `d` in 0..55 whose bitmap
bit differs from that ground truth. -/
theorem check_data_bitmap_counts (s : State)
    (h0 : ∀ d, d < 56 → s.data_block_referenced d = false) :
    (∀ d, d < 56 →
      ((check_inode_bitmap s).2.data_block_referenced d = true ↔
        ∃ i, i < 80 ∧ (0 < (s.inodes i).links_count ∧ (s.inodes i).dtime = 0) ∧
          ((s.inodes i).direct_block = d + 8 ∨ (s.inodes i).single_indirect = d + 8 ∨
            (s.inodes i).double_indirect = d + 8 ∨ (s.inodes i).triple_indirect = d + 8))) ∧
    (∀ d, referenced_below s.inodes 80 (d + 8) ↔
        ∃ i, i < 80 ∧ (0 < (s.inodes i).links_count ∧ (s.inodes i).dtime = 0) ∧
          ((s.inodes i).direct_block = d + 8 ∨ (s.inodes i).single_indirect = d + 8 ∨
            (s.inodes i).double_indirect = d + 8 ∨ (s.inodes i).triple_indirect = d + 8)) ∧
    (check_data_bitmap (check_inode_bitmap s).2).1
      = ((List.range 56).filter (fun d =>
          decide (¬ (bitmap_bit s.data_bitmap d = true ↔
            referenced_below s.inodes 80 (d + 8))))).length := by
  have href : ∀ d, d < 56 → (check_inode_bitmap s).2.data_block_referenced d
      = decide (referenced_below s.inodes 80 (d + 8)) := by
    intro d hd
    rw [check_inode_bitmap_referenced s d hd, h0 d hd, Bool.false_or]
  refine ⟨?_, fun _ => Iff.rfl, ?_⟩
  · intro d hd
    rw [href d hd, decide_eq_true_eq]
    rfl
  · rw [check_data_bitmap_fst, check_inode_bitmap_data_bitmap]
    apply congrArg List.length
    apply List.filter_congr
    intro d hd
    have hd2 : d < 56 := List.mem_range.1 hd
    rw [href d hd2]
    by_cases hb : bitmap_bit s.data_bitmap d = true <;>
      by_cases hr : referenced_below s.inodes 80 (d + 8) <;>
      simp [hb, hr]

/-- Witness for C3: a freshly loaded image with one valid inode whose direct block 10 the
data bitmap leaves unmarked. -/
theorem check_data_bitmap_counts_witness :
    (∀ d, d < 56 → image_unmarked_file.data_block_referenced d = false) ∧
    (check_data_bitmap (check_inode_bitmap image_unmarked_file).2).1
      = ((List.range 56).filter (fun d =>
          decide (¬ (bitmap_bit image_unmarked_file.data_bitmap d = true ↔
            referenced_below image_unmarked_file.inodes 80 (d + 8))))).length :=
  ⟨fun _ _ => rfl, (check_data_bitmap_counts image_unmarked_file (fun _ _ => rfl)).2.2⟩

/-! ## Duplicate checker: the reported conflicts -/

theorem conflicts_after_cons (pre : List Claim) (c : Claim) (rest : List Claim) :
    conflicts_after pre (c :: rest)
      = conflict_of_claim pre c ++ conflicts_after (pre ++ [c]) rest := rfl

theorem conflicts_after_append (pre xs ys : List Claim) :
    conflicts_after pre (xs ++ ys)
      = conflicts_after pre xs ++ conflicts_after (pre ++ xs) ys := by
  induction xs generalizing pre with
  | nil => simp [conflicts_after]
  | cons c rest ih =>
    rw [List.cons_append, conflicts_after_cons, conflicts_after_cons, ih, List.append_assoc,
      List.append_assoc, List.singleton_append]

theorem conflicts_after_singleton (pre : List Claim) (c : Claim) :
    conflicts_after pre [c] = conflict_of_claim pre c := by
  simp only [conflicts_after, List.append_nil]

theorem conflict_of_claim_some (pre : List Claim) (c o : Claim)
    (h : pre.find? (fun p : Claim => decide (p.block = c.block)) = some o) :
    conflict_of_claim pre c = [Msg.duplicate c.block (o.inode : Int) c.inode] := by
  unfold conflict_of_claim
  rw [h]

theorem conflict_of_claim_none (pre : List Claim) (c : Claim)
    (h : pre.find? (fun p : Claim => decide (p.block = c.block)) = none) :
    conflict_of_claim pre c = [] := by
  unfold conflict_of_claim
  rw [h]

theorem find_block_isSome (pre : List Claim) (b : Nat) :
    (pre.find? (fun p => decide (p.block = b))).isSome = true ↔ ∃ p, p ∈ pre ∧ p.block = b := by
  rw [List.find?_isSome]
  simp only [decide_eq_true_eq]

theorem dup_check_pointer_step (s0 : State) (pre : List Claim) (i : Nat) (f : PtrField)
    (v : Nat) (es : Nat × State) (h : dup_inv s0 pre es) :
    dup_inv s0 (pre ++ ptr_claim i f v) (dup_check_pointer i v es) := by
  obtain ⟨hin, hout, hcnt, ⟨href, hown⟩, hrange⟩ := h
  unfold dup_check_pointer ptr_claim
  by_cases hact : v ≠ 0 ∧ in_data_range v
  · have hvalid : is_block_valid v = true := (is_block_valid_eq_true v).2 (Or.inr hact.2)
    have hidx : u32_sub v DATA_BLOCK_START = v - 8 := u32_sub_data_start v hact.2
    have hv8 : v - 8 + 8 = v := by
      have := hact.2
      unfold in_data_range at this
      omega
    rw [if_pos hact, if_pos (show v ≠ 0 ∧ is_block_valid v = true from ⟨hact.1, hvalid⟩)]
    simp only [hidx]
    have hrange2 : ∀ p, p ∈ pre ++ [({ inode := i, field := f, block := v } : Claim)] →
        in_data_range p.block := by
      intro p hp
      rcases List.mem_append.1 hp with hp | hp
      · exact hrange p hp
      · rw [List.mem_singleton] at hp
        rw [hp]
        exact hact.2
    by_cases hseen : es.2.data_block_referenced (v - 8) = true
    · -- the block is already claimed: report, do not reassign
      obtain ⟨p, hp, hpb⟩ := (href (v - 8)).1 hseen
      rw [hv8] at hpb
      have hsome : (pre.find? (fun q => decide (q.block = v))).isSome = true :=
        (find_block_isSome pre v).2 ⟨p, hp, hpb⟩
      obtain ⟨o, ho⟩ := Option.isSome_iff_exists.1 hsome
      have howner : es.2.data_block_owner (v - 8) = (o.inode : Int) := by
        apply hown
        rw [hv8]
        exact ho
      have hca : conflicts_after pre [({ inode := i, field := f, block := v } : Claim)]
          = [Msg.duplicate v (o.inode : Int) i] := by
        rw [conflicts_after_singleton]
        exact conflict_of_claim_some pre _ o ho
      rw [if_pos hseen]
      refine ⟨hin, ?_, ?_, ⟨?_, ?_⟩, hrange2⟩
      · simp only [State.emit, hout, conflicts_after_append, List.nil_append, hca, howner,
          List.append_assoc]
      · simp only [hcnt, conflicts_after_append, List.nil_append, hca, List.length_append,
          List.length_singleton]
      · intro d
        rw [emit_data_block_referenced, href d]
        constructor
        · rintro ⟨q, hq, hqb⟩
          exact ⟨q, List.mem_append_left _ hq, hqb⟩
        · rintro ⟨q, hq, hqb⟩
          rcases List.mem_append.1 hq with hq | hq
          · exact ⟨q, hq, hqb⟩
          · rw [List.mem_singleton] at hq
            rw [hq] at hqb
            exact ⟨p, hp, by rw [hpb]; exact hqb⟩
      · intro d o2 hfind
        rw [emit_data_block_owner]
        apply hown
        rw [List.find?_append] at hfind
        cases hpre : pre.find? (fun q => decide (q.block = d + 8)) with
        | some o3 =>
          rw [hpre] at hfind
          simpa using hfind
        | none =>
          rw [hpre] at hfind
          simp only [Option.none_or, List.find?_cons, List.find?_nil] at hfind
          have hd : v = d + 8 := by
            by_contra hne
            simp [hne] at hfind
          rw [← hd, ho] at hpre
          exact absurd hpre (by simp)
    · -- first claim on the block: record it
      have hnone : pre.find? (fun q => decide (q.block = v)) = none := by
        rw [← Option.not_isSome_iff_eq_none, find_block_isSome]
        rintro ⟨p, hp, hpb⟩
        apply hseen
        apply (href (v - 8)).2
        exact ⟨p, hp, by rw [hv8]; exact hpb⟩
      have hca : conflicts_after pre [({ inode := i, field := f, block := v } : Claim)] = [] := by
        rw [conflicts_after_singleton]
        exact conflict_of_claim_none pre _ hnone
      rw [if_neg hseen]
      refine ⟨hin, ?_, ?_, ⟨?_, ?_⟩, hrange2⟩
      · simp only [hout, conflicts_after_append, List.nil_append, hca, List.append_nil]
      · simp only [hcnt, conflicts_after_append, List.nil_append, hca, List.append_nil]
      · intro d
        simp only [Function.update_apply]
        by_cases hd : d = v - 8
        · subst hd
          simp only [if_true, true_iff]
          exact ⟨_, List.mem_append_right _ (List.mem_singleton.2 rfl), hv8.symm⟩
        · rw [if_neg hd, href d]
          constructor
          · rintro ⟨q, hq, hqb⟩
            exact ⟨q, List.mem_append_left _ hq, hqb⟩
          · rintro ⟨q, hq, hqb⟩
            rcases List.mem_append.1 hq with hq | hq
            · exact ⟨q, hq, hqb⟩
            · rw [List.mem_singleton] at hq
              rw [hq] at hqb
              exact absurd (show d = v - 8 by simp only at hqb; omega) hd
      · intro d o2 hfind
        simp only [Function.update_apply]
        rw [List.find?_append] at hfind
        cases hpre : pre.find? (fun q => decide (q.block = d + 8)) with
        | some o3 =>
          rw [hpre] at hfind
          have ho3 : o3 = o2 := by simpa using hfind
          have hd : d ≠ v - 8 := by
            intro hd
            rw [hd, hv8, hnone] at hpre
            exact absurd hpre (by simp)
          rw [if_neg hd, ← ho3]
          exact hown d o3 hpre
        | none =>
          rw [hpre] at hfind
          simp only [Option.none_or, List.find?_cons, List.find?_nil] at hfind
          by_cases hd : v = d + 8
          · simp only [hd, decide_True] at hfind
            have ho2 : o2 = { inode := i, field := f, block := d + 8 } := by
              simpa using hfind.symm
            have hd2 : d = v - 8 := by omega
            rw [if_pos hd2, ho2]
          · simp [hd] at hfind
  · have hguard : ¬ (v ≠ 0 ∧ is_block_valid v = true) := by
      rintro ⟨h0, hv⟩
      rcases (is_block_valid_eq_true v).1 hv with h | h
      · exact h0 h
      · exact hact ⟨h0, h⟩
    rw [if_neg hact, if_neg hguard, List.append_nil]
    exact ⟨hin, hout, hcnt, ⟨href, hown⟩, hrange⟩

theorem check_duplicate_blocks_body_step (s0 : State) (pre : List Claim) (i : Nat)
    (es : Nat × State) (h : dup_inv s0 pre es) :
    dup_inv s0 (pre ++ inode_claims s0.inodes i) (check_duplicate_blocks_body i es) := by
  have e0 : es.2.inodes = s0.inodes := h.1
  unfold check_duplicate_blocks_body inode_claims
  rw [e0]
  by_cases hv : valid_inode (s0.inodes i)
  · have hv2 := (is_inode_valid_iff s0.inodes i).2 hv
    rw [if_pos hv2, if_pos hv]
    have h1 := dup_check_pointer_step s0 pre i PtrField.direct (s0.inodes i).direct_block es h
    have e1 := h1.1
    have h2 := dup_check_pointer_step s0 _ i PtrField.single (s0.inodes i).single_indirect _ h1
    have e2 := h2.1
    have h3 := dup_check_pointer_step s0 _ i PtrField.double (s0.inodes i).double_indirect _ h2
    have e3 := h3.1
    have h4 := dup_check_pointer_step s0 _ i PtrField.triple (s0.inodes i).triple_indirect _ h3
    simp only [e0, e1, e2, e3]
    simpa only [List.append_assoc] using h4
  · have hv2 : is_inode_valid s0.inodes i = false := by
      rw [← Bool.not_eq_true, is_inode_valid_iff]
      exact hv
    rw [if_neg hv, List.append_nil]
    simpa [hv2] using h

theorem check_duplicate_blocks_loop (s0 : State) (n : Nat) (es : Nat × State)
    (h : dup_inv s0 [] es) :
    dup_inv s0 ((List.range n).flatMap (inode_claims s0.inodes))
      (for_loop n check_duplicate_blocks_body es) := by
  induction n with
  | zero => simpa [for_loop_zero] using h
  | succ n ih =>
    rw [for_loop_succ, List.range_succ, List.flatMap_append]
    simpa using check_duplicate_blocks_body_step s0 _ n _ ih

theorem check_duplicate_blocks_result (s : State) :
    (check_duplicate_blocks s).1 = (conflicts_after [] (block_claims s.inodes)).length ∧
    (check_duplicate_blocks s).2.out = s.out ++ conflicts_after [] (block_claims s.inodes) := by
  have h80 : INODE_COUNT = 80 := rfl
  have hinit : dup_inv
      { s with data_block_referenced := fun _ => false, data_block_owner := fun _ => -1 } []
      (0, { s with data_block_referenced := fun _ => false, data_block_owner := fun _ => -1 }) := by
    refine ⟨rfl, ?_, rfl, ⟨?_, ?_⟩, ?_⟩
    · simp [conflicts_after]
    · intro d
      simp
    · intro d o hfind
      simp at hfind
    · intro p hp
      simp at hp
  have hloop := check_duplicate_blocks_loop _ 80 _ hinit
  obtain ⟨_, hout, hcnt, _, _⟩ := hloop
  simp only [check_duplicate_blocks, h80]
  exact ⟨hcnt, hout⟩

/-! ## Counting the reported conflicts -/

theorem find_block_eq_none (pre : List Claim) (b : Nat) :
    pre.find? (fun p => decide (p.block = b)) = none ↔ b ∉ pre.map Claim.block := by
  rw [← Option.not_isSome_iff_eq_none, find_block_isSome, List.mem_map]

theorem conflict_of_claim_length (pre : List Claim) (c : Claim) :
    (conflict_of_claim pre c).length = if c.block ∈ pre.map Claim.block then 1 else 0 := by
  cases h : pre.find? (fun p : Claim => decide (p.block = c.block)) with
  | none =>
    rw [if_neg ((find_block_eq_none pre c.block).1 h), conflict_of_claim_none pre c h]
    rfl
  | some o =>
    have hmem : c.block ∈ pre.map Claim.block := by
      by_contra hn
      rw [(find_block_eq_none pre c.block).2 hn] at h
      exact absurd h (by simp)
    rw [if_pos hmem, conflict_of_claim_some pre c o h]
    rfl

theorem conflicts_after_length (pre cs : List Claim) :
    (conflicts_after pre cs).length + ((pre ++ cs).map Claim.block).toFinset.card
      = cs.length + (pre.map Claim.block).toFinset.card := by
  induction cs generalizing pre with
  | nil => simp [conflicts_after]
  | cons c rest ih =>
    have ih2 := ih (pre ++ [c])
    rw [List.append_assoc, List.singleton_append] at ih2
    rw [conflicts_after_cons, List.length_append, conflict_of_claim_length, List.length_cons]
    have hins : ((pre ++ [c]).map Claim.block).toFinset
        = insert c.block (pre.map Claim.block).toFinset := by
      ext x
      simp [or_comm]
    rw [hins] at ih2
    by_cases hmem : c.block ∈ pre.map Claim.block
    · rw [Finset.card_insert_of_mem (List.mem_toFinset.2 hmem)] at ih2
      rw [if_pos hmem]
      omega
    · rw [Finset.card_insert_of_not_mem (fun h => hmem (List.mem_toFinset.1 h))] at ih2
      rw [if_neg hmem]
      omega

theorem conflict_of_claim_countP (v : Nat) (pre : List Claim) (c : Claim) :
    (conflict_of_claim pre c).countP (Msg.is_conflict_on v)
      = if c.block = v ∧ v ∈ pre.map Claim.block then 1 else 0 := by
  cases h : pre.find? (fun p : Claim => decide (p.block = c.block)) with
  | none =>
    have hn := (find_block_eq_none pre c.block).1 h
    have : ¬ (c.block = v ∧ v ∈ pre.map Claim.block) := by
      rintro ⟨h1, h2⟩
      rw [← h1] at h2
      exact hn h2
    rw [if_neg this, conflict_of_claim_none pre c h]
    rfl
  | some o =>
    have hmem : c.block ∈ pre.map Claim.block := by
      by_contra hn
      rw [(find_block_eq_none pre c.block).2 hn] at h
      exact absurd h (by simp)
    rw [conflict_of_claim_some pre c o h]
    by_cases hcv : c.block = v
    · have : c.block = v ∧ v ∈ pre.map Claim.block := ⟨hcv, hcv ▸ hmem⟩
      rw [if_pos this]
      simp [List.countP_cons, Msg.is_conflict_on, hcv]
    · have : ¬ (c.block = v ∧ v ∈ pre.map Claim.block) := fun hc => hcv hc.1
      rw [if_neg this]
      simp [List.countP_cons, Msg.is_conflict_on, hcv]

theorem conflicts_after_countP (v : Nat) (pre cs : List Claim) :
    (conflicts_after pre cs).countP (Msg.is_conflict_on v)
        + (if v ∈ pre.map Claim.block then 0
            else if v ∈ cs.map Claim.block then 1 else 0)
      = (cs.map Claim.block).count v := by
  induction cs generalizing pre with
  | nil => simp [conflicts_after]
  | cons c rest ih =>
    have ih2 := ih (pre ++ [c])
    rw [conflicts_after_cons, List.countP_append, conflict_of_claim_countP, List.map_cons,
      List.count_cons]
    have hmem1 : v ∈ (pre ++ [c]).map Claim.block ↔
        (v ∈ pre.map Claim.block ∨ v = c.block) := by
      simp
    have hmem2 : v ∈ c.block :: rest.map Claim.block ↔
        (v = c.block ∨ v ∈ rest.map Claim.block) := by
      simp
    simp only [hmem1, hmem2, beq_iff_eq] at ih2 ⊢
    by_cases hcv : c.block = v
    · subst hcv
      by_cases hp : c.block ∈ pre.map Claim.block
      · simp only [hp, true_or, if_true, and_self] at ih2 ⊢
        omega
      · simp only [hp, or_true, true_or, if_true, if_false, and_false] at ih2 ⊢
        omega
    · have hvc : ¬ v = c.block := fun h => hcv h.symm
      by_cases hp : v ∈ pre.map Claim.block
      · simp only [hp, hcv, hvc, true_or, if_true, if_false, false_and] at ih2 ⊢
        omega
      · simp only [hp, hcv, hvc, false_or, or_false, if_false, false_and] at ih2 ⊢
        omega

theorem mem_conflicts_after (m : Msg) (pre cs : List Claim) :
    m ∈ conflicts_after pre cs ↔
      ∃ l1 c l2 o, cs = l1 ++ c :: l2 ∧
        (pre ++ l1).find? (fun p : Claim => decide (p.block = c.block)) = some o ∧
        m = Msg.duplicate c.block (o.inode : Int) c.inode := by
  induction cs generalizing pre with
  | nil =>
    constructor
    · intro h
      simp [conflicts_after] at h
    · rintro ⟨l1, c, l2, o, h, _⟩
      simp at h
  | cons c rest ih =>
    rw [conflicts_after_cons, List.mem_append, ih]
    constructor
    · rintro (h | ⟨l1, c2, l2, o, hrest, hfind, hm⟩)
      · refine ⟨[], c, rest, ?_⟩
        cases hf : pre.find? (fun p : Claim => decide (p.block = c.block)) with
        | none =>
          rw [conflict_of_claim_none pre c hf] at h
          simp at h
        | some o =>
          rw [conflict_of_claim_some pre c o hf] at h
          exact ⟨o, rfl, by rw [List.append_nil]; exact hf, List.mem_singleton.1 h⟩
      · refine ⟨c :: l1, c2, l2, o, by rw [hrest]; rfl, ?_, hm⟩
        rw [← hfind, List.append_assoc, List.singleton_append]
    · rintro ⟨l1, c2, l2, o, hcs, hfind, hm⟩
      cases l1 with
      | nil =>
        left
        rw [List.nil_append, List.cons.injEq] at hcs
        rw [List.append_nil, ← hcs.1] at hfind
        rw [conflict_of_claim_some pre c o hfind, hm, hcs.1]
        exact List.mem_singleton.2 rfl
      | cons x l1 =>
        right
        rw [List.cons_append, List.cons.injEq] at hcs
        refine ⟨l1, c2, l2, o, hcs.2, ?_, hm⟩
        rw [← hfind, List.append_assoc, List.singleton_append, hcs.1]

/-! ## The list of claims -/

theorem mem_ptr_claim (c : Claim) (i : Nat) (f : PtrField) (v : Nat) :
    c ∈ ptr_claim i f v ↔
      (c = { inode := i, field := f, block := v } ∧ v ≠ 0 ∧ in_data_range v) := by
  unfold ptr_claim
  by_cases h : v ≠ 0 ∧ in_data_range v
  · rw [if_pos h, List.mem_singleton]
    exact ⟨fun hc => ⟨hc, h⟩, fun hc => hc.1⟩
  · rw [if_neg h]
    constructor
    · intro hc
      exact absurd hc (List.not_mem_nil c)
    · intro hc
      exact absurd hc.2 h

theorem mem_inode_claims (inodes : Nat → Inode) (i : Nat) (c : Claim) :
    c ∈ inode_claims inodes i ↔
      (valid_inode (inodes i) ∧ c.inode = i ∧ (inodes i).ptr c.field = c.block ∧
        c.block ≠ 0 ∧ in_data_range c.block) := by
  unfold inode_claims
  by_cases hv : valid_inode (inodes i)
  · rw [if_pos hv]
    simp only [List.mem_append, mem_ptr_claim]
    constructor
    · rintro (((⟨rfl, h0, hr⟩ | ⟨rfl, h0, hr⟩) | ⟨rfl, h0, hr⟩) | ⟨rfl, h0, hr⟩) <;>
        exact ⟨hv, rfl, rfl, h0, hr⟩
    · rintro ⟨_, hi, hp, h0, hr⟩
      obtain ⟨ci, cf, cb⟩ := c
      simp only at hi hp h0 hr
      subst hi
      subst hp
      cases cf
      · exact Or.inl (Or.inl (Or.inl ⟨rfl, h0, hr⟩))
      · exact Or.inl (Or.inl (Or.inr ⟨rfl, h0, hr⟩))
      · exact Or.inl (Or.inr ⟨rfl, h0, hr⟩)
      · exact Or.inr ⟨rfl, h0, hr⟩
  · rw [if_neg hv]
    constructor
    · intro hc
      exact absurd hc (List.not_mem_nil c)
    · intro hc
      exact absurd hc.1 hv

theorem mem_block_claims (inodes : Nat → Inode) (c : Claim) :
    c ∈ block_claims inodes ↔
      (c.inode < 80 ∧ valid_inode (inodes c.inode) ∧ (inodes c.inode).ptr c.field = c.block ∧
        c.block ≠ 0 ∧ in_data_range c.block) := by
  unfold block_claims
  rw [List.mem_flatMap]
  constructor
  · rintro ⟨i, hi, hc⟩
    rw [mem_inode_claims] at hc
    obtain ⟨hv, hci, hp, h0, hr⟩ := hc
    subst hci
    exact ⟨List.mem_range.1 hi, hv, hp, h0, hr⟩
  · rintro ⟨hi, hv, hp, h0, hr⟩
    exact ⟨c.inode, List.mem_range.2 hi, (mem_inode_claims inodes c.inode c).2 ⟨hv, rfl, hp, h0, hr⟩⟩

theorem inode_claims_pairwise (inodes : Nat → Inode) (i : Nat) :
    (inode_claims inodes i).Pairwise claimed_before := by
  unfold inode_claims ptr_claim
  split_ifs <;> simp [claimed_before, PtrField.index]

theorem block_claims_pairwise (inodes : Nat → Inode) :
    (block_claims inodes).Pairwise claimed_before := by
  unfold block_claims
  rw [List.pairwise_flatMap]
  refine ⟨fun i _ => inode_claims_pairwise inodes i, ?_⟩
  apply List.Pairwise.imp _ (List.pairwise_lt_range 80)
  intro a b hab x hx y hy
  rw [mem_inode_claims] at hx hy
  left
  rw [hx.2.1, hy.2.1]
  exact hab

theorem claimed_before_irrefl (c : Claim) : ¬ claimed_before c c := by
  unfold claimed_before
  omega

theorem block_claims_nodup (inodes : Nat → Inode) : (block_claims inodes).Nodup := by
  apply List.Pairwise.imp _ (block_claims_pairwise inodes)
  intro a b hab heq
  rw [heq] at hab
  exact claimed_before_irrefl b hab

/-! ## Duplicate checker: N claimants give N - 1 conflicts -/

/-- C5: `check_duplicate_blocks` reports, for each data block named by `N >= 1` nonzero
in-range pointer fields of valid inodes, exactly `N - 1` conflicts, so that its return
value is the number of such pointer fields minus the number of distinct blocks they name;
every conflict names as prior owner the first claimant of the block in ascending inode
order (direct, single, double, triple within an inode), ownership not being reassigned.
Here `block_claims s.inodes` lists those pointer fields, each once, in that order. -/
theorem check_duplicate_blocks_conflicts (s : State) :
    ((∀ c, c ∈ block_claims s.inodes ↔
        (c.inode < 80 ∧ (0 < (s.inodes c.inode).links_count ∧ (s.inodes c.inode).dtime = 0) ∧
          (s.inodes c.inode).ptr c.field = c.block ∧ c.block ≠ 0 ∧
          (8 ≤ c.block ∧ c.block < 64))) ∧
      (block_claims s.inodes).Pairwise claimed_before) ∧
    (∃ findings : List Msg,
      (check_duplicate_blocks s).2.out = s.out ++ findings ∧
      (check_duplicate_blocks s).1 = findings.length ∧
      (check_duplicate_blocks s).1
        = (block_claims s.inodes).length
          - ((block_claims s.inodes).map Claim.block).toFinset.card ∧
      (∀ v, 1 ≤ ((block_claims s.inodes).map Claim.block).count v →
        findings.countP (Msg.is_conflict_on v)
          = ((block_claims s.inodes).map Claim.block).count v - 1) ∧
      (∀ m, m ∈ findings →
        ∃ c o, m = Msg.duplicate c.block (o.inode : Int) c.inode ∧
          c ∈ block_claims s.inodes ∧
          (block_claims s.inodes).find? (fun p : Claim => decide (p.block = c.block)) = some o ∧
          claimed_before o c)) := by
  obtain ⟨hcnt, hout⟩ := check_duplicate_blocks_result s
  refine ⟨⟨fun c => mem_block_claims s.inodes c, block_claims_pairwise s.inodes⟩,
    conflicts_after [] (block_claims s.inodes), hout, hcnt, ?_, ?_, ?_⟩
  · have h := conflicts_after_length [] (block_claims s.inodes)
    simp only [List.nil_append, List.map_nil, List.toFinset_nil, Finset.card_empty,
      Nat.add_zero] at h
    rw [hcnt]
    omega
  · intro v hv
    have h := conflicts_after_countP v [] (block_claims s.inodes)
    have hmem : v ∈ (block_claims s.inodes).map Claim.block :=
      List.count_pos_iff.1 hv
    simp only [List.map_nil, List.not_mem_nil, if_false, hmem, if_true] at h
    omega
  · intro m hm
    rw [mem_conflicts_after] at hm
    obtain ⟨l1, c, l2, o, hL, hfind, hmsg⟩ := hm
    rw [List.nil_append] at hfind
    refine ⟨c, o, hmsg, ?_, ?_, ?_⟩
    · rw [hL]
      exact List.mem_append_right _ (List.mem_cons_self c l2)
    · rw [hL, List.find?_append, hfind]
      rfl
    · have hpw := block_claims_pairwise s.inodes
      rw [hL, List.pairwise_append] at hpw
      exact hpw.2.2 o (List.mem_of_find?_eq_some hfind) c (List.mem_cons_self c l2)

/-! ## Two inodes sharing one block -/

theorem count_block_eq_countP (v : Nat) (cs : List Claim) :
    (cs.map Claim.block).count v = cs.countP (fun c => c.block == v) := by
  rw [List.count_eq_countP, List.countP_map]
  rfl

/-- C4: when two valid inodes `A < B` each carry a pointer field equal to the same data
block number `v` with `8 <= v < 64`, and no other two in-range pointer fields of valid
inodes hold equal values, `check_duplicate_blocks` reports exactly one conflict, naming
block `v` with owner `A` and claimant `B`, and `check_bad_blocks` (on any state with the
same inode table) reports no finding for those two pointer fields. -/
theorem shared_block_one_conflict (s : State) (A B v : Nat) (fA fB : PtrField)
    (hAB : A < B) (hB : B < 80)
    (hvA : 0 < (s.inodes A).links_count ∧ (s.inodes A).dtime = 0)
    (hvB : 0 < (s.inodes B).links_count ∧ (s.inodes B).dtime = 0)
    (hpA : (s.inodes A).ptr fA = v) (hpB : (s.inodes B).ptr fB = v)
    (hv : 8 ≤ v ∧ v < 64)
    (hother : ∀ (i : Nat) (f : PtrField) (j : Nat) (g : PtrField), i < 80 → j < 80 →
      (0 < (s.inodes i).links_count ∧ (s.inodes i).dtime = 0) →
      (0 < (s.inodes j).links_count ∧ (s.inodes j).dtime = 0) →
      (s.inodes i).ptr f = (s.inodes j).ptr g →
      (8 ≤ (s.inodes i).ptr f ∧ (s.inodes i).ptr f < 64) →
      ((i = j ∧ f = g) ∨ (i = A ∧ f = fA ∧ j = B ∧ g = fB) ∨
        (i = B ∧ f = fB ∧ j = A ∧ g = fA))) :
    (check_duplicate_blocks s).1 = 1 ∧
    (check_duplicate_blocks s).2.out = s.out ++ [Msg.duplicate v (A : Int) B] ∧
    (∀ s2 : State, s2.inodes = s.inodes →
      ∃ bad : List Msg, (check_bad_blocks s2).2.out = s2.out ++ bad ∧
        ∀ x, Msg.bad_pointer A fA x ∉ bad ∧ Msg.bad_pointer B fB x ∉ bad) := by
  obtain ⟨hcnt, hout⟩ := check_duplicate_blocks_result s
  have hv0 : v ≠ 0 := by omega
  have hvr : in_data_range v := hv
  have ha : ({ inode := A, field := fA, block := v } : Claim) ∈ block_claims s.inodes :=
    (mem_block_claims s.inodes _).2 ⟨by simp only; omega, hvA, hpA, hv0, hvr⟩
  have hb : ({ inode := B, field := fB, block := v } : Claim) ∈ block_claims s.inodes :=
    (mem_block_claims s.inodes _).2 ⟨hB, hvB, hpB, hv0, hvr⟩
  have hab : ({ inode := A, field := fA, block := v } : Claim)
      ≠ { inode := B, field := fB, block := v } := by
    intro h
    have := congrArg Claim.inode h
    simp only at this
    omega
  -- two claims on one block are the claims of `A` and `B`
  have hpair : ∀ x, x ∈ block_claims s.inodes → ∀ y, y ∈ block_claims s.inodes →
      x.block = y.block →
      (x = y ∨ (x = { inode := A, field := fA, block := v } ∧
          y = { inode := B, field := fB, block := v }) ∨
        (x = { inode := B, field := fB, block := v } ∧
          y = { inode := A, field := fA, block := v })) := by
    intro x hx y hy hxy
    rw [mem_block_claims] at hx hy
    obtain ⟨xi, xf, xb⟩ := x
    obtain ⟨yi, yf, yb⟩ := y
    simp only at hx hy hxy
    have hptr : (s.inodes xi).ptr xf = (s.inodes yi).ptr yf := by
      rw [hx.2.2.1, hy.2.2.1, hxy]
    have hrange : 8 ≤ (s.inodes xi).ptr xf ∧ (s.inodes xi).ptr xf < 64 := by
      rw [hx.2.2.1]
      exact hx.2.2.2.2
    rcases hother xi xf yi yf hx.1 hy.1 hx.2.1 hy.2.1 hptr hrange with
      ⟨h1, h2⟩ | ⟨h1, h2, h3, h4⟩ | ⟨h1, h2, h3, h4⟩
    · left
      rw [h1, h2, hxy]
    · right
      left
      subst h1 h2 h3 h4
      have e1 : xb = v := by rw [← hx.2.2.1, hpA]
      have e2 : yb = v := by rw [← hy.2.2.1, hpB]
      rw [e1, e2]
      exact ⟨rfl, rfl⟩
    · right
      right
      subst h1 h2 h3 h4
      have e1 : xb = v := by rw [← hx.2.2.1, hpB]
      have e2 : yb = v := by rw [← hy.2.2.1, hpA]
      rw [e1, e2]
      exact ⟨rfl, rfl⟩
  -- every reported conflict is the one between `A` and `B`
  have hall : ∀ m, m ∈ conflicts_after [] (block_claims s.inodes) →
      m = Msg.duplicate v (A : Int) B := by
    intro m hm
    rw [mem_conflicts_after] at hm
    obtain ⟨l1, c, l2, o, hL, hfind, hmsg⟩ := hm
    rw [List.nil_append] at hfind
    have ho1 : o ∈ l1 := List.mem_of_find?_eq_some hfind
    have hob : o.block = c.block := by
      have := List.find?_some hfind
      simpa using this
    have hpw := block_claims_pairwise s.inodes
    rw [hL, List.pairwise_append] at hpw
    have hbefore : claimed_before o c := hpw.2.2 o ho1 c (List.mem_cons_self c l2)
    have hoL : o ∈ block_claims s.inodes := by
      rw [hL]
      exact List.mem_append_left _ ho1
    have hcL : c ∈ block_claims s.inodes := by
      rw [hL]
      exact List.mem_append_right _ (List.mem_cons_self c l2)
    rcases hpair o hoL c hcL hob with h | ⟨h1, h2⟩ | ⟨h1, h2⟩
    · rw [h] at hbefore
      exact absurd hbefore (claimed_before_irrefl c)
    · rw [hmsg, h1, h2]
    · rw [h1, h2] at hbefore
      unfold claimed_before at hbefore
      simp only at hbefore
      omega
  -- block `v` is claimed exactly twice
  have hcount : ((block_claims s.inodes).map Claim.block).count v = 2 := by
    rw [count_block_eq_countP]
    apply Nat.le_antisymm
    · rw [List.countP_eq_length_filter]
      have hnd : ((block_claims s.inodes).filter (fun c => c.block == v)).Nodup :=
        (block_claims_nodup s.inodes).filter _
      have hsub : (block_claims s.inodes).filter (fun c => c.block == v)
          ⊆ [{ inode := A, field := fA, block := v }, { inode := B, field := fB, block := v }] := by
        intro x hx
        rw [List.mem_filter] at hx
        have hxb : x.block = v := by simpa using hx.2
        rcases hpair x hx.1 _ ha hxb with h | ⟨h, _⟩ | ⟨h, _⟩
        · rw [h]
          exact List.mem_cons_self _ _
        · rw [h]
          exact List.mem_cons_self _ _
        · rw [h]
          exact List.mem_cons_of_mem _ (List.mem_singleton.2 rfl)
      exact (hnd.subperm hsub).length_le
    · have hnd : ([{ inode := A, field := fA, block := v },
          { inode := B, field := fB, block := v }] : List Claim).Nodup := by
        rw [List.nodup_cons]
        exact ⟨fun h => hab (List.mem_singleton.1 h), List.nodup_singleton _⟩
      have hsub : ([{ inode := A, field := fA, block := v },
          { inode := B, field := fB, block := v }] : List Claim) ⊆ block_claims s.inodes := by
        intro x hx
        rcases List.mem_cons.1 hx with h | h
        · rw [h]
          exact ha
        · rw [List.mem_singleton.1 h]
          exact hb
      have hle := (hnd.subperm hsub).countP_le (fun c => c.block == v)
      simpa using hle
  have hcp := conflicts_after_countP v [] (block_claims s.inodes)
  have hmem : v ∈ (block_claims s.inodes).map Claim.block :=
    List.mem_map.2 ⟨_, ha, rfl⟩
  simp only [List.map_nil, List.not_mem_nil, if_false, hmem, if_true, hcount] at hcp
  have hlen : (conflicts_after [] (block_claims s.inodes)).length = 1 := by
    have hfull : (conflicts_after [] (block_claims s.inodes)).countP (Msg.is_conflict_on v)
        = (conflicts_after [] (block_claims s.inodes)).length := by
      rw [List.countP_eq_length]
      intro m hm
      rw [hall m hm]
      simp [Msg.is_conflict_on]
    omega
  have hlist : conflicts_after [] (block_claims s.inodes) = [Msg.duplicate v (A : Int) B] := by
    cases hF : conflicts_after [] (block_claims s.inodes) with
    | nil =>
      rw [hF] at hlen
      simp at hlen
    | cons m rest =>
      rw [hF] at hlen hall
      have hrest : rest = [] := by
        apply List.eq_nil_of_length_eq_zero
        simpa using hlen
      rw [hrest, hall m (List.mem_cons_self m rest)]
  refine ⟨by rw [hcnt, hlen], by rw [hout, hlist], ?_⟩
  intro s2 hs2
  have hrA : in_data_range ((s2.inodes A).ptr fA) := by
    rw [hs2, hpA]
    exact hvr
  have hrB : in_data_range ((s2.inodes B).ptr fB) := by
    rw [hs2, hpB]
    exact hvr
  refine ⟨(bad_slots s2.inodes).map (bad_pointer_msg s2.inodes), by rw [check_bad_blocks_eq],
    ?_⟩
  intro x
  constructor
  · intro hx
    rw [List.mem_map] at hx
    obtain ⟨⟨a, b⟩, hmem2, heq⟩ := hx
    rw [mem_bad_slots] at hmem2
    simp only [bad_pointer_msg, Msg.bad_pointer.injEq] at heq
    obtain ⟨rfl, rfl, _⟩ := heq
    exact hmem2.2.2.2 hrA
  · intro hx
    rw [List.mem_map] at hx
    obtain ⟨⟨a, b⟩, hmem2, heq⟩ := hx
    rw [mem_bad_slots] at hmem2
    simp only [bad_pointer_msg, Msg.bad_pointer.injEq] at heq
    obtain ⟨rfl, rfl, _⟩ := heq
    exact hmem2.2.2.2 hrB

theorem image_shared_block_valid (i : Nat)
    (h : 0 < (image_shared_block.inodes i).links_count ∧
      (image_shared_block.inodes i).dtime = 0) : i = 0 ∨ i = 1 := by
  by_contra hne
  rw [not_or] at hne
  have hz : image_shared_block.inodes i = zero_inode := by
    simp [image_shared_block, initial_state, hne.1, hne.2]
  rw [hz] at h
  exact absurd h.1 (by decide)

theorem image_shared_block_others (i : Nat) (f : PtrField) (j : Nat) (g : PtrField)
    (hi : 0 < (image_shared_block.inodes i).links_count ∧
      (image_shared_block.inodes i).dtime = 0)
    (hj : 0 < (image_shared_block.inodes j).links_count ∧
      (image_shared_block.inodes j).dtime = 0)
    (hp : (image_shared_block.inodes i).ptr f = (image_shared_block.inodes j).ptr g)
    (hr : 8 ≤ (image_shared_block.inodes i).ptr f ∧ (image_shared_block.inodes i).ptr f < 64) :
    (i = j ∧ f = g) ∨ (i = 0 ∧ f = PtrField.direct ∧ j = 1 ∧ g = PtrField.single) ∨
      (i = 1 ∧ f = PtrField.single ∧ j = 0 ∧ g = PtrField.direct) := by
  rcases image_shared_block_valid i hi with rfl | rfl <;>
    rcases image_shared_block_valid j hj with rfl | rfl <;>
    cases f <;> cases g <;>
    simp [image_shared_block, initial_state, file_inode, zero_inode, Inode.ptr] at hp hr ⊢

/-- Witness for C4: inode 0 (direct) and inode 1 (single indirect) both name block 10. -/
theorem shared_block_one_conflict_witness :
    (0 < 1 ∧ 1 < 80 ∧ (image_shared_block.inodes 0).ptr PtrField.direct = 10 ∧
      (image_shared_block.inodes 1).ptr PtrField.single = 10) ∧
    ((check_duplicate_blocks image_shared_block).1 = 1 ∧
      (check_duplicate_blocks image_shared_block).2.out
        = image_shared_block.out ++ [Msg.duplicate 10 (0 : Nat) 1]) :=
  have h := shared_block_one_conflict image_shared_block 0 1 10 PtrField.direct
    PtrField.single (by decide) (by decide) (by decide) (by decide) rfl rfl (by decide)
    (fun i f j g _ _ hi hj hp hr => image_shared_block_others i f j g hi hj hp hr)
  ⟨⟨by decide, by decide, rfl, rfl⟩, h.1, h.2.1⟩

/-! ## Data bitmap repair -/

@[simp] theorem fix_data_bitmap_track_sb (i : Nat) (s : State) :
    (fix_data_bitmap_track i s).sb = s.sb := by
  unfold fix_data_bitmap_track
  split_ifs <;> simp

@[simp] theorem fix_data_bitmap_track_inode_bitmap (i : Nat) (s : State) :
    (fix_data_bitmap_track i s).inode_bitmap = s.inode_bitmap := by
  unfold fix_data_bitmap_track
  split_ifs <;> simp

@[simp] theorem fix_data_bitmap_track_data_bitmap (i : Nat) (s : State) :
    (fix_data_bitmap_track i s).data_bitmap = s.data_bitmap := by
  unfold fix_data_bitmap_track
  split_ifs <;> simp

@[simp] theorem fix_data_bitmap_track_inodes (i : Nat) (s : State) :
    (fix_data_bitmap_track i s).inodes = s.inodes := by
  unfold fix_data_bitmap_track
  split_ifs <;> simp

@[simp] theorem fix_data_bitmap_track_inode_referenced (i : Nat) (s : State) :
    (fix_data_bitmap_track i s).inode_referenced = s.inode_referenced := by
  unfold fix_data_bitmap_track
  split_ifs <;> simp

@[simp] theorem fix_data_bitmap_track_errors_found (i : Nat) (s : State) :
    (fix_data_bitmap_track i s).errors_found = s.errors_found := by
  unfold fix_data_bitmap_track
  split_ifs <;> simp

@[simp] theorem fix_data_bitmap_track_errors_fixed (i : Nat) (s : State) :
    (fix_data_bitmap_track i s).errors_fixed = s.errors_fixed := by
  unfold fix_data_bitmap_track
  split_ifs <;> simp

@[simp] theorem fix_data_bitmap_track_out (i : Nat) (s : State) :
    (fix_data_bitmap_track i s).out = s.out := by
  unfold fix_data_bitmap_track
  split_ifs <;> simp

@[simp] theorem fix_data_bitmap_track_writes (i : Nat) (s : State) :
    (fix_data_bitmap_track i s).writes = s.writes := by
  unfold fix_data_bitmap_track
  split_ifs <;> simp

@[simp] theorem fix_data_bitmap_body_sb (i : Nat) (fs : Bool × State) :
    ((fix_data_bitmap_body i fs).2).sb = fs.2.sb := by
  unfold fix_data_bitmap_body
  simp only []
  split_ifs <;> rfl

@[simp] theorem fix_data_bitmap_body_inode_bitmap (i : Nat) (fs : Bool × State) :
    ((fix_data_bitmap_body i fs).2).inode_bitmap = fs.2.inode_bitmap := by
  unfold fix_data_bitmap_body
  simp only []
  split_ifs <;> rfl

@[simp] theorem fix_data_bitmap_body_inodes (i : Nat) (fs : Bool × State) :
    ((fix_data_bitmap_body i fs).2).inodes = fs.2.inodes := by
  unfold fix_data_bitmap_body
  simp only []
  split_ifs <;> rfl

@[simp] theorem fix_data_bitmap_body_inode_referenced (i : Nat) (fs : Bool × State) :
    ((fix_data_bitmap_body i fs).2).inode_referenced = fs.2.inode_referenced := by
  unfold fix_data_bitmap_body
  simp only []
  split_ifs <;> rfl

@[simp] theorem fix_data_bitmap_body_data_block_referenced (i : Nat) (fs : Bool × State) :
    ((fix_data_bitmap_body i fs).2).data_block_referenced = fs.2.data_block_referenced := by
  unfold fix_data_bitmap_body
  simp only []
  split_ifs <;> rfl

@[simp] theorem fix_data_bitmap_body_data_block_owner (i : Nat) (fs : Bool × State) :
    ((fix_data_bitmap_body i fs).2).data_block_owner = fs.2.data_block_owner := by
  unfold fix_data_bitmap_body
  simp only []
  split_ifs <;> rfl

@[simp] theorem fix_data_bitmap_body_errors_found (i : Nat) (fs : Bool × State) :
    ((fix_data_bitmap_body i fs).2).errors_found = fs.2.errors_found := by
  unfold fix_data_bitmap_body
  simp only []
  split_ifs <;> rfl

@[simp] theorem fix_data_bitmap_body_errors_fixed (i : Nat) (fs : Bool × State) :
    ((fix_data_bitmap_body i fs).2).errors_fixed = fs.2.errors_fixed := by
  unfold fix_data_bitmap_body
  simp only []
  split_ifs <;> rfl

@[simp] theorem fix_data_bitmap_body_writes (i : Nat) (fs : Bool × State) :
    ((fix_data_bitmap_body i fs).2).writes = fs.2.writes := by
  unfold fix_data_bitmap_body
  simp only []
  split_ifs <;> rfl

theorem fix_data_bitmap_track_referenced (j d : Nat) (s : State) (hd : d < 56) :
    (fix_data_bitmap_track j s).data_block_referenced d
      = (s.data_block_referenced d ||
          decide (valid_inode (s.inodes j) ∧ points_to (s.inodes j) (d + 8))) := by
  unfold fix_data_bitmap_track
  by_cases hv : valid_inode (s.inodes j)
  · have hv2 := (is_inode_valid_iff s.inodes j).2 hv
    simp [hv2, hv, process_block_pointers_referenced _ _ _ hd]
  · have hv2 : is_inode_valid s.inodes j = false := by
      rw [← Bool.not_eq_true, is_inode_valid_iff]
      exact hv
    simp [hv2, hv]

theorem track_loop_inodes (n : Nat) (s : State) :
    (for_loop n fix_data_bitmap_track s).inodes = s.inodes :=
  for_loop_preserves State.inodes _ fix_data_bitmap_track_inodes n s

theorem track_loop_referenced (n d : Nat) (s : State) (hd : d < 56) :
    (for_loop n fix_data_bitmap_track s).data_block_referenced d
      = (s.data_block_referenced d || decide (referenced_below s.inodes n (d + 8))) := by
  induction n with
  | zero =>
    have : ¬ referenced_below s.inodes 0 (d + 8) := by
      rintro ⟨i, hi, _⟩
      omega
    simp [for_loop_zero, this]
  | succ n ih =>
    rw [for_loop_succ, fix_data_bitmap_track_referenced _ _ _ hd, ih, track_loop_inodes]
    simp only [referenced_below_succ, Bool.or_assoc, Bool.decide_or]

theorem fix_data_bitmap_body_bit (i j : Nat) (fs : Bool × State) :
    bitmap_bit (fix_data_bitmap_body i fs).2.data_bitmap j
      = if j = i then fs.2.data_block_referenced i else bitmap_bit fs.2.data_bitmap j := by
  unfold fix_data_bitmap_body
  simp only []
  split_ifs with hne hji hji
  · simp [State.emit, bitmap_bit_set_bit, hji]
  · simp [State.emit, bitmap_bit_set_bit, hji]
  · have heq : fs.2.data_block_referenced i = is_bit_set fs.2.data_bitmap i := by
      simpa using hne
    rw [hji, heq, is_bit_set_eq]
  · rfl

theorem fix_data_loop_referenced (n : Nat) (fs : Bool × State) :
    (for_loop n fix_data_bitmap_body fs).2.data_block_referenced = fs.2.data_block_referenced :=
  for_loop_preserves (fun x : Bool × State => x.2.data_block_referenced) _
    fix_data_bitmap_body_data_block_referenced n fs

theorem fix_data_loop_bit (n j : Nat) (fs : Bool × State) :
    bitmap_bit (for_loop n fix_data_bitmap_body fs).2.data_bitmap j
      = if j < n then fs.2.data_block_referenced j else bitmap_bit fs.2.data_bitmap j := by
  induction n with
  | zero => simp [for_loop_zero]
  | succ n ih =>
    rw [for_loop_succ, fix_data_bitmap_body_bit, ih, fix_data_loop_referenced]
    by_cases h1 : j = n
    · subst h1
      simp
    · by_cases h2 : j < n
      · have : j < n + 1 := by omega
        simp [h1, h2, this]
      · have : ¬ j < n + 1 := by omega
        simp [h1, h2, this]

/-- The state in which `fix_data_bitmap` compares the bitmap with the tracker: the tracker
reset and recomputed over the valid inodes. -/
theorem fix_data_bitmap_scan_eq (s : State) :
    fix_data_bitmap_scan s
      = for_loop DATA_BLOCK_COUNT fix_data_bitmap_body
          (false, for_loop INODE_COUNT fix_data_bitmap_track (reset_tracker s)) :=
  rfl

theorem fix_data_bitmap_inodes (s : State) : (fix_data_bitmap s).inodes = s.inodes := by
  rw [fix_data_bitmap, persist_if_fixed_inodes, fix_data_bitmap_scan_eq,
    for_loop_preserves (fun x : Bool × State => x.2.inodes) fix_data_bitmap_body
      fix_data_bitmap_body_inodes DATA_BLOCK_COUNT
      (false, for_loop INODE_COUNT fix_data_bitmap_track (reset_tracker s))]
  exact track_loop_inodes INODE_COUNT (reset_tracker s)

theorem tracked_referenced (s : State) (d : Nat) (hd : d < 56) :
    (for_loop INODE_COUNT fix_data_bitmap_track (reset_tracker s)).data_block_referenced d
      = decide (referenced_below s.inodes 80 (d + 8)) := by
  have h80 : INODE_COUNT = 80 := rfl
  rw [track_loop_referenced INODE_COUNT d (reset_tracker s) hd, h80]
  simp only [reset_tracker, Bool.false_or]

theorem fix_data_bitmap_referenced (s : State) (d : Nat) (hd : d < 56) :
    (fix_data_bitmap s).data_block_referenced d
      = decide (referenced_below s.inodes 80 (d + 8)) := by
  rw [fix_data_bitmap, persist_if_fixed_data_block_referenced, fix_data_bitmap_scan_eq,
    fix_data_loop_referenced]
  dsimp only
  exact tracked_referenced s d hd

theorem fix_data_bitmap_bit (s : State) (d : Nat) (hd : d < 56) :
    bitmap_bit (fix_data_bitmap s).data_bitmap d
      = decide (referenced_below s.inodes 80 (d + 8)) := by
  have hd2 : d < DATA_BLOCK_COUNT := hd
  rw [fix_data_bitmap, persist_if_fixed_data_bitmap, fix_data_bitmap_scan_eq,
    fix_data_loop_bit, if_pos hd2]
  dsimp only
  exact tracked_referenced s d hd

theorem check_data_bitmap_out (s : State) :
    (check_data_bitmap s).2.out = s.out ++ (List.range 56).flatMap (data_compare_findings s) := by
  rw [check_data_bitmap_unfold]

theorem data_findings_nil (s : State)
    (h : ∀ d, d < 56 → bitmap_bit s.data_bitmap d = s.data_block_referenced d) :
    (List.range 56).flatMap (data_compare_findings s) = [] := by
  rw [List.flatMap_eq_nil_iff]
  intro d hd
  have hd2 : d < 56 := List.mem_range.1 hd
  unfold data_compare_findings
  rw [is_bit_set_eq, h d hd2]
  cases s.data_block_referenced d <;> rfl

/-- C11: for every inode table, data bitmap and prior tracker state, after
`fix_data_bitmap` bit `d` of the data bitmap (for every `d` in 0..55) is set iff some valid
inode has one of its four pointer fields equal to `d + 8`, and `check_data_bitmap` run
immediately afterwards returns 0 and prints nothing. -/
theorem fix_data_bitmap_target (s : State) :
    (∀ d, d < 56 →
      (bitmap_bit (fix_data_bitmap s).data_bitmap d = true ↔
        ∃ i, i < 80 ∧ (0 < (s.inodes i).links_count ∧ (s.inodes i).dtime = 0) ∧
          ((s.inodes i).direct_block = d + 8 ∨ (s.inodes i).single_indirect = d + 8 ∨
            (s.inodes i).double_indirect = d + 8 ∨ (s.inodes i).triple_indirect = d + 8))) ∧
    (check_data_bitmap (fix_data_bitmap s)).1 = 0 ∧
    (check_data_bitmap (fix_data_bitmap s)).2.out = (fix_data_bitmap s).out := by
  have hnil : (List.range 56).flatMap (data_compare_findings (fix_data_bitmap s)) = [] := by
    apply data_findings_nil
    intro d hd
    rw [fix_data_bitmap_bit s d hd, fix_data_bitmap_referenced s d hd]
  refine ⟨?_, ?_, ?_⟩
  · intro d hd
    rw [fix_data_bitmap_bit s d hd, decide_eq_true_eq]
    rfl
  · rw [check_data_bitmap_unfold, hnil]
    rfl
  · rw [check_data_bitmap_out, hnil, List.append_nil]

/-! ## The owner recorded by the tracker -/

theorem track_pointer_owner (i v d : Nat) (s : State) (hd : d < 56) :
    (track_pointer i v s).data_block_owner d
      = if v = d + 8 then (i : Int) else s.data_block_owner d := by
  unfold track_pointer
  by_cases h0 : v = 0
  · have hne : ¬ (0 = d + 8) := by omega
    simp [h0, hne]
  · by_cases hr : in_data_range v
    · have hv : is_block_valid v = true := (is_block_valid_eq_true v).2 (Or.inr hr)
      simp only [h0, hv, ne_eq, not_false_eq_true, if_true, u32_sub_data_start v hr,
        Function.update_apply]
      unfold in_data_range at hr
      by_cases hdv : d = v - 8
      · have hv8 : v = d + 8 := by omega
        subst hv8
        simp
      · have hv8 : ¬ v = d + 8 := by omega
        simp [hdv, hv8]
    · have hv : is_block_valid v = false := by
        rw [← Bool.not_eq_true, is_block_valid_eq_true]
        tauto
      have hne : ¬ v = d + 8 := by
        intro e
        apply hr
        unfold in_data_range
        omega
      simp [h0, hv, hne]

theorem process_block_pointers_owner (i d : Nat) (s : State) (hd : d < 56) :
    (process_block_pointers i s).data_block_owner d
      = if points_to (s.inodes i) (d + 8) then (i : Int) else s.data_block_owner d := by
  simp only [process_block_pointers, track_pointer_owner _ _ _ _ hd, points_to]
  split_ifs <;> simp_all

theorem check_inode_bitmap_mark_owner (j d : Nat) (s : State) (hd : d < 56) :
    (check_inode_bitmap_mark j s).data_block_owner d
      = if valid_inode (s.inodes j) ∧ points_to (s.inodes j) (d + 8) then (j : Int)
        else s.data_block_owner d := by
  unfold check_inode_bitmap_mark
  by_cases hv : valid_inode (s.inodes j)
  · have hv2 := (is_inode_valid_iff s.inodes j).2 hv
    simp [hv2, hv, process_block_pointers_owner _ _ _ hd]
  · have hv2 : is_inode_valid s.inodes j = false := by
      rw [← Bool.not_eq_true, is_inode_valid_iff]
      exact hv
    simp [hv2, hv]

theorem fix_data_bitmap_track_owner (j d : Nat) (s : State) (hd : d < 56) :
    (fix_data_bitmap_track j s).data_block_owner d
      = if valid_inode (s.inodes j) ∧ points_to (s.inodes j) (d + 8) then (j : Int)
        else s.data_block_owner d := by
  unfold fix_data_bitmap_track
  by_cases hv : valid_inode (s.inodes j)
  · have hv2 := (is_inode_valid_iff s.inodes j).2 hv
    simp [hv2, hv, process_block_pointers_owner _ _ _ hd]
  · have hv2 : is_inode_valid s.inodes j = false := by
      rw [← Bool.not_eq_true, is_inode_valid_iff]
      exact hv
    simp [hv2, hv]

/-- A loop that applies the tracker to the valid inodes in ascending order leaves, for every
block that some valid inode names, the last such inode as owner. -/
theorem owner_loop (body : Nat → State → State)
    (hin : ∀ (i : Nat) (s : State), (body i s).inodes = s.inodes)
    (hown : ∀ (j d : Nat) (s : State), d < 56 →
      (body j s).data_block_owner d
        = if valid_inode (s.inodes j) ∧ points_to (s.inodes j) (d + 8) then (j : Int)
          else s.data_block_owner d)
    (n d : Nat) (s : State) (hd : d < 56) :
    (∀ i, last_claimant s.inodes n (d + 8) i →
        (for_loop n body s).data_block_owner d = (i : Int)) ∧
      (¬ referenced_below s.inodes n (d + 8) →
        (for_loop n body s).data_block_owner d = s.data_block_owner d) := by
  induction n with
  | zero =>
    constructor
    · rintro i ⟨hi, _⟩
      omega
    · intro _
      rw [for_loop_zero]
  | succ n ih =>
    have hinodes : (for_loop n body s).inodes = s.inodes :=
      for_loop_preserves State.inodes body hin n s
    rw [for_loop_succ, hown _ _ _ hd, hinodes]
    constructor
    · rintro i ⟨hi, hv, hp, hlast⟩
      by_cases hin2 : i = n
      · subst hin2
        rw [if_pos ⟨hv, hp⟩]
      · have hlt : i < n := by omega
        rw [if_neg (hlast n hlt (by omega))]
        exact ih.1 i ⟨hlt, hv, hp, fun j h1 h2 => hlast j h1 (by omega)⟩
    · intro hnot
      rw [referenced_below_succ, not_or] at hnot
      rw [if_neg hnot.2]
      exact ih.2 hnot.1

theorem last_claimant_exists (inodes : Nat → Inode) (n b : Nat)
    (h : referenced_below inodes n b) : ∃ i, last_claimant inodes n b i := by
  induction n with
  | zero =>
    obtain ⟨i, hi, _⟩ := h
    omega
  | succ n ih =>
    by_cases hn : valid_inode (inodes n) ∧ points_to (inodes n) b
    · exact ⟨n, by omega, hn.1, hn.2, fun j h1 h2 => by omega⟩
    · rw [referenced_below_succ] at h
      rcases h with h | h
      · obtain ⟨i, hi, hv, hp, hlast⟩ := ih h
        refine ⟨i, by omega, hv, hp, ?_⟩
        intro j h1 h2
        by_cases hjn : j = n
        · rw [hjn]
          exact hn
        · exact hlast j h1 (by omega)
      · exact absurd h hn

theorem check_inode_bitmap_owner (s : State) (d i : Nat) (hd : d < 56)
    (h : last_claimant s.inodes 80 (d + 8) i) :
    (check_inode_bitmap s).2.data_block_owner d = (i : Int) := by
  rw [check_inode_bitmap_unfold]
  dsimp only
  exact (owner_loop check_inode_bitmap_mark check_inode_bitmap_mark_inodes
    check_inode_bitmap_mark_owner 80 d s hd).1 i h

theorem fix_data_bitmap_owner (s : State) (d i : Nat) (hd : d < 56)
    (h : last_claimant s.inodes 80 (d + 8) i) :
    (fix_data_bitmap s).data_block_owner d = (i : Int) := by
  have h80 : INODE_COUNT = 80 := rfl
  rw [fix_data_bitmap, persist_if_fixed_data_block_owner, fix_data_bitmap_scan_eq,
    for_loop_preserves (fun x : Bool × State => x.2.data_block_owner) fix_data_bitmap_body
      fix_data_bitmap_body_data_block_owner DATA_BLOCK_COUNT
      (false, for_loop INODE_COUNT fix_data_bitmap_track (reset_tracker s)), h80]
  dsimp only
  exact (owner_loop fix_data_bitmap_track fix_data_bitmap_track_inodes
    fix_data_bitmap_track_owner 80 d (reset_tracker s) hd).1 i h

theorem mem_data_findings (s : State) (d : Nat) (hd : d < 56)
    (hbit : bitmap_bit s.data_bitmap d = false) (href : s.data_block_referenced d = true) :
    Msg.data_referenced_marked_free (d + 8) (s.data_block_owner d)
      ∈ (List.range 56).flatMap (data_compare_findings s) := by
  rw [List.mem_flatMap]
  refine ⟨d, List.mem_range.2 hd, ?_⟩
  unfold data_compare_findings
  rw [is_bit_set_eq, hbit, href]
  simp [slot_finding, DATA_BLOCK_START]

/-- C18 (counterexample): inode 0 is the first valid inode naming block 10 in this image, yet
after the tracker is computed (by `check_inode_bitmap` from the empty start state, or by
`fix_data_bitmap`) the owner recorded for block 10 is inode 1, and inode 1 is the one that
the data-bitmap check reports. -/
theorem tracker_owner_not_first :
    first_claimant image_shared_block.inodes 80 10 0 ∧
    (check_inode_bitmap image_shared_block).2.data_block_owner 2 = 1 ∧
    (check_inode_bitmap image_shared_block).2.data_block_owner 2 ≠ 0 ∧
    (fix_data_bitmap image_shared_block).data_block_owner 2 = 1 ∧
    Msg.data_referenced_marked_free 10 1
      ∈ (check_data_bitmap (check_inode_bitmap image_shared_block).2).2.out := by
  refine ⟨⟨by decide, by decide, by decide, fun j hj => by omega⟩, ?_, ?_, ?_, ?_⟩
  · decide!
  · decide!
  · decide!
  · decide!

/-- C18 (amended): after the tracker is computed by applying `process_block_pointers` to
every valid inode in ascending inode-number order, as `check_inode_bitmap` and
`fix_data_bitmap` do, the owner recorded for a data block that some valid inode names is the
last, that is highest-numbered, valid inode with a pointer field naming that block (each
later claim reassigns the owner), and this is the inode named by the "referenced but
unmarked" finding of the data-bitmap check. -/
theorem tracker_owner_is_last_claimant (s : State) (d : Nat) (hd : d < 56)
    (href : ∃ k, k < 80 ∧ (0 < (s.inodes k).links_count ∧ (s.inodes k).dtime = 0) ∧
      ((s.inodes k).direct_block = d + 8 ∨ (s.inodes k).single_indirect = d + 8 ∨
        (s.inodes k).double_indirect = d + 8 ∨ (s.inodes k).triple_indirect = d + 8)) :
    ∃ i, (i < 80 ∧ (0 < (s.inodes i).links_count ∧ (s.inodes i).dtime = 0) ∧
        ((s.inodes i).direct_block = d + 8 ∨ (s.inodes i).single_indirect = d + 8 ∨
          (s.inodes i).double_indirect = d + 8 ∨ (s.inodes i).triple_indirect = d + 8) ∧
        ∀ j, i < j → j < 80 →
          ¬ ((0 < (s.inodes j).links_count ∧ (s.inodes j).dtime = 0) ∧
            ((s.inodes j).direct_block = d + 8 ∨ (s.inodes j).single_indirect = d + 8 ∨
              (s.inodes j).double_indirect = d + 8 ∨
              (s.inodes j).triple_indirect = d + 8))) ∧
      (check_inode_bitmap s).2.data_block_owner d = (i : Int) ∧
      (fix_data_bitmap s).data_block_owner d = (i : Int) ∧
      (bitmap_bit s.data_bitmap d = false →
        Msg.data_referenced_marked_free (d + 8) (i : Int)
          ∈ (check_data_bitmap (check_inode_bitmap s).2).2.out) := by
  have href2 : referenced_below s.inodes 80 (d + 8) := href
  obtain ⟨i, hlast⟩ := last_claimant_exists s.inodes 80 (d + 8) href2
  have hown := check_inode_bitmap_owner s d i hd hlast
  refine ⟨i, hlast, hown, fix_data_bitmap_owner s d i hd hlast, ?_⟩
  intro hbit
  rw [check_data_bitmap_out, ← hown]
  apply List.mem_append_right
  apply mem_data_findings _ d hd
  · rw [check_inode_bitmap_data_bitmap]
    exact hbit
  · rw [check_inode_bitmap_referenced s d hd]
    simp [href2]

/-- Witness for C18 (amended): block 10 (data index 2) of the image in which inodes 0 and 1
both name it. -/
theorem tracker_owner_is_last_claimant_witness :
    (2 < 56 ∧
      ∃ k, k < 80 ∧ (0 < (image_shared_block.inodes k).links_count ∧
          (image_shared_block.inodes k).dtime = 0) ∧
        ((image_shared_block.inodes k).direct_block = 2 + 8 ∨
          (image_shared_block.inodes k).single_indirect = 2 + 8 ∨
          (image_shared_block.inodes k).double_indirect = 2 + 8 ∨
          (image_shared_block.inodes k).triple_indirect = 2 + 8)) ∧
    ∃ i, (check_inode_bitmap image_shared_block).2.data_block_owner 2 = (i : Int) ∧
      (fix_data_bitmap image_shared_block).data_block_owner 2 = (i : Int) :=
  have hex : ∃ k, k < 80 ∧ (0 < (image_shared_block.inodes k).links_count ∧
      (image_shared_block.inodes k).dtime = 0) ∧
      ((image_shared_block.inodes k).direct_block = 2 + 8 ∨
        (image_shared_block.inodes k).single_indirect = 2 + 8 ∨
        (image_shared_block.inodes k).double_indirect = 2 + 8 ∨
        (image_shared_block.inodes k).triple_indirect = 2 + 8) :=
    ⟨0, by decide, ⟨by decide, rfl⟩, Or.inl rfl⟩
  have h := tracker_owner_is_last_claimant image_shared_block 2 (by decide) hex
  ⟨⟨by decide, hex⟩, h.elim (fun i hi => ⟨i, hi.2.1, hi.2.2.1⟩)⟩

/-! ## Owner and claimant of a conflict -/

/-- C19 (counterexample): an inode that names block 10 in its direct and in its
single-indirect field is reported as conflicting with itself, so the prior owner named by
the conflict is not strictly less than the claimant. -/
theorem conflict_owner_not_less :
    (check_duplicate_blocks image_double_claim).2.out
      = image_double_claim.out ++ [Msg.duplicate 10 (3 : Nat) 3] ∧
    ¬ ((3 : Nat) < 3) := by
  refine ⟨?_, by decide⟩
  decide!

/-- C19 (amended): every conflict reported by `check_duplicate_blocks` is a claim on a block
that an earlier claim of the traversal already names: owner and claimant are valid inodes
with a pointer field holding the reported block, the prior-owner inode number is at most
the claimant inode number, and the two are equal only when that inode names the block in
two of its pointer fields, the owner field coming first. -/
theorem conflict_owner_le_claimant (s : State) :
    ∃ findings : List Msg,
      (check_duplicate_blocks s).2.out = s.out ++ findings ∧
      ∀ m, m ∈ findings →
        ∃ (blk o c : Nat) (fo fc : PtrField),
          m = Msg.duplicate blk (o : Int) c ∧ o ≤ c ∧ c < 80 ∧
          (0 < (s.inodes o).links_count ∧ (s.inodes o).dtime = 0) ∧
          (0 < (s.inodes c).links_count ∧ (s.inodes c).dtime = 0) ∧
          (s.inodes o).ptr fo = blk ∧ (s.inodes c).ptr fc = blk ∧
          (8 ≤ blk ∧ blk < 64) ∧
          (o < c ∨ (o = c ∧ fo.index < fc.index)) := by
  obtain ⟨_, hout⟩ := check_duplicate_blocks_result s
  refine ⟨conflicts_after [] (block_claims s.inodes), hout, ?_⟩
  intro m hm
  rw [mem_conflicts_after] at hm
  obtain ⟨l1, c, l2, o, hL, hfind, hmsg⟩ := hm
  rw [List.nil_append] at hfind
  have ho1 : o ∈ l1 := List.mem_of_find?_eq_some hfind
  have hob : o.block = c.block := by
    have := List.find?_some hfind
    simpa using this
  have hpw := block_claims_pairwise s.inodes
  rw [hL, List.pairwise_append] at hpw
  have hbefore : claimed_before o c := hpw.2.2 o ho1 c (List.mem_cons_self c l2)
  have hoL : o ∈ block_claims s.inodes := by
    rw [hL]
    exact List.mem_append_left _ ho1
  have hcL : c ∈ block_claims s.inodes := by
    rw [hL]
    exact List.mem_append_right _ (List.mem_cons_self c l2)
  rw [mem_block_claims] at hoL hcL
  refine ⟨c.block, o.inode, c.inode, o.field, c.field, hmsg, ?_, hcL.1, hoL.2.1, hcL.2.1,
    ?_, hcL.2.2.1, hcL.2.2.2.2, hbefore⟩
  · unfold claimed_before at hbefore
    omega
  · rw [hoL.2.2.1, hob]

/-! ## End to end: one file whose block the data bitmap leaves unmarked -/

theorem flatMap_range_single (f : Nat → List Msg) (a : Nat) (x : List Msg) (n : Nat)
    (h : ∀ d, d < n → f d = if d = a then x else []) :
    (List.range n).flatMap f = if a < n then x else [] := by
  induction n with
  | zero => simp
  | succ n ih =>
    rw [List.range_succ, List.flatMap_append, ih (fun d hd => h d (by omega))]
    simp only [List.flatMap_cons, List.flatMap_nil, List.append_nil, h n (by omega)]
    by_cases h1 : a < n
    · have h2 : a < n + 1 := by omega
      have h3 : ¬ n = a := by omega
      simp [h1, h2, h3]
    · by_cases h4 : n = a
      · subst h4
        simp
      · have h2 : ¬ a < n + 1 := by omega
        simp [h1, h2, h4]

/-- C12: an image in which inode `k` has `links_count = 1`, `dtime = 0`, `direct_block = 10`
and no other pointer, every other inode is not valid, and the data bitmap is clear. In the
check sequence of the program (tracker empty at start) the data-bitmap check reports exactly
one finding, "referenced but unmarked" for block 10, naming inode `k`; after
`fix_data_bitmap` the bit of block 10, which is bit `10 - 8 = 2` of the data bitmap, is set
and a subsequent data-bitmap check reports nothing. (Bit number 10 of the data bitmap is the
bit of block 18 and stays clear.) -/
theorem end_to_end_unmarked_block (s : State) (k : Nat) (hk : k < 80)
    (hfile : (s.inodes k).links_count = 1 ∧ (s.inodes k).dtime = 0 ∧
      (s.inodes k).direct_block = 10 ∧ (s.inodes k).single_indirect = 0 ∧
      (s.inodes k).double_indirect = 0 ∧ (s.inodes k).triple_indirect = 0)
    (hothers : ∀ j, j < 80 → j ≠ k →
      ¬ (0 < (s.inodes j).links_count ∧ (s.inodes j).dtime = 0))
    (hclear : ∀ d, d < 56 → bitmap_bit s.data_bitmap d = false)
    (htracker : ∀ d, d < 56 → s.data_block_referenced d = false) :
    (check_data_bitmap (check_inode_bitmap s).2).1 = 1 ∧
    (check_data_bitmap (check_inode_bitmap s).2).2.out
      = (check_inode_bitmap s).2.out ++ [Msg.data_referenced_marked_free 10 (k : Int)] ∧
    (∀ st : State, st.inodes = s.inodes →
      bitmap_bit (fix_data_bitmap st).data_bitmap (10 - DATA_BLOCK_START) = true ∧
      bitmap_bit (fix_data_bitmap st).data_bitmap 2 = true ∧
      (check_data_bitmap (fix_data_bitmap st)).1 = 0 ∧
      (check_data_bitmap (fix_data_bitmap st)).2.out = (fix_data_bitmap st).out ∧
      bitmap_bit (fix_data_bitmap st).data_bitmap 10 = false) := by
  obtain ⟨hl, hdt, hdir, hsi, hdo, htr⟩ := hfile
  have hvk : valid_inode (s.inodes k) := ⟨by rw [hl]; decide, hdt⟩
  have hpk : points_to (s.inodes k) (2 + 8) := Or.inl hdir
  have hiff : ∀ d, referenced_below s.inodes 80 (d + 8) ↔ d = 2 := by
    intro d
    constructor
    · rintro ⟨i, hi, hv, hp⟩
      have hik : i = k := by
        by_contra hne
        exact hothers i hi hne hv
      rw [hik] at hp
      unfold points_to at hp
      rw [hdir, hsi, hdo, htr] at hp
      omega
    · intro h2
      rw [h2]
      exact ⟨k, hk, hvk, hpk⟩
  have hlast : last_claimant s.inodes 80 (2 + 8) k :=
    ⟨hk, hvk, hpk, fun j h1 h2 hv => hothers j h2 (by omega) hv.1⟩
  have hown := check_inode_bitmap_owner s 2 k (by decide) hlast
  have hfind : (List.range 56).flatMap (data_compare_findings (check_inode_bitmap s).2)
      = [Msg.data_referenced_marked_free 10 (k : Int)] := by
    rw [flatMap_range_single _ 2 [Msg.data_referenced_marked_free 10 (k : Int)] 56]
    · rfl
    · intro d hd
      unfold data_compare_findings
      rw [is_bit_set_eq, check_inode_bitmap_data_bitmap, hclear d hd,
        check_inode_bitmap_referenced s d hd, htracker d hd, Bool.false_or]
      by_cases h2 : d = 2
      · subst h2
        rw [hown]
        simp [(hiff 2).2 rfl, slot_finding, DATA_BLOCK_START]
      · have hnot : ¬ referenced_below s.inodes 80 (d + 8) := fun h => h2 ((hiff d).1 h)
        simp [hnot, h2, slot_finding]
  refine ⟨?_, ?_, ?_⟩
  · rw [check_data_bitmap_unfold, hfind]
    rfl
  · rw [check_data_bitmap_out, hfind]
  · intro st hst
    have hbit : bitmap_bit (fix_data_bitmap st).data_bitmap 2 = true := by
      rw [fix_data_bitmap_bit st 2 (by decide), hst, decide_eq_true_eq]
      exact (hiff 2).2 rfl
    have hnil : (List.range 56).flatMap (data_compare_findings (fix_data_bitmap st)) = [] := by
      apply data_findings_nil
      intro d hd
      rw [fix_data_bitmap_bit st d hd, fix_data_bitmap_referenced st d hd]
    refine ⟨hbit, hbit, ?_, ?_, ?_⟩
    · rw [check_data_bitmap_unfold, hnil]
      rfl
    · rw [check_data_bitmap_out, hnil, List.append_nil]
    · rw [fix_data_bitmap_bit st 10 (by decide), hst, decide_eq_false_iff_not]
      intro h10
      have := (hiff 10).1 h10
      omega

/-- Witness for C12: the freshly loaded image whose only file is inode 0 with direct block
10, both bitmaps being clear. -/
theorem end_to_end_unmarked_block_witness :
    ((0 < 80) ∧
      ((image_unmarked_file.inodes 0).links_count = 1 ∧
        (image_unmarked_file.inodes 0).dtime = 0 ∧
        (image_unmarked_file.inodes 0).direct_block = 10 ∧
        (image_unmarked_file.inodes 0).single_indirect = 0 ∧
        (image_unmarked_file.inodes 0).double_indirect = 0 ∧
        (image_unmarked_file.inodes 0).triple_indirect = 0) ∧
      (∀ d, d < 56 → bitmap_bit image_unmarked_file.data_bitmap d = false) ∧
      (∀ d, d < 56 → image_unmarked_file.data_block_referenced d = false)) ∧
    ((check_data_bitmap (check_inode_bitmap image_unmarked_file).2).1 = 1 ∧
      (check_data_bitmap (check_inode_bitmap image_unmarked_file).2).2.out
        = (check_inode_bitmap image_unmarked_file).2.out
          ++ [Msg.data_referenced_marked_free 10 ((0 : Nat) : Int)] ∧
      bitmap_bit (fix_data_bitmap image_unmarked_file).data_bitmap 2 = true ∧
      (check_data_bitmap (fix_data_bitmap image_unmarked_file)).1 = 0) :=
  have hclear : ∀ d, d < 56 → bitmap_bit image_unmarked_file.data_bitmap d = false :=
    fun d _ => Nat.zero_testBit (d % 8)
  have h := end_to_end_unmarked_block image_unmarked_file 0 (by decide)
    ⟨rfl, rfl, rfl, rfl, rfl, rfl⟩
    (fun j _ hj hv => by
      have hz : image_unmarked_file.inodes j = zero_inode := by
        simp [image_unmarked_file, initial_state, hj]
      rw [hz] at hv
      exact absurd hv.1 (by decide))
    hclear (fun _ _ => rfl)
  ⟨⟨by decide, ⟨rfl, rfl, rfl, rfl, rfl, rfl⟩, hclear, fun _ _ => rfl⟩,
    h.1, h.2.1, (h.2.2 image_unmarked_file rfl).2.1, (h.2.2 image_unmarked_file rfl).2.2.1⟩

/-! ## The validators are read-only -/

theorem stored_emit (s : State) (m : Msg) : (s.emit m).stored = s.stored := rfl
@[simp] theorem sb_check_field_inode_bitmap (field : SbField) (actual expected : Nat) (es : Nat × State) :
    ((sb_check_field field actual expected es).2).inode_bitmap = es.2.inode_bitmap := by
  unfold sb_check_field
  split <;> rfl

@[simp] theorem sb_check_field_data_bitmap (field : SbField) (actual expected : Nat) (es : Nat × State) :
    ((sb_check_field field actual expected es).2).data_bitmap = es.2.data_bitmap := by
  unfold sb_check_field
  split <;> rfl

@[simp] theorem sb_check_field_inodes (field : SbField) (actual expected : Nat) (es : Nat × State) :
    ((sb_check_field field actual expected es).2).inodes = es.2.inodes := by
  unfold sb_check_field
  split <;> rfl

@[simp] theorem sb_check_field_inode_referenced (field : SbField) (actual expected : Nat) (es : Nat × State) :
    ((sb_check_field field actual expected es).2).inode_referenced = es.2.inode_referenced := by
  unfold sb_check_field
  split <;> rfl

@[simp] theorem sb_check_field_data_block_referenced (field : SbField) (actual expected : Nat) (es : Nat × State) :
    ((sb_check_field field actual expected es).2).data_block_referenced = es.2.data_block_referenced := by
  unfold sb_check_field
  split <;> rfl

@[simp] theorem sb_check_field_data_block_owner (field : SbField) (actual expected : Nat) (es : Nat × State) :
    ((sb_check_field field actual expected es).2).data_block_owner = es.2.data_block_owner := by
  unfold sb_check_field
  split <;> rfl

@[simp] theorem sb_check_field_errors_found (field : SbField) (actual expected : Nat) (es : Nat × State) :
    ((sb_check_field field actual expected es).2).errors_found = es.2.errors_found := by
  unfold sb_check_field
  split <;> rfl

@[simp] theorem sb_check_field_errors_fixed (field : SbField) (actual expected : Nat) (es : Nat × State) :
    ((sb_check_field field actual expected es).2).errors_fixed = es.2.errors_fixed := by
  unfold sb_check_field
  split <;> rfl

@[simp] theorem sb_check_field_writes (field : SbField) (actual expected : Nat) (es : Nat × State) :
    ((sb_check_field field actual expected es).2).writes = es.2.writes := by
  unfold sb_check_field
  split <;> rfl

@[simp] theorem dup_check_pointer_sb (i v : Nat) (es : Nat × State) :
    ((dup_check_pointer i v es).2).sb = es.2.sb := by
  unfold dup_check_pointer
  simp only []
  split_ifs <;> rfl

@[simp] theorem dup_check_pointer_inode_bitmap (i v : Nat) (es : Nat × State) :
    ((dup_check_pointer i v es).2).inode_bitmap = es.2.inode_bitmap := by
  unfold dup_check_pointer
  simp only []
  split_ifs <;> rfl

@[simp] theorem dup_check_pointer_data_bitmap (i v : Nat) (es : Nat × State) :
    ((dup_check_pointer i v es).2).data_bitmap = es.2.data_bitmap := by
  unfold dup_check_pointer
  simp only []
  split_ifs <;> rfl

@[simp] theorem dup_check_pointer_inodes (i v : Nat) (es : Nat × State) :
    ((dup_check_pointer i v es).2).inodes = es.2.inodes := by
  unfold dup_check_pointer
  simp only []
  split_ifs <;> rfl

@[simp] theorem dup_check_pointer_inode_referenced (i v : Nat) (es : Nat × State) :
    ((dup_check_pointer i v es).2).inode_referenced = es.2.inode_referenced := by
  unfold dup_check_pointer
  simp only []
  split_ifs <;> rfl

@[simp] theorem dup_check_pointer_errors_found (i v : Nat) (es : Nat × State) :
    ((dup_check_pointer i v es).2).errors_found = es.2.errors_found := by
  unfold dup_check_pointer
  simp only []
  split_ifs <;> rfl

@[simp] theorem dup_check_pointer_errors_fixed (i v : Nat) (es : Nat × State) :
    ((dup_check_pointer i v es).2).errors_fixed = es.2.errors_fixed := by
  unfold dup_check_pointer
  simp only []
  split_ifs <;> rfl

@[simp] theorem dup_check_pointer_writes (i v : Nat) (es : Nat × State) :
    ((dup_check_pointer i v es).2).writes = es.2.writes := by
  unfold dup_check_pointer
  simp only []
  split_ifs <;> rfl

@[simp] theorem check_duplicate_blocks_body_sb (i : Nat) (es : Nat × State) :
    ((check_duplicate_blocks_body i es).2).sb = es.2.sb := by
  unfold check_duplicate_blocks_body
  split_ifs <;> simp

@[simp] theorem check_duplicate_blocks_body_inode_bitmap (i : Nat) (es : Nat × State) :
    ((check_duplicate_blocks_body i es).2).inode_bitmap = es.2.inode_bitmap := by
  unfold check_duplicate_blocks_body
  split_ifs <;> simp

@[simp] theorem check_duplicate_blocks_body_data_bitmap (i : Nat) (es : Nat × State) :
    ((check_duplicate_blocks_body i es).2).data_bitmap = es.2.data_bitmap := by
  unfold check_duplicate_blocks_body
  split_ifs <;> simp

@[simp] theorem check_duplicate_blocks_body_inodes (i : Nat) (es : Nat × State) :
    ((check_duplicate_blocks_body i es).2).inodes = es.2.inodes := by
  unfold check_duplicate_blocks_body
  split_ifs <;> simp

@[simp] theorem check_duplicate_blocks_body_inode_referenced (i : Nat) (es : Nat × State) :
    ((check_duplicate_blocks_body i es).2).inode_referenced = es.2.inode_referenced := by
  unfold check_duplicate_blocks_body
  split_ifs <;> simp

@[simp] theorem check_duplicate_blocks_body_errors_found (i : Nat) (es : Nat × State) :
    ((check_duplicate_blocks_body i es).2).errors_found = es.2.errors_found := by
  unfold check_duplicate_blocks_body
  split_ifs <;> simp

@[simp] theorem check_duplicate_blocks_body_errors_fixed (i : Nat) (es : Nat × State) :
    ((check_duplicate_blocks_body i es).2).errors_fixed = es.2.errors_fixed := by
  unfold check_duplicate_blocks_body
  split_ifs <;> simp

@[simp] theorem check_duplicate_blocks_body_writes (i : Nat) (es : Nat × State) :
    ((check_duplicate_blocks_body i es).2).writes = es.2.writes := by
  unfold check_duplicate_blocks_body
  split_ifs <;> simp

theorem check_superblock_stored (s : State) : (check_superblock s).2.stored = s.stored := by
  simp [check_superblock, State.stored, sb_check_field_sb]

theorem check_inode_bitmap_mark_stored (i : Nat) (s : State) :
    (check_inode_bitmap_mark i s).stored = s.stored := by
  simp [State.stored]

theorem check_inode_bitmap_stored (s : State) : (check_inode_bitmap s).2.stored = s.stored := by
  have h := for_loop_preserves State.stored check_inode_bitmap_mark
    check_inode_bitmap_mark_stored 80 s
  rw [check_inode_bitmap_unfold]
  simp only [State.stored] at h ⊢
  exact h

theorem check_data_bitmap_stored (s : State) : (check_data_bitmap s).2.stored = s.stored := by
  rw [check_data_bitmap_unfold]
  rfl

theorem check_duplicate_blocks_body_stored (i : Nat) (es : Nat × State) :
    (check_duplicate_blocks_body i es).2.stored = es.2.stored := by
  simp [State.stored]

theorem check_duplicate_blocks_stored (s : State) :
    (check_duplicate_blocks s).2.stored = s.stored := by
  have h := for_loop_preserves (fun es : Nat × State => es.2.stored) check_duplicate_blocks_body
    check_duplicate_blocks_body_stored INODE_COUNT (0, reset_tracker s)
  simp only [check_duplicate_blocks, State.stored, reset_tracker] at h ⊢
  exact h

theorem check_bad_blocks_stored (s : State) : (check_bad_blocks s).2.stored = s.stored := by
  rw [check_bad_blocks_eq]
  rfl

theorem run_checks_stored (s : State) : (run_checks s).stored = s.stored := by
  simp only [run_checks, check_bad_blocks_stored, check_duplicate_blocks_stored,
    check_data_bitmap_stored, check_inode_bitmap_stored, check_superblock_stored]

theorem stored_eq_iff (a b : State) :
    a.stored = b.stored ↔
      (a.sb = b.sb ∧ a.inode_bitmap = b.inode_bitmap ∧ a.data_bitmap = b.data_bitmap ∧
        a.inodes = b.inodes ∧ a.writes = b.writes ∧ a.errors_fixed = b.errors_fixed) := by
  simp only [State.stored, Prod.mk.injEq]

theorem main_declined (s : State) : main false s = run_checks s := by
  unfold main
  simp

theorem main_no_error (s : State) (answer_yes : Bool) (h : (run_checks s).errors_found = 0) :
    main answer_yes s = run_checks s := by
  unfold main
  simp [h]

/-- C17: the five validators leave the superblock, both bitmaps and the inode table
unchanged and write no block (`State.stored` is these four with the list of written blocks
and the counter of repaired structures); hence a run in which the operator declines the
repair, or in which no error is found, ends in the state left by the checks, with the
stored image untouched and nothing written. -/
theorem validators_read_only (s : State) (answer_yes : Bool) :
    (∀ a b : State, a.stored = b.stored ↔
      (a.sb = b.sb ∧ a.inode_bitmap = b.inode_bitmap ∧ a.data_bitmap = b.data_bitmap ∧
        a.inodes = b.inodes ∧ a.writes = b.writes ∧ a.errors_fixed = b.errors_fixed)) ∧
    (check_superblock s).2.stored = s.stored ∧
    (check_inode_bitmap s).2.stored = s.stored ∧
    (check_data_bitmap s).2.stored = s.stored ∧
    (check_duplicate_blocks s).2.stored = s.stored ∧
    (check_bad_blocks s).2.stored = s.stored ∧
    (run_checks s).stored = s.stored ∧
    (main false s = run_checks s ∧ (main false s).stored = s.stored) ∧
    ((run_checks s).errors_found = 0 →
      main answer_yes s = run_checks s ∧ (main answer_yes s).stored = s.stored) := by
  refine ⟨stored_eq_iff, check_superblock_stored s, check_inode_bitmap_stored s,
    check_data_bitmap_stored s, check_duplicate_blocks_stored s, check_bad_blocks_stored s,
    run_checks_stored s, ⟨main_declined s, ?_⟩, ?_⟩
  · rw [main_declined, run_checks_stored]
  · intro h
    rw [main_no_error s answer_yes h, run_checks_stored]
    exact ⟨rfl, rfl⟩

/-- Witness for C17: on the consistent image the checks find nothing, so that even with an
affirmative answer the run stops after the checks. -/
theorem validators_read_only_witness :
    (run_checks image_clean).errors_found = 0 ∧
    (main true image_clean = run_checks image_clean ∧
      (main true image_clean).stored = image_clean.stored) :=
  have h0 : (run_checks image_clean).errors_found = 0 := by decide!
  ⟨h0, (validators_read_only image_clean true).2.2.2.2.2.2.2.2 h0⟩

/-! ## Repair passes: what changes and when a block is written -/

@[simp] theorem sb_fix_field_inode_bitmap (field : SbField) (expected : Nat) (fs : Bool × State) :
    ((sb_fix_field field expected fs).2).inode_bitmap = fs.2.inode_bitmap := by
  unfold sb_fix_field
  split <;> rfl

@[simp] theorem sb_fix_field_data_bitmap (field : SbField) (expected : Nat) (fs : Bool × State) :
    ((sb_fix_field field expected fs).2).data_bitmap = fs.2.data_bitmap := by
  unfold sb_fix_field
  split <;> rfl

@[simp] theorem sb_fix_field_inodes (field : SbField) (expected : Nat) (fs : Bool × State) :
    ((sb_fix_field field expected fs).2).inodes = fs.2.inodes := by
  unfold sb_fix_field
  split <;> rfl

@[simp] theorem sb_fix_field_inode_referenced (field : SbField) (expected : Nat) (fs : Bool × State) :
    ((sb_fix_field field expected fs).2).inode_referenced = fs.2.inode_referenced := by
  unfold sb_fix_field
  split <;> rfl

@[simp] theorem sb_fix_field_data_block_referenced (field : SbField) (expected : Nat) (fs : Bool × State) :
    ((sb_fix_field field expected fs).2).data_block_referenced = fs.2.data_block_referenced := by
  unfold sb_fix_field
  split <;> rfl

@[simp] theorem sb_fix_field_data_block_owner (field : SbField) (expected : Nat) (fs : Bool × State) :
    ((sb_fix_field field expected fs).2).data_block_owner = fs.2.data_block_owner := by
  unfold sb_fix_field
  split <;> rfl

@[simp] theorem sb_fix_field_errors_found (field : SbField) (expected : Nat) (fs : Bool × State) :
    ((sb_fix_field field expected fs).2).errors_found = fs.2.errors_found := by
  unfold sb_fix_field
  split <;> rfl

@[simp] theorem sb_fix_field_errors_fixed (field : SbField) (expected : Nat) (fs : Bool × State) :
    ((sb_fix_field field expected fs).2).errors_fixed = fs.2.errors_fixed := by
  unfold sb_fix_field
  split <;> rfl

@[simp] theorem sb_fix_field_writes (field : SbField) (expected : Nat) (fs : Bool × State) :
    ((sb_fix_field field expected fs).2).writes = fs.2.writes := by
  unfold sb_fix_field
  split <;> rfl

theorem persist_if_fixed_true (b : Nat) (st : State) :
    (persist_if_fixed b (true, st)).writes = st.writes ++ [b] ∧
      (persist_if_fixed b (true, st)).errors_fixed = st.errors_fixed + 1 :=
  ⟨rfl, rfl⟩

theorem persist_if_fixed_false (b : Nat) (st : State) : persist_if_fixed b (false, st) = st :=
  rfl

theorem pair_eta_flag (fs : Bool × State) (b : Bool) (h : fs.1 = b) : fs = (b, fs.2) := by
  rw [← h]

theorem sb_fix_field_unchanged (field : SbField) (expected : Nat) (fs : Bool × State)
    (h : (sb_fix_field field expected fs).1 = false) : sb_fix_field field expected fs = fs := by
  unfold sb_fix_field at h ⊢
  split_ifs at h ⊢
  rfl

theorem fix_superblock_scan_unchanged (s : State) (h : (fix_superblock_scan s).1 = false) :
    fix_superblock_scan s = (false, s) := by
  unfold fix_superblock_scan at h ⊢
  simp only [] at h ⊢
  have h9 := sb_fix_field_unchanged _ _ _ h
  rw [h9] at h ⊢
  have h8 := sb_fix_field_unchanged _ _ _ h
  rw [h8] at h ⊢
  have h7 := sb_fix_field_unchanged _ _ _ h
  rw [h7] at h ⊢
  have h6 := sb_fix_field_unchanged _ _ _ h
  rw [h6] at h ⊢
  have h5 := sb_fix_field_unchanged _ _ _ h
  rw [h5] at h ⊢
  have h4 := sb_fix_field_unchanged _ _ _ h
  rw [h4] at h ⊢
  have h3 := sb_fix_field_unchanged _ _ _ h
  rw [h3] at h ⊢
  have h2 := sb_fix_field_unchanged _ _ _ h
  rw [h2] at h ⊢
  exact sb_fix_field_unchanged _ _ _ h

theorem fix_superblock_scan_sb (s : State) :
    (fix_superblock_scan s).2.sb = expected_superblock s.sb.reserved := by
  simp only [fix_superblock_scan, sb_fix_field_sb]
  rfl

theorem fix_superblock_scan_noop (s : State) (h : s.sb = expected_superblock s.sb.reserved) :
    fix_superblock_scan s = (false, s) := by
  have hm : ∀ f e, s.sb.get f = e → sb_fix_field f e (false, s) = (false, s) := by
    intro f e hfe
    unfold sb_fix_field
    rw [if_neg (by simpa using hfe)]
  unfold fix_superblock_scan
  simp only []
  rw [hm SbField.magic SUPERBLOCK_MAGIC (by rw [h]; rfl),
    hm SbField.block_size BLOCK_SIZE (by rw [h]; rfl),
    hm SbField.total_blocks TOTAL_BLOCKS (by rw [h]; rfl),
    hm SbField.inode_bitmap_block INODE_BITMAP_BLOCK (by rw [h]; rfl),
    hm SbField.data_bitmap_block DATA_BITMAP_BLOCK (by rw [h]; rfl),
    hm SbField.inode_table_block INODE_TABLE_START_BLOCK (by rw [h]; rfl),
    hm SbField.first_data_block DATA_BLOCK_START (by rw [h]; rfl),
    hm SbField.inode_size INODE_SIZE (by rw [h]; rfl),
    hm SbField.inode_count INODE_COUNT (by rw [h]; rfl)]

theorem fix_superblock_scan_stored (s : State) :
    (fix_superblock_scan s).2.inode_bitmap = s.inode_bitmap ∧
    (fix_superblock_scan s).2.data_bitmap = s.data_bitmap ∧
    (fix_superblock_scan s).2.inodes = s.inodes ∧
    (fix_superblock_scan s).2.writes = s.writes ∧
    (fix_superblock_scan s).2.errors_fixed = s.errors_fixed := by
  simp [fix_superblock_scan]

/-- Either `fix_superblock` found a field to repair, changed the superblock, wrote block 0
and counted one repair, or it found none and left the whole state as it was. -/
theorem fix_superblock_cases (s : State) :
    ((fix_superblock_scan s).1 = true ∧ (fix_superblock s).sb ≠ s.sb ∧
        (fix_superblock s).writes = s.writes ++ [0] ∧
        (fix_superblock s).errors_fixed = s.errors_fixed + 1) ∨
      ((fix_superblock_scan s).1 = false ∧ fix_superblock s = s) := by
  cases hflag : (fix_superblock_scan s).1 with
  | false =>
    right
    refine ⟨rfl, ?_⟩
    rw [fix_superblock, fix_superblock_scan_unchanged s hflag]
    rfl
  | true =>
    left
    obtain ⟨_, _, _, hw, he⟩ := fix_superblock_scan_stored s
    refine ⟨rfl, ?_, ?_, ?_⟩
    · intro heq
      rw [fix_superblock_sb] at heq
      have hnoop := fix_superblock_scan_noop s heq.symm
      rw [hnoop] at hflag
      exact absurd hflag (by simp)
    · rw [fix_superblock, pair_eta_flag _ true hflag, (persist_if_fixed_true _ _).1, hw]
      rfl
    · rw [fix_superblock, pair_eta_flag _ true hflag, (persist_if_fixed_true _ _).2, he]

theorem fix_loop_unchanged (body : Nat → Bool × State → Bool × State)
    (hstep : ∀ (i : Nat) (fs : Bool × State), (body i fs).1 = false → body i fs = fs)
    (n : Nat) (fs : Bool × State) (h : (for_loop n body fs).1 = false) :
    for_loop n body fs = fs := by
  induction n with
  | zero => rw [for_loop_zero]
  | succ n ih =>
    rw [for_loop_succ] at h ⊢
    have hbody := hstep n _ h
    rw [hbody] at h ⊢
    exact ih h

theorem fix_inode_bitmap_body_unchanged (i : Nat) (fs : Bool × State)
    (h : (fix_inode_bitmap_body i fs).1 = false) : fix_inode_bitmap_body i fs = fs := by
  unfold fix_inode_bitmap_body at h ⊢
  simp only [] at h ⊢
  split_ifs at h ⊢
  rfl

theorem fix_inode_bitmap_body_flag (i : Nat) (fs : Bool × State)
    (h : (fix_inode_bitmap_body i fs).1 = true) :
    fs.1 = true ∨ is_inode_valid fs.2.inodes i ≠ bitmap_bit fs.2.inode_bitmap i := by
  unfold fix_inode_bitmap_body at h
  simp only [] at h
  split_ifs at h with hc
  · right
    rw [← is_bit_set_eq]
    exact hc
  · left
    exact h

theorem fix_inode_loop_flag (n : Nat) (fs : Bool × State)
    (h : (for_loop n fix_inode_bitmap_body fs).1 = true) :
    fs.1 = true ∨ ∃ i, i < n ∧ is_inode_valid fs.2.inodes i ≠ bitmap_bit fs.2.inode_bitmap i := by
  induction n with
  | zero =>
    left
    rw [for_loop_zero] at h
    exact h
  | succ n ih =>
    rw [for_loop_succ] at h
    rcases fix_inode_bitmap_body_flag n _ h with h1 | h1
    · rcases ih h1 with h2 | ⟨i, hi, h2⟩
      · exact Or.inl h2
      · exact Or.inr ⟨i, by omega, h2⟩
    · right
      rw [fix_inode_loop_inodes, fix_inode_loop_bit, if_neg (Nat.lt_irrefl n)] at h1
      exact ⟨n, by omega, h1⟩

theorem fix_inode_bitmap_scan_eq (s : State) :
    fix_inode_bitmap_scan s = for_loop INODE_COUNT fix_inode_bitmap_body (false, s) :=
  rfl

theorem fix_inode_bitmap_scan_frame (s : State) :
    (fix_inode_bitmap_scan s).2.writes = s.writes ∧
      (fix_inode_bitmap_scan s).2.errors_fixed = s.errors_fixed := by
  rw [fix_inode_bitmap_scan_eq]
  exact ⟨for_loop_preserves (fun x : Bool × State => x.2.writes) fix_inode_bitmap_body
      fix_inode_bitmap_body_writes INODE_COUNT (false, s),
    for_loop_preserves (fun x : Bool × State => x.2.errors_fixed) fix_inode_bitmap_body
      fix_inode_bitmap_body_errors_fixed INODE_COUNT (false, s)⟩

/-- Either `fix_inode_bitmap` found a bit to repair, changed the inode bitmap, wrote block 1
and counted one repair, or it found none and left the whole state as it was. -/
theorem fix_inode_bitmap_cases (s : State) :
    ((fix_inode_bitmap_scan s).1 = true ∧ (fix_inode_bitmap s).inode_bitmap ≠ s.inode_bitmap ∧
        (fix_inode_bitmap s).writes = s.writes ++ [1] ∧
        (fix_inode_bitmap s).errors_fixed = s.errors_fixed + 1) ∨
      ((fix_inode_bitmap_scan s).1 = false ∧ fix_inode_bitmap s = s) := by
  cases hflag : (fix_inode_bitmap_scan s).1 with
  | false =>
    right
    refine ⟨rfl, ?_⟩
    have hsame : fix_inode_bitmap_scan s = (false, s) := by
      rw [fix_inode_bitmap_scan_eq] at hflag ⊢
      exact fix_loop_unchanged fix_inode_bitmap_body fix_inode_bitmap_body_unchanged
        INODE_COUNT (false, s) hflag
    rw [fix_inode_bitmap, hsame]
    rfl
  | true =>
    left
    obtain ⟨hw, he⟩ := fix_inode_bitmap_scan_frame s
    refine ⟨rfl, ?_, ?_, ?_⟩
    · intro heq
      rw [fix_inode_bitmap_scan_eq] at hflag
      rcases fix_inode_loop_flag INODE_COUNT (false, s) hflag with h | ⟨i, hi, hne⟩
      · exact absurd h (by simp)
      · apply hne
        have hbit := fix_inode_loop_bit INODE_COUNT i (false, s)
        rw [if_pos hi] at hbit
        rw [← hbit]
        have hbm : (for_loop INODE_COUNT fix_inode_bitmap_body (false, s)).2.inode_bitmap
            = s.inode_bitmap := by
          rw [← heq, fix_inode_bitmap, persist_if_fixed_inode_bitmap, fix_inode_bitmap_scan_eq]
        rw [hbm]
    · rw [fix_inode_bitmap, pair_eta_flag _ true hflag, (persist_if_fixed_true _ _).1, hw]
      rfl
    · rw [fix_inode_bitmap, pair_eta_flag _ true hflag, (persist_if_fixed_true _ _).2, he]

theorem fix_data_bitmap_body_unchanged (i : Nat) (fs : Bool × State)
    (h : (fix_data_bitmap_body i fs).1 = false) : fix_data_bitmap_body i fs = fs := by
  unfold fix_data_bitmap_body at h ⊢
  simp only [] at h ⊢
  split_ifs at h ⊢
  rfl

theorem fix_data_bitmap_body_flag (i : Nat) (fs : Bool × State)
    (h : (fix_data_bitmap_body i fs).1 = true) :
    fs.1 = true ∨ fs.2.data_block_referenced i ≠ bitmap_bit fs.2.data_bitmap i := by
  unfold fix_data_bitmap_body at h
  simp only [] at h
  split_ifs at h with hc
  · right
    rw [← is_bit_set_eq]
    exact hc
  · left
    exact h

theorem fix_data_loop_flag (n : Nat) (fs : Bool × State)
    (h : (for_loop n fix_data_bitmap_body fs).1 = true) :
    fs.1 = true ∨
      ∃ d, d < n ∧ fs.2.data_block_referenced d ≠ bitmap_bit fs.2.data_bitmap d := by
  induction n with
  | zero =>
    left
    rw [for_loop_zero] at h
    exact h
  | succ n ih =>
    rw [for_loop_succ] at h
    rcases fix_data_bitmap_body_flag n _ h with h1 | h1
    · rcases ih h1 with h2 | ⟨i, hi, h2⟩
      · exact Or.inl h2
      · exact Or.inr ⟨i, by omega, h2⟩
    · right
      rw [fix_data_loop_referenced, fix_data_loop_bit, if_neg (Nat.lt_irrefl n)] at h1
      exact ⟨n, by omega, h1⟩

theorem fix_data_bitmap_track_stored (i : Nat) (s : State) :
    (fix_data_bitmap_track i s).stored = s.stored := by
  simp [State.stored]

theorem tracked_stored (s : State) :
    (for_loop INODE_COUNT fix_data_bitmap_track (reset_tracker s)).stored = s.stored :=
  for_loop_preserves State.stored fix_data_bitmap_track fix_data_bitmap_track_stored
    INODE_COUNT (reset_tracker s)

theorem tracked_out (s : State) :
    (for_loop INODE_COUNT fix_data_bitmap_track (reset_tracker s)).out = s.out :=
  for_loop_preserves State.out fix_data_bitmap_track fix_data_bitmap_track_out
    INODE_COUNT (reset_tracker s)

/-- Either `fix_data_bitmap` found a bit to repair, changed the data bitmap, wrote block 2
and counted one repair, or it found none and only recomputed the tracker. -/
theorem fix_data_bitmap_cases (s : State) :
    ((fix_data_bitmap_scan s).1 = true ∧ (fix_data_bitmap s).data_bitmap ≠ s.data_bitmap ∧
        (fix_data_bitmap s).writes = s.writes ++ [2] ∧
        (fix_data_bitmap s).errors_fixed = s.errors_fixed + 1) ∨
      ((fix_data_bitmap_scan s).1 = false ∧
        fix_data_bitmap s = for_loop INODE_COUNT fix_data_bitmap_track (reset_tracker s)) := by
  have hst := (stored_eq_iff _ _).1 (tracked_stored s)
  cases hflag : (fix_data_bitmap_scan s).1 with
  | false =>
    right
    refine ⟨rfl, ?_⟩
    have hsame : fix_data_bitmap_scan s
        = (false, for_loop INODE_COUNT fix_data_bitmap_track (reset_tracker s)) := by
      rw [fix_data_bitmap_scan_eq] at hflag ⊢
      exact fix_loop_unchanged fix_data_bitmap_body fix_data_bitmap_body_unchanged
        DATA_BLOCK_COUNT _ hflag
    rw [fix_data_bitmap, hsame, persist_if_fixed_false]
  | true =>
    left
    have hw : (fix_data_bitmap_scan s).2.writes = s.writes := by
      rw [fix_data_bitmap_scan_eq,
        for_loop_preserves (fun x : Bool × State => x.2.writes) fix_data_bitmap_body
          fix_data_bitmap_body_writes DATA_BLOCK_COUNT]
      exact hst.2.2.2.2.1
    have he : (fix_data_bitmap_scan s).2.errors_fixed = s.errors_fixed := by
      rw [fix_data_bitmap_scan_eq,
        for_loop_preserves (fun x : Bool × State => x.2.errors_fixed) fix_data_bitmap_body
          fix_data_bitmap_body_errors_fixed DATA_BLOCK_COUNT]
      exact hst.2.2.2.2.2
    refine ⟨rfl, ?_, ?_, ?_⟩
    · intro heq
      rw [fix_data_bitmap_scan_eq] at hflag
      rcases fix_data_loop_flag DATA_BLOCK_COUNT _ hflag with h | ⟨d, hd, hne⟩
      · exact absurd h (by simp)
      · apply hne
        have hbit := fix_data_loop_bit DATA_BLOCK_COUNT d
          (false, for_loop INODE_COUNT fix_data_bitmap_track (reset_tracker s))
        rw [if_pos hd] at hbit
        rw [← hbit]
        have hbm : (for_loop DATA_BLOCK_COUNT fix_data_bitmap_body
            (false, for_loop INODE_COUNT fix_data_bitmap_track (reset_tracker s))).2.data_bitmap
            = s.data_bitmap := by
          rw [← heq, fix_data_bitmap, persist_if_fixed_data_bitmap, fix_data_bitmap_scan_eq]
        rw [hbm]
        exact congrArg (fun bm => bitmap_bit bm d) hst.2.2.1.symm
    · rw [fix_data_bitmap, pair_eta_flag _ true hflag, (persist_if_fixed_true _ _).1, hw]
      rfl
    · rw [fix_data_bitmap, pair_eta_flag _ true hflag, (persist_if_fixed_true _ _).2, he]

theorem fix_superblock_noop (s : State) (h : s.sb = expected_superblock s.sb.reserved) :
    (fix_superblock_scan s).1 = false ∧ fix_superblock s = s := by
  have hscan := fix_superblock_scan_noop s h
  refine ⟨by rw [hscan], ?_⟩
  rw [fix_superblock, hscan, persist_if_fixed_false]

theorem fix_inode_bitmap_noop (s : State)
    (h : ∀ i, i < 80 → bitmap_bit s.inode_bitmap i = is_inode_valid s.inodes i) :
    (fix_inode_bitmap_scan s).1 = false ∧ fix_inode_bitmap s = s := by
  rcases fix_inode_bitmap_cases s with ⟨hflag, _⟩ | hno
  · rw [fix_inode_bitmap_scan_eq] at hflag
    rcases fix_inode_loop_flag INODE_COUNT (false, s) hflag with hf | ⟨i, hi, hne⟩
    · exact absurd hf (by simp)
    · exact absurd (h i hi).symm hne
  · exact hno

theorem fix_data_bitmap_noop (s : State)
    (h : ∀ d, d < 56 →
      bitmap_bit s.data_bitmap d = decide (referenced_below s.inodes 80 (d + 8))) :
    (fix_data_bitmap_scan s).1 = false ∧
      fix_data_bitmap s = for_loop INODE_COUNT fix_data_bitmap_track (reset_tracker s) := by
  rcases fix_data_bitmap_cases s with ⟨hflag, _⟩ | hno
  · rw [fix_data_bitmap_scan_eq] at hflag
    rcases fix_data_loop_flag DATA_BLOCK_COUNT _ hflag with hf | ⟨d, hd, hne⟩
    · exact absurd hf (by simp)
    · exfalso
      apply hne
      have hst := (stored_eq_iff _ _).1 (tracked_stored s)
      dsimp only
      rw [tracked_referenced s d hd, hst.2.2.1, h d hd]
  · exact hno

theorem fix_superblock_frame (s : State) :
    (fix_superblock s).inode_bitmap = s.inode_bitmap ∧
    (fix_superblock s).data_bitmap = s.data_bitmap ∧
    (fix_superblock s).inodes = s.inodes := by
  obtain ⟨h1, h2, h3, _, _⟩ := fix_superblock_scan_stored s
  rw [fix_superblock, persist_if_fixed_inode_bitmap, persist_if_fixed_data_bitmap,
    persist_if_fixed_inodes]
  exact ⟨h1, h2, h3⟩

theorem fix_inode_bitmap_frame (s : State) :
    (fix_inode_bitmap s).sb = s.sb ∧ (fix_inode_bitmap s).data_bitmap = s.data_bitmap := by
  rw [fix_inode_bitmap, persist_if_fixed_sb, persist_if_fixed_data_bitmap,
    fix_inode_bitmap_scan_eq]
  exact ⟨for_loop_preserves (fun x : Bool × State => x.2.sb) fix_inode_bitmap_body
      fix_inode_bitmap_body_sb INODE_COUNT (false, s),
    for_loop_preserves (fun x : Bool × State => x.2.data_bitmap) fix_inode_bitmap_body
      fix_inode_bitmap_body_data_bitmap INODE_COUNT (false, s)⟩

theorem fix_data_bitmap_frame (s : State) :
    (fix_data_bitmap s).sb = s.sb ∧ (fix_data_bitmap s).inode_bitmap = s.inode_bitmap := by
  have hst := (stored_eq_iff _ _).1 (tracked_stored s)
  rw [fix_data_bitmap, persist_if_fixed_sb, persist_if_fixed_inode_bitmap,
    fix_data_bitmap_scan_eq,
    for_loop_preserves (fun x : Bool × State => x.2.sb) fix_data_bitmap_body
      fix_data_bitmap_body_sb DATA_BLOCK_COUNT,
    for_loop_preserves (fun x : Bool × State => x.2.inode_bitmap) fix_data_bitmap_body
      fix_data_bitmap_body_inode_bitmap DATA_BLOCK_COUNT]
  exact ⟨hst.1, hst.2.1⟩

theorem run_fixes_eq (s : State) :
    run_fixes s = fix_data_bitmap (fix_inode_bitmap (fix_superblock s)) := rfl

theorem run_fixes_inodes (s : State) : (run_fixes s).inodes = s.inodes := by
  rw [run_fixes_eq, fix_data_bitmap_inodes, fix_inode_bitmap_inodes, (fix_superblock_frame s).2.2]

/-- C13: for every state, when the sequence `fix_superblock; fix_inode_bitmap;
fix_data_bitmap` is run a second time right after a first run, each of the three
sub-passes ends with its `fixed` flag false, and the second run changes neither the
superblock nor either bitmap, writes no block, leaves `errors_fixed` as it is and prints
no repair line. -/
theorem repair_idempotent (s : State) :
    (fix_superblock_scan (run_fixes s)).1 = false ∧
    (fix_inode_bitmap_scan (fix_superblock (run_fixes s))).1 = false ∧
    (fix_data_bitmap_scan (fix_inode_bitmap (fix_superblock (run_fixes s)))).1 = false ∧
    (run_fixes (run_fixes s)).sb = (run_fixes s).sb ∧
    (run_fixes (run_fixes s)).inode_bitmap = (run_fixes s).inode_bitmap ∧
    (run_fixes (run_fixes s)).data_bitmap = (run_fixes s).data_bitmap ∧
    (run_fixes (run_fixes s)).writes = (run_fixes s).writes ∧
    (run_fixes (run_fixes s)).errors_fixed = (run_fixes s).errors_fixed ∧
    (run_fixes (run_fixes s)).out = (run_fixes s).out := by
  have hsb : (run_fixes s).sb = expected_superblock (run_fixes s).sb.reserved := by
    have h1 : (run_fixes s).sb = expected_superblock s.sb.reserved := by
      rw [run_fixes_eq, (fix_data_bitmap_frame _).1, (fix_inode_bitmap_frame _).1,
        fix_superblock_sb]
    rw [h1]
    rfl
  have hib : ∀ i, i < 80 →
      bitmap_bit (run_fixes s).inode_bitmap i = is_inode_valid (run_fixes s).inodes i := by
    intro i hi
    rw [run_fixes_inodes, run_fixes_eq, (fix_data_bitmap_frame _).2,
      fix_inode_bitmap_bit _ i hi, (fix_superblock_frame s).2.2]
    by_cases hv : valid_inode (s.inodes i)
    · simp [hv, (is_inode_valid_iff s.inodes i).2 hv]
    · have hv2 : is_inode_valid s.inodes i = false := by
        rw [← Bool.not_eq_true, is_inode_valid_iff]
        exact hv
      simp [hv, hv2]
  have hdb : ∀ d, d < 56 → bitmap_bit (run_fixes s).data_bitmap d
      = decide (referenced_below (run_fixes s).inodes 80 (d + 8)) := by
    intro d hd
    rw [run_fixes_inodes, run_fixes_eq, fix_data_bitmap_bit _ d hd, fix_inode_bitmap_inodes,
      (fix_superblock_frame s).2.2]
  obtain ⟨hf1, he1⟩ := fix_superblock_noop (run_fixes s) hsb
  obtain ⟨hf2, he2⟩ := fix_inode_bitmap_noop (run_fixes s) hib
  obtain ⟨hf3, he3⟩ := fix_data_bitmap_noop (run_fixes s) hdb
  have hst := (stored_eq_iff _ _).1 (tracked_stored (run_fixes s))
  have hagain : run_fixes (run_fixes s)
      = for_loop INODE_COUNT fix_data_bitmap_track (reset_tracker (run_fixes s)) := by
    rw [run_fixes_eq (run_fixes s), he1, he2, he3]
  refine ⟨hf1, ?_, ?_, ?_, ?_, ?_, ?_, ?_, ?_⟩
  · rw [he1]
    exact hf2
  · rw [he1, he2]
    exact hf3
  · rw [hagain]
    exact hst.1
  · rw [hagain]
    exact hst.2.1
  · rw [hagain]
    exact hst.2.2.1
  · rw [hagain]
    exact hst.2.2.2.2.1
  · rw [hagain]
    exact hst.2.2.2.2.2
  · rw [hagain]
    exact tracked_out (run_fixes s)

theorem ne_append_singleton (l : List Nat) (x : Nat) : l ≠ l ++ [x] := by
  intro h
  have := congrArg List.length h
  simp at this

theorem persist_iffs {α : Type} (after before : α) (w w0 : List Nat) (e e0 b : Nat)
    (h : (after ≠ before ∧ w = w0 ++ [b] ∧ e = e0 + 1) ∨ (after = before ∧ w = w0 ∧ e = e0)) :
    ((w = w0 ++ [b] ∧ e = e0 + 1) ↔ after ≠ before) ∧ ((w = w0 ∧ e = e0) ↔ after = before) := by
  rcases h with ⟨h1, h2, h3⟩ | ⟨h1, h2, h3⟩
  · refine ⟨⟨fun _ => h1, fun _ => ⟨h2, h3⟩⟩, ⟨fun hc => ?_, fun hc => absurd hc h1⟩⟩
    rw [h2] at hc
    exact absurd hc.1.symm (ne_append_singleton w0 b)
  · refine ⟨⟨fun hc => ?_, fun hc => absurd h1 hc⟩, ⟨fun _ => h1, fun _ => ⟨h2, h3⟩⟩⟩
    rw [h2] at hc
    exact absurd hc.1 (ne_append_singleton w0 b)

/-- C14: each repair sub-pass persists its block if and only if it changed its structure.
`fix_superblock` appends block 0 to the written blocks and increments `errors_fixed` iff
the superblock after differs from the superblock before, and leaves both as they are iff
the superblock is unchanged; likewise `fix_inode_bitmap` with block 1 and the inode bitmap,
and `fix_data_bitmap` with block 2 and the data bitmap. -/
theorem persist_iff_changed (s : State) :
    ((((fix_superblock s).writes = s.writes ++ [0] ∧
          (fix_superblock s).errors_fixed = s.errors_fixed + 1) ↔
        (fix_superblock s).sb ≠ s.sb) ∧
      (((fix_superblock s).writes = s.writes ∧
          (fix_superblock s).errors_fixed = s.errors_fixed) ↔
        (fix_superblock s).sb = s.sb)) ∧
    ((((fix_inode_bitmap s).writes = s.writes ++ [1] ∧
          (fix_inode_bitmap s).errors_fixed = s.errors_fixed + 1) ↔
        (fix_inode_bitmap s).inode_bitmap ≠ s.inode_bitmap) ∧
      (((fix_inode_bitmap s).writes = s.writes ∧
          (fix_inode_bitmap s).errors_fixed = s.errors_fixed) ↔
        (fix_inode_bitmap s).inode_bitmap = s.inode_bitmap)) ∧
    ((((fix_data_bitmap s).writes = s.writes ++ [2] ∧
          (fix_data_bitmap s).errors_fixed = s.errors_fixed + 1) ↔
        (fix_data_bitmap s).data_bitmap ≠ s.data_bitmap) ∧
      (((fix_data_bitmap s).writes = s.writes ∧
          (fix_data_bitmap s).errors_fixed = s.errors_fixed) ↔
        (fix_data_bitmap s).data_bitmap = s.data_bitmap)) := by
  refine ⟨?_, ?_, ?_⟩
  · apply persist_iffs
    rcases fix_superblock_cases s with ⟨_, h1, h2, h3⟩ | ⟨_, h⟩
    · exact Or.inl ⟨h1, h2, h3⟩
    · right
      rw [h]
      exact ⟨rfl, rfl, rfl⟩
  · apply persist_iffs
    rcases fix_inode_bitmap_cases s with ⟨_, h1, h2, h3⟩ | ⟨_, h⟩
    · exact Or.inl ⟨h1, h2, h3⟩
    · right
      rw [h]
      exact ⟨rfl, rfl, rfl⟩
  · apply persist_iffs
    rcases fix_data_bitmap_cases s with ⟨_, h1, h2, h3⟩ | ⟨_, h⟩
    · exact Or.inl ⟨h1, h2, h3⟩
    · right
      have hst := (stored_eq_iff _ _).1 (tracked_stored s)
      rw [h]
      exact ⟨hst.2.2.1, hst.2.2.2.2.1, hst.2.2.2.2.2⟩

/-! ## Frame of the repair passes -/

theorem set_bit_other_byte (bitmap : Nat → Nat) (k b : Nat) (v : Bool) (h : b ≠ k / 8) :
    set_bit bitmap k v b = bitmap b := by
  unfold set_bit
  cases v <;> simp [Function.update_noteq h]

theorem fix_inode_bitmap_body_byte (i b : Nat) (fs : Bool × State) (h : b ≠ i / 8) :
    (fix_inode_bitmap_body i fs).2.inode_bitmap b = fs.2.inode_bitmap b := by
  unfold fix_inode_bitmap_body
  simp only []
  split_ifs
  · exact set_bit_other_byte _ _ _ _ h
  · rfl

theorem fix_inode_loop_byte (n b : Nat) (fs : Bool × State) (h : n ≤ 8 * b) :
    (for_loop n fix_inode_bitmap_body fs).2.inode_bitmap b = fs.2.inode_bitmap b := by
  induction n with
  | zero => rw [for_loop_zero]
  | succ n ih =>
    rw [for_loop_succ, fix_inode_bitmap_body_byte n b _ (by omega)]
    exact ih (by omega)

theorem fix_data_bitmap_body_byte (i b : Nat) (fs : Bool × State) (h : b ≠ i / 8) :
    (fix_data_bitmap_body i fs).2.data_bitmap b = fs.2.data_bitmap b := by
  unfold fix_data_bitmap_body
  simp only []
  split_ifs
  · exact set_bit_other_byte _ _ _ _ h
  · rfl

theorem fix_data_loop_byte (n b : Nat) (fs : Bool × State) (h : n ≤ 8 * b) :
    (for_loop n fix_data_bitmap_body fs).2.data_bitmap b = fs.2.data_bitmap b := by
  induction n with
  | zero => rw [for_loop_zero]
  | succ n ih =>
    rw [for_loop_succ, fix_data_bitmap_body_byte n b _ (by omega)]
    exact ih (by omega)

theorem fix_inode_bitmap_byte (s : State) (b : Nat) (h : 10 ≤ b) :
    (fix_inode_bitmap s).inode_bitmap b = s.inode_bitmap b := by
  have h80 : INODE_COUNT ≤ 8 * b := by
    have : INODE_COUNT = 80 := rfl
    omega
  rw [fix_inode_bitmap, persist_if_fixed_inode_bitmap, fix_inode_bitmap_scan_eq,
    fix_inode_loop_byte INODE_COUNT b (false, s) h80]

theorem fix_data_bitmap_byte (s : State) (b : Nat) (h : 7 ≤ b) :
    (fix_data_bitmap s).data_bitmap b = s.data_bitmap b := by
  have h56 : DATA_BLOCK_COUNT ≤ 8 * b := by
    have : DATA_BLOCK_COUNT = 56 := rfl
    omega
  have hst := (stored_eq_iff _ _).1 (tracked_stored s)
  rw [fix_data_bitmap, persist_if_fixed_data_bitmap, fix_data_bitmap_scan_eq,
    fix_data_loop_byte DATA_BLOCK_COUNT b _ h56]
  dsimp only
  exact congrFun hst.2.2.1 b

theorem bitmap_bit_of_byte (bm1 bm2 : Nat → Nat) (k : Nat) (h : bm1 (k / 8) = bm2 (k / 8)) :
    bitmap_bit bm1 k = bitmap_bit bm2 k := by
  unfold bitmap_bit
  rw [h]

/-- C15: the three repair functions leave the whole inode table unchanged. `fix_superblock`
changes nothing of the stored image but the nine checked superblock fields (the reserved
bytes and both bitmaps keep their values); `fix_inode_bitmap` changes nothing but bits
0..79 of the inode bitmap (bytes 10 and up, hence all bits from 80 on, the superblock and
the data bitmap keep their values); `fix_data_bitmap` changes nothing but bits 0..55 of the
data bitmap (bytes 7 and up, hence all bits from 56 on, the superblock and the inode bitmap
keep their values). -/
theorem repair_frame (s : State) :
    ((fix_superblock s).inodes = s.inodes ∧ (fix_inode_bitmap s).inodes = s.inodes ∧
      (fix_data_bitmap s).inodes = s.inodes ∧ (run_fixes s).inodes = s.inodes) ∧
    ((fix_superblock s).sb.reserved = s.sb.reserved ∧
      (fix_superblock s).inode_bitmap = s.inode_bitmap ∧
      (fix_superblock s).data_bitmap = s.data_bitmap) ∧
    ((fix_inode_bitmap s).sb = s.sb ∧ (fix_inode_bitmap s).data_bitmap = s.data_bitmap ∧
      (∀ b, 10 ≤ b → (fix_inode_bitmap s).inode_bitmap b = s.inode_bitmap b) ∧
      (∀ k, 80 ≤ k →
        bitmap_bit (fix_inode_bitmap s).inode_bitmap k = bitmap_bit s.inode_bitmap k)) ∧
    ((fix_data_bitmap s).sb = s.sb ∧ (fix_data_bitmap s).inode_bitmap = s.inode_bitmap ∧
      (∀ b, 7 ≤ b → (fix_data_bitmap s).data_bitmap b = s.data_bitmap b) ∧
      (∀ k, 56 ≤ k →
        bitmap_bit (fix_data_bitmap s).data_bitmap k = bitmap_bit s.data_bitmap k)) ∧
    ((run_fixes s).sb.reserved = s.sb.reserved ∧
      (∀ k, 80 ≤ k → bitmap_bit (run_fixes s).inode_bitmap k = bitmap_bit s.inode_bitmap k) ∧
      (∀ k, 56 ≤ k → bitmap_bit (run_fixes s).data_bitmap k = bitmap_bit s.data_bitmap k)) := by
  obtain ⟨hs1, hs2, hs3⟩ := fix_superblock_frame s
  obtain ⟨hi1, hi2⟩ := fix_inode_bitmap_frame s
  obtain ⟨hd1, hd2⟩ := fix_data_bitmap_frame s
  have hres : (fix_superblock s).sb.reserved = s.sb.reserved := by
    rw [fix_superblock_sb]
    rfl
  refine ⟨⟨hs3, fix_inode_bitmap_inodes s, fix_data_bitmap_inodes s, run_fixes_inodes s⟩,
    ⟨hres, hs1, hs2⟩,
    ⟨hi1, hi2, fix_inode_bitmap_byte s, ?_⟩,
    ⟨hd1, hd2, fix_data_bitmap_byte s, ?_⟩, ?_, ?_, ?_⟩
  · intro k hk
    exact bitmap_bit_of_byte _ _ k (fix_inode_bitmap_byte s (k / 8) (by omega))
  · intro k hk
    exact bitmap_bit_of_byte _ _ k (fix_data_bitmap_byte s (k / 8) (by omega))
  · rw [run_fixes_eq, (fix_data_bitmap_frame _).1, (fix_inode_bitmap_frame _).1]
    exact hres
  · intro k hk
    rw [run_fixes_eq, (fix_data_bitmap_frame _).2]
    rw [bitmap_bit_of_byte _ _ k (fix_inode_bitmap_byte (fix_superblock s) (k / 8) (by omega)),
      hs1]
  · intro k hk
    rw [run_fixes_eq]
    rw [bitmap_bit_of_byte _ _ k
      (fix_data_bitmap_byte (fix_inode_bitmap (fix_superblock s)) (k / 8) (by omega)),
      (fix_inode_bitmap_frame _).2, hs2]

/-! ## Pointer findings depend on the inode table only -/

/-- C16: the findings and counts of `check_duplicate_blocks` and of `check_bad_blocks` are
determined by the inode table: two states with the same inode table, whatever their
superblock, bitmaps and tracker arrays, give the same findings and counts. The repair
passes keep the inode table, so both checks report the same before and after a full repair
pass. -/
theorem pointer_findings_from_inodes (s1 s2 : State) (h : s1.inodes = s2.inodes) :
    (∃ dups bads : List Msg,
      (check_duplicate_blocks s1).2.out = s1.out ++ dups ∧
      (check_duplicate_blocks s2).2.out = s2.out ++ dups ∧
      (check_duplicate_blocks s1).1 = dups.length ∧
      (check_duplicate_blocks s2).1 = dups.length ∧
      (check_bad_blocks s1).2.out = s1.out ++ bads ∧
      (check_bad_blocks s2).2.out = s2.out ++ bads ∧
      (check_bad_blocks s1).1 = bads.length ∧
      (check_bad_blocks s2).1 = bads.length) ∧
    (∃ dups bads : List Msg,
      (check_duplicate_blocks s1).2.out = s1.out ++ dups ∧
      (check_duplicate_blocks (run_fixes s1)).2.out = (run_fixes s1).out ++ dups ∧
      (check_duplicate_blocks (run_fixes s1)).1 = (check_duplicate_blocks s1).1 ∧
      (check_bad_blocks s1).2.out = s1.out ++ bads ∧
      (check_bad_blocks (run_fixes s1)).2.out = (run_fixes s1).out ++ bads ∧
      (check_bad_blocks (run_fixes s1)).1 = (check_bad_blocks s1).1) := by
  obtain ⟨hc1, ho1⟩ := check_duplicate_blocks_result s1
  obtain ⟨hc2, ho2⟩ := check_duplicate_blocks_result s2
  obtain ⟨hc3, ho3⟩ := check_duplicate_blocks_result (run_fixes s1)
  have hb1 := check_bad_blocks_eq s1
  have hb2 := check_bad_blocks_eq s2
  have hb3 := check_bad_blocks_eq (run_fixes s1)
  rw [← h] at hc2 ho2 hb2
  rw [run_fixes_inodes] at hc3 ho3 hb3
  refine ⟨⟨conflicts_after [] (block_claims s1.inodes),
      (bad_slots s1.inodes).map (bad_pointer_msg s1.inodes), ho1, ho2, hc1, hc2, ?_, ?_, ?_, ?_⟩,
    ⟨conflicts_after [] (block_claims s1.inodes),
      (bad_slots s1.inodes).map (bad_pointer_msg s1.inodes), ho1, ho3, ?_, ?_, ?_, ?_⟩⟩
  · rw [hb1]
  · rw [hb2]
  · rw [hb1, List.length_map]
  · rw [hb2, List.length_map]
  · rw [hc3, hc1]
  · rw [hb1]
  · rw [hb3]
  · rw [hb3, hb1]

/-- Witness for C16: two loaded images with the same inode table, one with empty bitmaps
and the right superblock, the other with full bitmaps and a wrong magic number. -/
theorem pointer_findings_from_inodes_witness :
    image_shared_block.inodes = image_shared_block_marked.inodes ∧
    ∃ dups : List Msg,
      (check_duplicate_blocks image_shared_block).2.out = image_shared_block.out ++ dups ∧
      (check_duplicate_blocks image_shared_block_marked).2.out
        = image_shared_block_marked.out ++ dups :=
  have h := pointer_findings_from_inodes image_shared_block image_shared_block_marked rfl
  ⟨rfl, h.1.elim (fun dups hd => hd.elim (fun _ hb => ⟨dups, hb.1, hb.2.1⟩))⟩

/-! ## Size of the inode record -/

/-- C20 (the code at fault): the members of the packed `Inode` record add up to 212 bytes,
not to the 256 bytes of `INODE_SIZE` that the comment on `reserved[156]` announces. -/
theorem inode_record_size_is_212 :
    inode_record_size = 14 * 4 + 156 ∧ inode_record_size = 212 ∧
      inode_record_size ≠ INODE_SIZE ∧ INODE_SIZE = 256 := by
  decide

/-! ## Size of the superblock record -/

/-- C22 (the code at fault): the members of the packed `Superblock` record add up to 4092
bytes, four short of `BLOCK_SIZE`, so the transfer of block 0 to or from `&sb` touches four
bytes beyond the record, while the block-sized bitmap buffers are transferred exactly. -/
theorem superblock_record_size_is_4092 :
    superblock_record_size = 2 + 8 * 4 + 4058 ∧ superblock_record_size = 4092 ∧
      superblock_record_size ≠ BLOCK_SIZE ∧ BLOCK_SIZE = 4096 ∧
      transfer_overrun superblock_record_size = 4 ∧ transfer_overrun BLOCK_SIZE = 0 := by
  decide
/-! ## Convergence of the full run -/

theorem check_superblock_tracker (s : State) :
    (check_superblock s).2.inode_referenced = s.inode_referenced ∧
    (check_superblock s).2.data_block_referenced = s.data_block_referenced ∧
    (check_superblock s).2.errors_found = s.errors_found + (check_superblock s).1 := by
  simp [check_superblock]

theorem check_inode_bitmap_errors_found (s : State) :
    (check_inode_bitmap s).2.errors_found = s.errors_found + (check_inode_bitmap s).1 := by
  rw [check_inode_bitmap_unfold]

theorem check_data_bitmap_tracker (s : State) :
    (check_data_bitmap s).2.inode_referenced = s.inode_referenced ∧
    (check_data_bitmap s).2.errors_found = s.errors_found + (check_data_bitmap s).1 := by
  rw [check_data_bitmap_unfold]
  exact ⟨rfl, rfl⟩

theorem check_duplicate_blocks_tracker (s : State) :
    (check_duplicate_blocks s).2.inode_referenced = s.inode_referenced ∧
    (check_duplicate_blocks s).2.errors_found
      = s.errors_found + (check_duplicate_blocks s).1 := by
  have h1 := for_loop_preserves (fun es : Nat × State => es.2.inode_referenced)
    check_duplicate_blocks_body check_duplicate_blocks_body_inode_referenced INODE_COUNT
    (0, reset_tracker s)
  have h2 := for_loop_preserves (fun es : Nat × State => es.2.errors_found)
    check_duplicate_blocks_body check_duplicate_blocks_body_errors_found INODE_COUNT
    (0, reset_tracker s)
  simp only [check_duplicate_blocks, reset_tracker] at h1 h2 ⊢
  exact ⟨h1, by rw [h2]⟩

theorem check_bad_blocks_tracker (s : State) :
    (check_bad_blocks s).2.inode_referenced = s.inode_referenced ∧
    (check_bad_blocks s).2.errors_found = s.errors_found + (check_bad_blocks s).1 := by
  rw [check_bad_blocks_eq]
  exact ⟨rfl, rfl⟩

theorem stored_inodes (a b : State) (h : a.stored = b.stored) : a.inodes = b.inodes :=
  ((stored_eq_iff a b).1 h).2.2.2.1

theorem flags_sound_of_eq (a b : State) (hf : b.inode_referenced = a.inode_referenced)
    (hi : b.inodes = a.inodes) (h : flags_sound a) : flags_sound b := by
  intro i hlt
  rw [hf, hi]
  exact h i hlt

theorem run_checks_flags_sound (s : State) (h : flags_sound s) : flags_sound (run_checks s) := by
  have h1 : flags_sound (check_superblock s).2 :=
    flags_sound_of_eq s _ (check_superblock_tracker s).1
      (stored_inodes _ _ (check_superblock_stored s)) h
  have h2 : flags_sound (check_inode_bitmap (check_superblock s).2).2 :=
    check_inode_bitmap_flags_sound _ h1
  have h3 := flags_sound_of_eq _ _ (check_data_bitmap_tracker
    (check_inode_bitmap (check_superblock s).2).2).1
      (stored_inodes _ _ (check_data_bitmap_stored _)) h2
  have h4 := flags_sound_of_eq _ _ (check_duplicate_blocks_tracker
    (check_data_bitmap (check_inode_bitmap (check_superblock s).2).2).2).1
      (stored_inodes _ _ (check_duplicate_blocks_stored _)) h3
  exact flags_sound_of_eq _ _ (check_bad_blocks_tracker
    (check_duplicate_blocks (check_data_bitmap
      (check_inode_bitmap (check_superblock s).2).2).2).2).1
      (stored_inodes _ _ (check_bad_blocks_stored _)) h4

theorem fix_superblock_inode_referenced (s : State) :
    (fix_superblock s).inode_referenced = s.inode_referenced := by
  simp [fix_superblock, fix_superblock_scan]

theorem fix_data_bitmap_inode_referenced (s : State) :
    (fix_data_bitmap s).inode_referenced = s.inode_referenced := by
  rw [fix_data_bitmap, persist_if_fixed_inode_referenced, fix_data_bitmap_scan_eq,
    for_loop_preserves (fun x : Bool × State => x.2.inode_referenced) fix_data_bitmap_body
      fix_data_bitmap_body_inode_referenced DATA_BLOCK_COUNT
      (false, for_loop INODE_COUNT fix_data_bitmap_track (reset_tracker s))]
  exact for_loop_preserves (fun x : State => x.inode_referenced) fix_data_bitmap_track
    fix_data_bitmap_track_inode_referenced INODE_COUNT (reset_tracker s)

theorem run_fixes_inode_referenced (s : State) :
    (run_fixes s).inode_referenced = s.inode_referenced := by
  rw [run_fixes_eq, fix_data_bitmap_inode_referenced, fix_inode_bitmap_inode_referenced,
    fix_superblock_inode_referenced]

theorem run_checks_errors_found (s : State) :
    (run_checks s).errors_found
      = s.errors_found + (check_superblock s).1
        + (check_inode_bitmap (check_superblock s).2).1
        + (check_data_bitmap (check_inode_bitmap (check_superblock s).2).2).1
        + (conflicts_after [] (block_claims s.inodes)).length
        + (bad_slots s.inodes).length := by
  have e1 := (check_superblock_tracker s).2.2
  have i1 := stored_inodes _ _ (check_superblock_stored s)
  have e2 := check_inode_bitmap_errors_found (check_superblock s).2
  have i2 := stored_inodes _ _ (check_inode_bitmap_stored (check_superblock s).2)
  have e3 := (check_data_bitmap_tracker (check_inode_bitmap (check_superblock s).2).2).2
  have i3 := stored_inodes _ _
    (check_data_bitmap_stored (check_inode_bitmap (check_superblock s).2).2)
  have e4 := (check_duplicate_blocks_tracker
    (check_data_bitmap (check_inode_bitmap (check_superblock s).2).2).2).2
  have c4 := (check_duplicate_blocks_result
    (check_data_bitmap (check_inode_bitmap (check_superblock s).2).2).2).1
  have i4 := stored_inodes _ _ (check_duplicate_blocks_stored
    (check_data_bitmap (check_inode_bitmap (check_superblock s).2).2).2)
  have e5 := (check_bad_blocks_tracker (check_duplicate_blocks
    (check_data_bitmap (check_inode_bitmap (check_superblock s).2).2).2).2).2
  have c5 : (check_bad_blocks (check_duplicate_blocks
    (check_data_bitmap (check_inode_bitmap (check_superblock s).2).2).2).2).1
      = (bad_slots (check_duplicate_blocks
    (check_data_bitmap (check_inode_bitmap (check_superblock s).2).2).2).2.inodes).length := by
    rw [check_bad_blocks_eq]
  rw [i4, i3, i2, i1] at c5
  rw [i3, i2, i1] at c4
  simp only [run_checks]
  rw [e5, e4, e3, e2, e1, c5, c4]

theorem stored_parts (a b : State) (h : a.stored = b.stored) :
    a.sb = b.sb ∧ a.inode_bitmap = b.inode_bitmap ∧ a.data_bitmap = b.data_bitmap ∧
      a.inodes = b.inodes :=
  have h2 := (stored_eq_iff a b).1 h
  ⟨h2.1, h2.2.1, h2.2.2.1, h2.2.2.2.1⟩

theorem inode_findings_nil (bitmap : Nat → Nat) (inodes : Nat → Inode)
    (h : ∀ i, i < 80 → bitmap_bit bitmap i = decide (valid_inode (inodes i))) :
    (List.range 80).filterMap (inode_bitmap_finding bitmap inodes) = [] := by
  rw [List.filterMap_eq_nil_iff]
  intro i hi
  have hi2 : i < 80 := List.mem_range.1 hi
  rw [← Option.not_isSome_iff_eq_none, inode_bitmap_finding_isSome, not_not, h i hi2,
    decide_eq_true_eq]

theorem checks_after_repair (r : State)
    (hsb : r.sb = expected_superblock r.sb.reserved)
    (hflags : flags_sound r)
    (hib : ∀ i, i < 80 → bitmap_bit r.inode_bitmap i = decide (valid_inode (r.inodes i)))
    (hdb : ∀ d, d < 56 →
      bitmap_bit r.data_bitmap d = decide (referenced_below r.inodes 80 (d + 8)))
    (href : ∀ d, d < 56 →
      r.data_block_referenced d = decide (referenced_below r.inodes 80 (d + 8))) :
    (check_superblock r).1 = 0 ∧
    (check_inode_bitmap (check_superblock r).2).1 = 0 ∧
    (check_data_bitmap (check_inode_bitmap (check_superblock r).2).2).1 = 0 := by
  obtain ⟨-, ha_ib, ha_db, ha_in⟩ := stored_parts _ _ (check_superblock_stored r)
  obtain ⟨ha_fl, ha_ref, -⟩ := check_superblock_tracker r
  have hfa : flags_sound (check_superblock r).2 := flags_sound_of_eq r _ ha_fl ha_in hflags
  obtain ⟨-, -, hb_db, hb_in⟩ :=
    stored_parts _ _ (check_inode_bitmap_stored (check_superblock r).2)
  refine ⟨?_, ?_, ?_⟩
  · rw [check_superblock_fst_eq_zero, hsb]
    exact ⟨rfl, rfl, rfl, rfl, rfl, rfl, rfl, rfl, rfl⟩
  · rw [(check_inode_bitmap_result _ hfa).1, ha_ib, ha_in, inode_findings_nil _ _ hib]
    rfl
  · have hnil : (List.range 56).flatMap
        (data_compare_findings (check_inode_bitmap (check_superblock r).2).2) = [] := by
      apply data_findings_nil
      intro d hd
      rw [hb_db, ha_db, check_inode_bitmap_referenced _ d hd, ha_ref, ha_in, hdb d hd,
        href d hd, Bool.or_self]
    rw [check_data_bitmap_unfold, hnil]
    rfl

theorem run_fixes_repairs (s : State) :
    (run_fixes s).sb = expected_superblock (run_fixes s).sb.reserved ∧
    (∀ i, i < 80 →
      bitmap_bit (run_fixes s).inode_bitmap i = decide (valid_inode ((run_fixes s).inodes i))) ∧
    (∀ d, d < 56 → bitmap_bit (run_fixes s).data_bitmap d
      = decide (referenced_below (run_fixes s).inodes 80 (d + 8))) ∧
    (∀ d, d < 56 → (run_fixes s).data_block_referenced d
      = decide (referenced_below (run_fixes s).inodes 80 (d + 8))) := by
  have hin := run_fixes_inodes s
  have hin2 : (fix_inode_bitmap (fix_superblock s)).inodes = s.inodes := by
    rw [fix_inode_bitmap_inodes, (fix_superblock_frame s).2.2]
  rw [hin]
  rw [run_fixes_eq]
  refine ⟨?_, ?_, ?_, ?_⟩
  · rw [(fix_data_bitmap_frame _).1, (fix_inode_bitmap_frame _).1, fix_superblock_sb]
    rfl
  · intro i hi
    rw [(fix_data_bitmap_frame _).2, fix_inode_bitmap_bit _ i hi, (fix_superblock_frame s).2.2]
  · intro d hd
    rw [fix_data_bitmap_bit _ d hd, hin2]
  · intro d hd
    rw [fix_data_bitmap_referenced _ d hd, hin2]

theorem card_toFinset_eq_length_iff {α : Type} [DecidableEq α] (l : List α) :
    l.toFinset.card = l.length ↔ l.Nodup := by
  constructor
  · intro h
    rw [List.card_toFinset] at h
    exact List.dedup_eq_self.1 ((List.dedup_sublist l).eq_of_length h)
  · exact List.toFinset_card_of_nodup

theorem conflicts_nil_iff_nodup (cs : List Claim) :
    conflicts_after [] cs = [] ↔ (cs.map Claim.block).Nodup := by
  have h := conflicts_after_length [] cs
  rw [List.nil_append, List.map_nil, List.toFinset_nil, Finset.card_empty, Nat.add_zero] at h
  rw [← card_toFinset_eq_length_iff, List.length_map, ← List.length_eq_zero]
  omega

theorem conflicts_nil_iff (inodes : Nat → Inode) :
    conflicts_after [] (block_claims inodes) = [] ↔ no_duplicate_claim inodes := by
  rw [conflicts_nil_iff_nodup, List.nodup_map_iff_inj_on (block_claims_nodup inodes)]
  constructor
  · intro h i f j g hi hj hvi hvj hr he
    have hr2 : in_data_range ((inodes j).ptr g) := he ▸ hr
    have hz : ∀ v, in_data_range v → v ≠ 0 := by
      intro v hv h0
      rw [h0] at hv
      exact absurd hv.1 (by decide)
    have ha : ({ inode := i, field := f, block := (inodes i).ptr f } : Claim)
        ∈ block_claims inodes :=
      (mem_block_claims inodes _).2 ⟨hi, hvi, rfl, hz _ hr, hr⟩
    have hb : ({ inode := j, field := g, block := (inodes j).ptr g } : Claim)
        ∈ block_claims inodes :=
      (mem_block_claims inodes _).2 ⟨hj, hvj, rfl, hz _ hr2, hr2⟩
    have := h _ ha _ hb he
    simp only [Claim.mk.injEq] at this
    exact ⟨this.1, this.2.1⟩
  · intro h a ha b hb hab
    obtain ⟨hi, hvi, hpa, -, hra⟩ := (mem_block_claims inodes a).1 ha
    obtain ⟨hj, hvj, hpb, -, -⟩ := (mem_block_claims inodes b).1 hb
    have := h a.inode a.field b.inode b.field hi hj hvi hvj (hpa ▸ hra)
      (by rw [hpa, hpb, hab])
    cases a
    cases b
    simp only [Claim.mk.injEq]
    exact ⟨this.1, this.2, hab⟩

theorem bad_slots_nil_iff (inodes : Nat → Inode) :
    bad_slots inodes = [] ↔ no_bad_pointer inodes := by
  constructor
  · intro h i f hi hv hne
    by_contra hnr
    have hm := (mem_bad_slots inodes i f).2 ⟨hi, hv, hne, hnr⟩
    rw [h] at hm
    cases hm
  · intro h
    rw [List.eq_nil_iff_forall_not_mem]
    intro p hm
    obtain ⟨hi, hv, hne, hnr⟩ := (mem_bad_slots inodes p.1 p.2).1 hm
    exact hnr (h p.1 p.2 hi hv hne)

theorem recheck_start_eq (s : State) :
    recheck_start s = { run_fixes (run_checks s) with errors_found := 0 } :=
  rfl

theorem reset_errors_found_proj (x : State) :
    ({ x with errors_found := 0 } : State).sb = x.sb ∧
    ({ x with errors_found := 0 } : State).inode_bitmap = x.inode_bitmap ∧
    ({ x with errors_found := 0 } : State).data_bitmap = x.data_bitmap ∧
    ({ x with errors_found := 0 } : State).inodes = x.inodes ∧
    ({ x with errors_found := 0 } : State).inode_referenced = x.inode_referenced ∧
    ({ x with errors_found := 0 } : State).data_block_referenced = x.data_block_referenced ∧
    ({ x with errors_found := 0 } : State).errors_found = 0 :=
  ⟨rfl, rfl, rfl, rfl, rfl, rfl, rfl⟩

theorem recheck_start_proj (s : State) :
    (recheck_start s).sb = (run_fixes (run_checks s)).sb ∧
    (recheck_start s).inode_bitmap = (run_fixes (run_checks s)).inode_bitmap ∧
    (recheck_start s).data_bitmap = (run_fixes (run_checks s)).data_bitmap ∧
    (recheck_start s).inodes = (run_fixes (run_checks s)).inodes ∧
    (recheck_start s).inode_referenced = (run_fixes (run_checks s)).inode_referenced ∧
    (recheck_start s).data_block_referenced
      = (run_fixes (run_checks s)).data_block_referenced ∧
    (recheck_start s).errors_found = 0 := by
  rw [recheck_start_eq]
  exact reset_errors_found_proj (run_fixes (run_checks s))

theorem recheck_start_fields (s : State) :
    (recheck_start s).inodes = s.inodes ∧
    (recheck_start s).errors_found = 0 ∧
    (recheck_start s).sb = expected_superblock (recheck_start s).sb.reserved ∧
    (∀ i, i < 80 → bitmap_bit (recheck_start s).inode_bitmap i
      = decide (valid_inode ((recheck_start s).inodes i))) ∧
    (∀ d, d < 56 → bitmap_bit (recheck_start s).data_bitmap d
      = decide (referenced_below (recheck_start s).inodes 80 (d + 8))) ∧
    (∀ d, d < 56 → (recheck_start s).data_block_referenced d
      = decide (referenced_below (recheck_start s).inodes 80 (d + 8))) := by
  obtain ⟨h1, h2, h3, h4⟩ := run_fixes_repairs (run_checks s)
  obtain ⟨p1, p2, p3, p4, -, p6, p7⟩ := recheck_start_proj s
  have hin : (run_fixes (run_checks s)).inodes = s.inodes := by
    rw [run_fixes_inodes]
    exact stored_inodes _ _ (run_checks_stored s)
  rw [p1, p2, p3, p4, p6]
  exact ⟨hin, p7, h1, h2, h3, h4⟩

theorem recheck_start_flags_sound (s : State) (h : flags_sound s) :
    flags_sound (recheck_start s) := by
  obtain ⟨-, -, -, p4, p5, -, -⟩ := recheck_start_proj s
  exact flags_sound_of_eq (run_checks s) (recheck_start s)
    (p5.trans (run_fixes_inode_referenced (run_checks s)))
    (p4.trans (run_fixes_inodes (run_checks s))) (run_checks_flags_sound s h)

theorem main_repairs (s : State) (h : 0 < (run_checks s).errors_found) :
    main true s = run_checks (recheck_start s) ∧
    main_verdict true s
      = if (run_checks (recheck_start s)).errors_found = 0 then Verdict.now_consistent
        else Verdict.manual_intervention := by
  unfold main main_verdict recheck_start
  simp only [gt_iff_lt, h, if_true, and_self]

theorem main_verdict_no_error (s : State) (answer_yes : Bool)
    (h : (run_checks s).errors_found = 0) :
    main_verdict answer_yes s = Verdict.consistent_no_errors := by
  unfold main_verdict
  simp [h]

theorem recheck_converges (s : State) (h : flags_sound s) :
    (check_superblock (recheck_start s)).1 = 0 ∧
    (check_inode_bitmap (check_superblock (recheck_start s)).2).1 = 0 ∧
    (check_data_bitmap (check_inode_bitmap (check_superblock (recheck_start s)).2).2).1 = 0 ∧
    (run_checks (recheck_start s)).errors_found
      = (conflicts_after [] (block_claims s.inodes)).length + (bad_slots s.inodes).length := by
  obtain ⟨hin, herr, hsb, hib, hdb, href⟩ := recheck_start_fields s
  obtain ⟨c1, c2, c3⟩ := checks_after_repair (recheck_start s) hsb
    (recheck_start_flags_sound s h) hib hdb href
  refine ⟨c1, c2, c3, ?_⟩
  rw [run_checks_errors_found, c1, c2, c3, herr, hin]
  omega

theorem run_checks_eq (s : State) :
    run_checks s
      = (check_bad_blocks (check_duplicate_blocks (check_data_bitmap
          (check_inode_bitmap (check_superblock s).2).2).2).2).2 :=
  rfl

theorem recheck_pointer_counts (s : State) :
    (check_duplicate_blocks (check_data_bitmap
        (check_inode_bitmap (check_superblock s).2).2).2).1
      = (conflicts_after [] (block_claims s.inodes)).length ∧
    (check_bad_blocks (check_duplicate_blocks (check_data_bitmap
        (check_inode_bitmap (check_superblock s).2).2).2).2).1
      = (bad_slots s.inodes).length := by
  have i1 := stored_inodes _ _ (check_superblock_stored s)
  have i2 := stored_inodes _ _ (check_inode_bitmap_stored (check_superblock s).2)
  have i3 := stored_inodes _ _
    (check_data_bitmap_stored (check_inode_bitmap (check_superblock s).2).2)
  have i4 := stored_inodes _ _ (check_duplicate_blocks_stored
    (check_data_bitmap (check_inode_bitmap (check_superblock s).2).2).2)
  constructor
  · rw [(check_duplicate_blocks_result _).1, i3, i2, i1]
  · rw [check_bad_blocks_eq]
    dsimp only
    rw [i4, i3, i2, i1]

theorem main_errors_found (s : State) (h : flags_sound s) (h0 : s.errors_found = 0) :
    (main true s).errors_found
        = (conflicts_after [] (block_claims s.inodes)).length + (bad_slots s.inodes).length ∧
    ((main_verdict true s = Verdict.consistent_no_errors ∨
        main_verdict true s = Verdict.now_consistent) ↔
      (no_duplicate_claim s.inodes ∧ no_bad_pointer s.inodes)) ∧
    (¬ (no_duplicate_claim s.inodes ∧ no_bad_pointer s.inodes) →
      main_verdict true s = Verdict.manual_intervention) := by
  have hconv := (recheck_converges s h).2.2.2
  have hfirst := run_checks_errors_found s
  have hlen : (no_duplicate_claim s.inodes ∧ no_bad_pointer s.inodes) ↔
      (conflicts_after [] (block_claims s.inodes)).length + (bad_slots s.inodes).length = 0 := by
    rw [← conflicts_nil_iff, ← bad_slots_nil_iff, ← List.length_eq_zero,
      ← List.length_eq_zero (l := bad_slots s.inodes)]
    omega
  by_cases hpos : 0 < (run_checks s).errors_found
  · obtain ⟨hm, hv⟩ := main_repairs s hpos
    rw [hm, hv, hconv, hlen]
    refine ⟨rfl, ?_, ?_⟩
    · split_ifs with hz
      · simp [hz]
      · simp [hz]
    · intro hn
      rw [if_neg hn]
  · have hz : (run_checks s).errors_found = 0 := by omega
    rw [main_no_error s true hz, main_verdict_no_error s true hz, hz, hlen]
    have : (conflicts_after [] (block_claims s.inodes)).length
        + (bad_slots s.inodes).length = 0 := by omega
    refine ⟨this.symm, ?_, ?_⟩
    · simp [this]
    · intro hn
      exact absurd this hn

theorem initial_state_flags_sound (sb : Superblock) (inode_bitmap data_bitmap : Nat → Nat)
    (inodes : Nat → Inode) :
    flags_sound (initial_state sb inode_bitmap data_bitmap inodes) := by
  intro i _ hi
  exact absurd hi (by simp [initial_state])

theorem initial_state_inodes (sb : Superblock) (inode_bitmap data_bitmap : Nat → Nat)
    (inodes : Nat → Inode) :
    (initial_state sb inode_bitmap data_bitmap inodes).inodes = inodes ∧
    (initial_state sb inode_bitmap data_bitmap inodes).errors_found = 0 :=
  ⟨rfl, rfl⟩

/-- Three concrete runs with the operator answering yes: the image with one unmarked file is
repaired, the image with a shared block is not, and its re-check counts the one conflict. -/
theorem full_run_examples :
    main_verdict true image_unmarked_file = Verdict.now_consistent ∧
    main_verdict true image_shared_block = Verdict.manual_intervention ∧
    (main true image_shared_block).errors_found = 1 := by
  refine ⟨?_, ?_, ?_⟩
  · decide!
  · decide!
  · decide!

/-- C21: for every loaded image, when the first pass finds errors and the operator answers
yes, `main` ends in the state of the re-check started from the repaired image; in that
re-check `check_superblock`, `check_inode_bitmap` and `check_data_bitmap` each return 0,
`check_duplicate_blocks` and `check_bad_blocks` return the number of conflicts and of bad
pointers of the inode table, and the final `errors_found` is the sum of these two. With the
operator answering yes `main` always ends with that `errors_found`, and its closing line
says that the file system is consistent iff the inode table has no duplicate claim (no data
block named by two pointer fields of valid inodes, two fields of one inode included) and no
bad pointer; otherwise it asks for manual intervention. -/
theorem full_run_converges (sb : Superblock) (inode_bitmap data_bitmap : Nat → Nat)
    (inodes : Nat → Inode) :
    (0 < (run_checks (initial_state sb inode_bitmap data_bitmap inodes)).errors_found →
      main true (initial_state sb inode_bitmap data_bitmap inodes)
        = run_checks (recheck_start (initial_state sb inode_bitmap data_bitmap inodes))) ∧
    (check_superblock
      (recheck_start (initial_state sb inode_bitmap data_bitmap inodes))).1 = 0 ∧
    (check_inode_bitmap (check_superblock
      (recheck_start (initial_state sb inode_bitmap data_bitmap inodes))).2).1 = 0 ∧
    (check_data_bitmap (check_inode_bitmap (check_superblock
      (recheck_start (initial_state sb inode_bitmap data_bitmap inodes))).2).2).1 = 0 ∧
    (check_duplicate_blocks (check_data_bitmap (check_inode_bitmap (check_superblock
      (recheck_start (initial_state sb inode_bitmap data_bitmap inodes))).2).2).2).1
        = (conflicts_after [] (block_claims inodes)).length ∧
    (check_bad_blocks (check_duplicate_blocks (check_data_bitmap (check_inode_bitmap
      (check_superblock
        (recheck_start (initial_state sb inode_bitmap data_bitmap inodes))).2).2).2).2).1
        = (bad_slots inodes).length ∧
    (run_checks (recheck_start (initial_state sb inode_bitmap data_bitmap inodes))).errors_found
      = (conflicts_after [] (block_claims inodes)).length + (bad_slots inodes).length ∧
    (main true (initial_state sb inode_bitmap data_bitmap inodes)).errors_found
      = (conflicts_after [] (block_claims inodes)).length + (bad_slots inodes).length ∧
    ((main_verdict true (initial_state sb inode_bitmap data_bitmap inodes)
          = Verdict.consistent_no_errors ∨
        main_verdict true (initial_state sb inode_bitmap data_bitmap inodes)
          = Verdict.now_consistent) ↔
      (no_duplicate_claim inodes ∧ no_bad_pointer inodes)) ∧
    (¬ (no_duplicate_claim inodes ∧ no_bad_pointer inodes) →
      main_verdict true (initial_state sb inode_bitmap data_bitmap inodes)
        = Verdict.manual_intervention) := by
  have hs := initial_state_flags_sound sb inode_bitmap data_bitmap inodes
  obtain ⟨hi0, he0⟩ := initial_state_inodes sb inode_bitmap data_bitmap inodes
  obtain ⟨h1, h2, h3, h4⟩ := recheck_converges _ hs
  obtain ⟨hd, hb⟩ := recheck_pointer_counts
    (recheck_start (initial_state sb inode_bitmap data_bitmap inodes))
  obtain ⟨m1, m2, m3⟩ := main_errors_found _ hs he0
  have hin := (recheck_start_fields (initial_state sb inode_bitmap data_bitmap inodes)).1
  rw [hin, hi0] at hd hb
  rw [hi0] at h4 m1 m2 m3
  exact ⟨fun hpos => (main_repairs _ hpos).1, h1, h2, h3, hd, hb, h4, m1, m2, m3⟩
/-! ## Array accesses stay in bounds -/

theorem read_at_lt {α : Type} (len : Nat) (a : Nat → α) (i : Nat) (h : i < len) :
    read_at len a i = some (a i) := by
  simp [read_at, h]

theorem write_at_lt {α : Type} (len : Nat) (a : Nat → α) (i : Nat) (v : α) (h : i < len) :
    write_at len a i v = some (Function.update a i v) := by
  simp [write_at, h]

theorem for_loop_checked_eq {σ : Type} (n : Nat) (body_c : Nat → σ → Option σ)
    (body : Nat → σ → σ) (h : ∀ i, i < n → ∀ s, body_c i s = some (body i s)) (init : σ) :
    for_loop_checked n body_c init = some (for_loop n body init) := by
  induction n with
  | zero => rfl
  | succ n ih =>
    have ih2 := ih (fun i hi => h i (Nat.lt_succ_of_lt hi))
    unfold for_loop_checked at ih2 ⊢
    rw [List.range_succ, List.foldlM_append, ih2, for_loop_succ]
    simp [h n (Nat.lt_succ_self n)]

theorem byte_index_lt (nbits bit : Nat) (h : bit < nbits) (hn : nbits ≤ 80) :
    bit / 8 < BLOCK_SIZE := by
  unfold BLOCK_SIZE
  omega

theorem is_bit_set_checked_eq (nbits : Nat) (bitmap : Nat → Nat) (bit : Nat) (h : bit < nbits)
    (hn : nbits ≤ 80) :
    is_bit_set_checked nbits bitmap bit = some (is_bit_set bitmap bit) := by
  simp [is_bit_set_checked, is_bit_set, h, read_at_lt _ _ _ (byte_index_lt nbits bit h hn)]

theorem set_bit_checked_eq (nbits : Nat) (bitmap : Nat → Nat) (bit : Nat) (value : Bool)
    (h : bit < nbits) (hn : nbits ≤ 80) :
    set_bit_checked nbits bitmap bit value = some (set_bit bitmap bit value) := by
  have hb := byte_index_lt nbits bit h hn
  cases value <;>
    simp [set_bit_checked, set_bit, h, read_at_lt _ _ _ hb, write_at_lt _ _ _ _ hb]

theorem is_inode_valid_checked_eq (inodes : Nat → Inode) (i : Nat) (h : i < INODE_COUNT) :
    is_inode_valid_checked inodes i = some (is_inode_valid inodes i) := by
  simp [is_inode_valid_checked, is_inode_valid, read_at_lt _ _ _ h]

theorem data_idx_lt (ptr : Nat) (h0 : ptr ≠ 0) (hv : is_block_valid ptr = true) :
    u32_sub ptr DATA_BLOCK_START < DATA_BLOCK_COUNT := by
  rw [is_block_valid_eq_true] at hv
  have hr : in_data_range ptr := hv.resolve_left h0
  rw [u32_sub_data_start ptr hr]
  have := hr.2
  have h56 : DATA_BLOCK_COUNT = 56 := rfl
  have := hr.1
  omega

theorem track_pointer_checked_eq (i ptr : Nat) (s : State) :
    track_pointer_checked i ptr s = some (track_pointer i ptr s) := by
  unfold track_pointer_checked track_pointer
  by_cases h0 : ptr ≠ 0
  · by_cases hv : is_block_valid ptr = true
    · have hd := data_idx_lt ptr h0 hv
      simp [h0, hv, write_at_lt _ _ _ _ hd]
    · simp [h0, hv]
  · simp [h0]

theorem process_block_pointers_checked_eq (i : Nat) (s : State) (h : i < INODE_COUNT) :
    process_block_pointers_checked i s = some (process_block_pointers i s) := by
  simp [process_block_pointers_checked, process_block_pointers, read_at_lt _ _ _ h,
    track_pointer_checked_eq]

theorem check_inode_bitmap_mark_checked_eq (i : Nat) (s : State) (h : i < INODE_COUNT) :
    check_inode_bitmap_mark_checked i s = some (check_inode_bitmap_mark i s) := by
  unfold check_inode_bitmap_mark_checked check_inode_bitmap_mark
  rw [is_inode_valid_checked_eq _ _ h]
  cases is_inode_valid s.inodes i <;>
    simp [write_at_lt _ _ _ _ h, process_block_pointers_checked_eq _ _ h]

theorem check_inode_bitmap_compare_checked_eq (i : Nat) (es : Nat × State)
    (h : i < INODE_COUNT) :
    check_inode_bitmap_compare_checked i es = some (check_inode_bitmap_compare i es) := by
  unfold check_inode_bitmap_compare_checked check_inode_bitmap_compare
  rw [is_bit_set_checked_eq _ _ _ h (by decide)]
  simp [read_at_lt _ _ _ h]

theorem check_inode_bitmap_checked_eq (s : State) :
    check_inode_bitmap_checked s = some (check_inode_bitmap s) := by
  unfold check_inode_bitmap_checked check_inode_bitmap
  rw [for_loop_checked_eq INODE_COUNT check_inode_bitmap_mark_checked check_inode_bitmap_mark
    (fun i hi s => check_inode_bitmap_mark_checked_eq i s hi) s]
  simp only [Option.some_bind, Option.bind_eq_bind]
  rw [for_loop_checked_eq INODE_COUNT check_inode_bitmap_compare_checked
    check_inode_bitmap_compare (fun i hi s => check_inode_bitmap_compare_checked_eq i s hi)
    (0, for_loop INODE_COUNT check_inode_bitmap_mark s)]
  rfl

theorem check_data_bitmap_compare_checked_eq (i : Nat) (es : Nat × State)
    (h : i < DATA_BLOCK_COUNT) :
    check_data_bitmap_compare_checked i es = some (check_data_bitmap_compare i es) := by
  unfold check_data_bitmap_compare_checked check_data_bitmap_compare
  rw [is_bit_set_checked_eq _ _ _ h (by decide)]
  simp only [Option.some_bind, Option.bind_eq_bind, read_at_lt _ _ _ h]
  split_ifs <;> simp_all

theorem check_data_bitmap_checked_eq (s : State) :
    check_data_bitmap_checked s = some (check_data_bitmap s) := by
  unfold check_data_bitmap_checked check_data_bitmap
  rw [for_loop_checked_eq DATA_BLOCK_COUNT check_data_bitmap_compare_checked
    check_data_bitmap_compare (fun i hi s => check_data_bitmap_compare_checked_eq i s hi) (0, s)]
  rfl

theorem dup_check_pointer_checked_eq (i ptr : Nat) (es : Nat × State) :
    dup_check_pointer_checked i ptr es = some (dup_check_pointer i ptr es) := by
  unfold dup_check_pointer_checked dup_check_pointer
  by_cases h : ptr ≠ 0 ∧ is_block_valid ptr = true
  · have hd := data_idx_lt ptr h.1 h.2
    rw [if_pos h, if_pos h]
    simp only [Option.some_bind, Option.bind_eq_bind, read_at_lt _ _ _ hd,
      write_at_lt _ _ _ _ hd]
    split_ifs <;> rfl
  · rw [if_neg h, if_neg h]
    rfl

theorem check_duplicate_blocks_body_checked_eq (i : Nat) (es : Nat × State)
    (h : i < INODE_COUNT) :
    check_duplicate_blocks_body_checked i es = some (check_duplicate_blocks_body i es) := by
  unfold check_duplicate_blocks_body_checked check_duplicate_blocks_body
  rw [is_inode_valid_checked_eq _ _ h]
  cases is_inode_valid es.2.inodes i <;>
    simp [read_at_lt _ _ _ h, dup_check_pointer_checked_eq]

theorem check_duplicate_blocks_checked_eq (s : State) :
    check_duplicate_blocks_checked s = some (check_duplicate_blocks s) := by
  unfold check_duplicate_blocks_checked check_duplicate_blocks
  simp only []
  rw [for_loop_checked_eq INODE_COUNT check_duplicate_blocks_body_checked
    check_duplicate_blocks_body (fun i hi s => check_duplicate_blocks_body_checked_eq i s hi)]
  rfl

theorem check_bad_blocks_body_checked_eq (i : Nat) (es : Nat × State) (h : i < INODE_COUNT) :
    check_bad_blocks_body_checked i es = some (check_bad_blocks_body i es) := by
  unfold check_bad_blocks_body_checked check_bad_blocks_body
  rw [is_inode_valid_checked_eq _ _ h]
  cases is_inode_valid es.2.inodes i <;>
    simp [read_at_lt _ _ _ h]

theorem check_bad_blocks_checked_eq (s : State) :
    check_bad_blocks_checked s = some (check_bad_blocks s) := by
  unfold check_bad_blocks_checked check_bad_blocks
  rw [for_loop_checked_eq INODE_COUNT check_bad_blocks_body_checked
    check_bad_blocks_body (fun i hi s => check_bad_blocks_body_checked_eq i s hi) (0, s)]
  rfl

theorem fix_inode_bitmap_body_checked_eq (i : Nat) (fs : Bool × State) (h : i < INODE_COUNT) :
    fix_inode_bitmap_body_checked i fs = some (fix_inode_bitmap_body i fs) := by
  unfold fix_inode_bitmap_body_checked fix_inode_bitmap_body
  rw [is_inode_valid_checked_eq _ _ h, is_bit_set_checked_eq _ _ _ h (by decide)]
  simp only [Option.some_bind, Option.bind_eq_bind, set_bit_checked_eq _ _ _ _ h (by decide)]
  split_ifs <;> rfl

theorem fix_inode_bitmap_checked_eq (s : State) :
    fix_inode_bitmap_checked s = some (fix_inode_bitmap s) := by
  unfold fix_inode_bitmap_checked
  rw [for_loop_checked_eq INODE_COUNT fix_inode_bitmap_body_checked
    fix_inode_bitmap_body (fun i hi s => fix_inode_bitmap_body_checked_eq i s hi) (false, s)]
  rfl

theorem fix_data_bitmap_track_checked_eq (i : Nat) (s : State) (h : i < INODE_COUNT) :
    fix_data_bitmap_track_checked i s = some (fix_data_bitmap_track i s) := by
  unfold fix_data_bitmap_track_checked fix_data_bitmap_track
  rw [is_inode_valid_checked_eq _ _ h]
  cases is_inode_valid s.inodes i <;>
    simp [process_block_pointers_checked_eq _ _ h]

theorem fix_data_bitmap_body_checked_eq (i : Nat) (fs : Bool × State)
    (h : i < DATA_BLOCK_COUNT) :
    fix_data_bitmap_body_checked i fs = some (fix_data_bitmap_body i fs) := by
  unfold fix_data_bitmap_body_checked fix_data_bitmap_body
  rw [read_at_lt _ _ _ h, is_bit_set_checked_eq _ _ _ h (by decide)]
  simp only [Option.some_bind, Option.bind_eq_bind, set_bit_checked_eq _ _ _ _ h (by decide)]
  split_ifs <;> rfl

theorem fix_data_bitmap_checked_eq (s : State) :
    fix_data_bitmap_checked s = some (fix_data_bitmap s) := by
  unfold fix_data_bitmap_checked
  simp only []
  rw [for_loop_checked_eq INODE_COUNT fix_data_bitmap_track_checked
    fix_data_bitmap_track (fun i hi s => fix_data_bitmap_track_checked_eq i s hi)]
  simp only [Option.some_bind, Option.bind_eq_bind]
  rw [for_loop_checked_eq DATA_BLOCK_COUNT fix_data_bitmap_body_checked
    fix_data_bitmap_body (fun i hi s => fix_data_bitmap_body_checked_eq i s hi)]
  rfl

theorem run_checks_checked_eq (s : State) : run_checks_checked s = some (run_checks s) := by
  unfold run_checks_checked
  simp only [check_inode_bitmap_checked_eq, check_data_bitmap_checked_eq,
    check_duplicate_blocks_checked_eq, check_bad_blocks_checked_eq, Option.some_bind,
    Option.bind_eq_bind]
  rfl

theorem run_fixes_checked_eq (s : State) : run_fixes_checked s = some (run_fixes s) := by
  unfold run_fixes_checked
  simp only [fix_inode_bitmap_checked_eq, fix_data_bitmap_checked_eq, Option.some_bind,
    Option.bind_eq_bind]
  rfl

theorem main_checked_eq (answer_yes : Bool) (s : State) :
    main_checked answer_yes s = some (main answer_yes s) := by
  unfold main_checked main
  simp only [run_checks_checked_eq, Option.some_bind, Option.bind_eq_bind]
  split_ifs
  · simp only [run_fixes_checked_eq, Option.some_bind, Option.bind_eq_bind,
      run_checks_checked_eq]
  · rfl
  · rfl

/-- C23: for every state (every inode table, bitmap and tracker contents) no array access of
the program leaves its array. The tracker index `ptr - 8` of a nonzero pointer that passes
`is_block_valid` is below 56; a bit number below 80 or 56 gives a byte index below 4096; the
index used by `load_inodes` is below 80; and each function with checked accesses (bit number
against 80 or 56, byte index against 4096, inode index against 80, tracker index against
56) returns the result of the function itself, so the failing branch is never taken. The
last four parts show the checks at work: an inode index of 80 or a bit number of 80 or 56
fails, and the pointer 7 is never used as a tracker index. -/
theorem table_accesses_in_bounds :
    (INODE_COUNT = 80 ∧ DATA_BLOCK_COUNT = 56 ∧ BLOCK_SIZE = 4096) ∧
    (∀ ptr, ptr ≠ 0 → is_block_valid ptr = true →
      u32_sub ptr DATA_BLOCK_START < DATA_BLOCK_COUNT) ∧
    (∀ bit, bit < INODE_COUNT → bit / 8 < BLOCK_SIZE) ∧
    (∀ bit, bit < DATA_BLOCK_COUNT → bit / 8 < BLOCK_SIZE) ∧
    (∀ i j, i < INODE_TABLE_BLOCKS → j < INODES_PER_BLOCK →
      load_inodes_index i j < INODE_COUNT) ∧
    (∀ i s, i < INODE_COUNT →
      process_block_pointers_checked i s = some (process_block_pointers i s)) ∧
    (∀ s, check_inode_bitmap_checked s = some (check_inode_bitmap s)) ∧
    (∀ s, check_data_bitmap_checked s = some (check_data_bitmap s)) ∧
    (∀ s, check_duplicate_blocks_checked s = some (check_duplicate_blocks s)) ∧
    (∀ s, check_bad_blocks_checked s = some (check_bad_blocks s)) ∧
    (∀ s, fix_inode_bitmap_checked s = some (fix_inode_bitmap s)) ∧
    (∀ s, fix_data_bitmap_checked s = some (fix_data_bitmap s)) ∧
    (∀ answer_yes s, main_checked answer_yes s = some (main answer_yes s)) ∧
    (∀ s, process_block_pointers_checked INODE_COUNT s = none) ∧
    (∀ i s, track_pointer_checked i 7 s = some s) ∧
    (∀ bitmap, is_bit_set_checked INODE_COUNT bitmap 80 = none) ∧
    (∀ bitmap, is_bit_set_checked DATA_BLOCK_COUNT bitmap 56 = none) := by
  refine ⟨⟨rfl, rfl, rfl⟩, data_idx_lt, fun bit h => byte_index_lt _ bit h (by decide),
    fun bit h => byte_index_lt _ bit h (by decide), ?_,
    fun i s h => process_block_pointers_checked_eq i s h, check_inode_bitmap_checked_eq,
    check_data_bitmap_checked_eq, check_duplicate_blocks_checked_eq,
    check_bad_blocks_checked_eq, fix_inode_bitmap_checked_eq, fix_data_bitmap_checked_eq,
    main_checked_eq, ?_, ?_, ?_, ?_⟩
  · intro i j hi hj
    have h1 : INODE_TABLE_BLOCKS = 5 := rfl
    have h2 : INODES_PER_BLOCK = 16 := rfl
    have h3 : INODE_COUNT = 80 := rfl
    unfold load_inodes_index
    rw [h1] at hi
    rw [h2] at hj
    rw [h2, h3]
    omega
  · intro s
    simp [process_block_pointers_checked, read_at]
  · intro i s
    simp [track_pointer_checked, is_block_valid, DATA_BLOCK_START]
  · intro bitmap
    simp [is_bit_set_checked, INODE_COUNT, INODES_PER_BLOCK, BLOCK_SIZE, INODE_SIZE,
      INODE_TABLE_BLOCKS]
  · intro bitmap
    simp [is_bit_set_checked, DATA_BLOCK_COUNT, TOTAL_BLOCKS, DATA_BLOCK_START]

end RavenVsfs
